import Mathlib

/-!
# ESP32 flash driver: stub execution and chunked transfer

Shallow embedding of `src/flash/nor/esp32.c`.  The driver talks to the target
through functions that live outside the file (working-area allocator, memory
block transfer, algorithm runner, image reader).  Those are collected in `Env`,
an oracle that is asked with the current `Target`, so that every pattern of
success and failure of the individual steps is covered.  The `Target` carries
the two working-area pools, the bound register parameters, target memory, an
abstract flash content and the trace of the calls made so far.

Machine integers are natural numbers reduced modulo `2 ^ 32` where the C code
stores them into a `uint32_t`.
-/

namespace Esp32

/-! ## Constants of the driver -/

def ESP32_STUB_STACK_SZ : Nat := 1024
def ESP32_STUB_STACK_STAMP : Nat := 0xCE
def SPI_FLASH_SEC_SIZE : Nat := 4096
def STUB_ERR_OK : Nat := 0
def STUB_CMD_TEST : Nat := 0
def STUB_CMD_FLASH_READ : Nat := 1
def STUB_CMD_FLASH_WRITE : Nat := 2
def STUB_CMD_FLASH_ERASE : Nat := 3
def STUB_ARGS_MAX : Nat := 10
def STUB_ARGS_FUNC_START : Nat := 5
def ELF_PHF_EXEC : Nat := 1

/-- Modelled from the spec: the success code of every target call; the header
that defines `ERROR_OK` is not among the sources. -/
def ERROR_OK : Int := 0

/-- Modelled from the spec: the generic fatal failure (`LayoutMismatch`,
`StackOverflow`, `StubReportedFailure`); the header that defines `ERROR_FAIL`
is not among the sources. -/
def ERROR_FAIL : Int := -4

/-- Modelled from the spec: `TargetNotHalted`; the header that defines
`ERROR_TARGET_NOT_HALTED` is not among the sources. -/
def ERROR_TARGET_NOT_HALTED : Int := -304

/-- Modelled from the spec: `ResourceUnavailable`; the header that defines
`ERROR_TARGET_RESOURCE_NOT_AVAILABLE` is not among the sources. -/
def ERROR_TARGET_RESOURCE_NOT_AVAILABLE : Int := -308

/-- Truncation of a value stored into a `uint32_t`. -/
def u32 (v : Nat) : Nat := v % 2 ^ 32

/-! ## Data model -/

/-- Execution state of the target (`enum target_state`). -/
inductive target_state
  | TARGET_UNKNOWN
  | TARGET_RUNNING
  | TARGET_HALTED
  | TARGET_RESET
  | TARGET_DEBUG_RUNNING
  deriving DecidableEq

/-- A leased region of target memory (`struct working_area`). -/
structure working_area where
  address : Nat
  size : Nat
  deriving DecidableEq, Inhabited

/-- Which pointer of the driver an allocation is made for. -/
inductive Area
  | code
  | data
  | stack
  | algo
  | scratch
  deriving DecidableEq

/-- Which transfer of the driver a memory block access belongs to:
a stub section, the wrapper blob, the stack canary, or flash data exchanged
with the host buffer at the given index. -/
inductive Xfer
  | sec (i : Nat)
  | wrapper
  | canary
  | flash_data (host_index : Nat)
  deriving DecidableEq

/-- One call into the target abstraction, as recorded in the trace.
`invoke` marks the entry of `esp32_run_algo` with the slots bound at that
moment; `run_algorithm` is the call of `target_run_algorithm` proper, with the
value of the runner and the 32-bit value the run left for the in-out slot. -/
inductive Event
  | alloc (a : Area) (size : Nat) (res : Option working_area)
  | free (a : Area) (wa : working_area)
  | write_buffer (x : Xfer) (address : Nat) (bytes : List Nat) (retval : Int)
  | read_buffer (x : Xfer) (address : Nat) (size : Nat) (retval : Int)
  | init_reg_param (idx : Nat) (reg_name : String)
  | destroy_reg_param (idx : Nat)
  | invoke (slots : List Nat)
  | run_algorithm (slots : List Nat) (entry : Nat) (retval : Int) (status : Nat)
  deriving DecidableEq

/-- The target together with the host-side resource accounting. -/
structure Target where
  state : target_state
  mem : Nat → Nat
  flash : Nat → Nat
  areas : List working_area
  alt_areas : List working_area
  bound : List Nat
  trace : List Event

/-- One loadable section of the stub image (`struct imagesection`). -/
structure imagesection where
  base_address : Nat
  size : Nat
  flags : Nat
  deriving DecidableEq

/-- The opened stub image (`struct image`). -/
structure image where
  start_address : Nat
  sections : List imagesection
  deriving DecidableEq

/-- Outcome of one run of the stub: the return value of the runner, the value
left in register `a2`, and target memory and flash after the run. -/
structure run_result where
  retval : Int
  a2 : Nat
  mem : Nat → Nat
  flash : Nat → Nat

/-- The external collaborators of the driver.  Each answer may depend on the
whole current target, trace included. -/
structure Env where
  image_open : Target → Int × image
  image_read_section : Target → Nat → Nat → Nat → Int × List Nat
  esp32_stub_wrapper : List Nat
  alloc_working_area : Target → Nat → Option working_area
  alloc_alt_working_area : Target → Nat → Option working_area
  write_buffer : Target → Nat → List Nat → Int
  read_buffer : Target → Nat → Nat → Int
  run_algorithm : Target → List Nat → Nat → run_result

/-- Host-side state of a loaded stub (`struct esp32_flash_stub`); `reg_params`
holds the 32-bit values of the ten parameter slots. -/
structure esp32_flash_stub where
  code : Option working_area
  data : Option working_area
  algo : Option working_area
  stack : Option working_area
  reg_params : List Nat
  reg_params_count : Nat
  deriving DecidableEq

/-- One row of the sector table (`struct flash_sector`). -/
structure flash_sector where
  offset : Nat
  size : Nat
  is_erased : Int
  is_protected : Int
  deriving DecidableEq

/-- Driver-private part of a bank (`struct esp32_flash_bank`). -/
structure esp32_flash_bank where
  probed : Int
  user_bank_size : Nat
  deriving DecidableEq

/-- The flash bank (`struct flash_bank`), reduced to the fields the driver uses. -/
structure flash_bank where
  target : Target
  base : Nat
  size : Nat
  num_sectors : Int
  sectors : Option (List flash_sector)
  driver_priv : esp32_flash_bank

/-! ## Target primitives -/

/-- Memory after a successful block write of `bytes` at `address`. -/
def store (mem : Nat → Nat) (address : Nat) (bytes : List Nat) : Nat → Nat :=
  fun a => if address ≤ a ∧ a < address + bytes.length then bytes.getD (a - address) 0 else mem a

/-- The `size` bytes of memory starting at `address`. -/
def load (mem : Nat → Nat) (address size : Nat) : List Nat :=
  (List.range size).map (fun k => mem (address + k))

/-- Modelled from the spec: `target_alloc_working_area`, defined outside the
driver (`allocate_region(exec, size)`): a granted area joins the execution pool. -/
def target_alloc_working_area (env : Env) (t : Target) (a : Area) (size : Nat) :
    Option working_area × Target :=
  match env.alloc_working_area t size with
  | some wa =>
    (some wa, { t with areas := wa :: t.areas, trace := t.trace ++ [Event.alloc a size (some wa)] })
  | none => (none, { t with trace := t.trace ++ [Event.alloc a size none] })

/-- Modelled from the spec: `target_alloc_alt_working_area` and its `_try`
variant, defined outside the driver (`allocate_region(scratch, size)`): a
granted area joins the general pool. -/
def target_alloc_alt_working_area (env : Env) (t : Target) (a : Area) (size : Nat) :
    Option working_area × Target :=
  match env.alloc_alt_working_area t size with
  | some wa =>
    (some wa,
      { t with alt_areas := wa :: t.alt_areas, trace := t.trace ++ [Event.alloc a size (some wa)] })
  | none => (none, { t with trace := t.trace ++ [Event.alloc a size none] })

/-- Modelled from the spec: `target_free_working_area`, defined outside the
driver (`free_region`): the area leaves the execution pool; a null pointer is
ignored. -/
def target_free_working_area (t : Target) (a : Area) : Option working_area → Target
  | none => t
  | some wa => { t with areas := t.areas.erase wa, trace := t.trace ++ [Event.free a wa] }

/-- Modelled from the spec: `target_free_alt_working_area`, defined outside the
driver (`free_region`): the area leaves the general pool; a null pointer is
ignored. -/
def target_free_alt_working_area (t : Target) (a : Area) : Option working_area → Target
  | none => t
  | some wa => { t with alt_areas := t.alt_areas.erase wa, trace := t.trace ++ [Event.free a wa] }

/-- Modelled from the spec: `target_write_buffer`, defined outside the driver
(`write_memory(addr, bytes)`).  Memory changes only when the call succeeds. -/
def target_write_buffer (env : Env) (t : Target) (x : Xfer) (address : Nat) (bytes : List Nat) :
    Int × Target :=
  let retval := env.write_buffer t address bytes
  if retval = ERROR_OK then
    (retval, { t with mem := store t.mem address bytes,
                      trace := t.trace ++ [Event.write_buffer x address bytes retval] })
  else
    (retval, { t with trace := t.trace ++ [Event.write_buffer x address bytes retval] })

/-- Modelled from the spec: `target_read_buffer`, defined outside the driver
(`read_memory(addr, len)`); on failure no bytes are delivered. -/
def target_read_buffer (env : Env) (t : Target) (x : Xfer) (address size : Nat) :
    Int × List Nat × Target :=
  let retval := env.read_buffer t address size
  if retval = ERROR_OK then
    (retval, load t.mem address size,
      { t with trace := t.trace ++ [Event.read_buffer x address size retval] })
  else
    (retval, [], { t with trace := t.trace ++ [Event.read_buffer x address size retval] })

/-- Modelled from the spec: `init_reg_param`, defined outside the driver
(`bind_register`): parameter slot `idx` becomes bound. -/
def init_reg_param (t : Target) (idx : Nat) (reg_name : String) : Target :=
  { t with bound := idx :: t.bound, trace := t.trace ++ [Event.init_reg_param idx reg_name] }

/-- Modelled from the spec: `destroy_reg_param`, defined outside the driver
(`unbind_register`): parameter slot `idx` is released. -/
def destroy_reg_param (t : Target) (idx : Nat) : Target :=
  { t with bound := t.bound.erase idx, trace := t.trace ++ [Event.destroy_reg_param idx] }

/-- Modelled from the spec: `buf_set_u32`, defined outside the driver
(`set_slot`): store of a 32-bit value into slot `idx`. -/
def buf_set_u32 (stub : esp32_flash_stub) (idx : Nat) (v : Nat) : esp32_flash_stub :=
  { stub with reg_params := stub.reg_params.set idx (u32 v) }

/-- Modelled from the spec: `buf_get_u32`, defined outside the driver
(`get_slot`): value of slot `idx`. -/
def buf_get_u32 (stub : esp32_flash_stub) (idx : Nat) : Nat :=
  stub.reg_params.getD idx 0

/-- Address behind a working-area pointer; the pointer is non-null on every
path that reads it. -/
def area_address (wa : Option working_area) : Nat :=
  match wa with
  | some w => w.address
  | none => 0

/-- The slots handed to the runner: the first `reg_params_count` ones. -/
def bound_slots (stub : esp32_flash_stub) : List Nat :=
  stub.reg_params.take stub.reg_params_count

/-- Modelled from the spec: `target_run_algorithm`, defined outside the driver
(`run(entry_addr, slots, timeout)`): run of the code at the wrapper entry.  The
in-out slot, the first command slot, is read back after a successful run. -/
def target_run_algorithm (env : Env) (t : Target) (stub : esp32_flash_stub) :
    Int × Target × esp32_flash_stub :=
  let r := env.run_algorithm t (bound_slots stub) (area_address stub.algo)
  let t1 : Target :=
    { t with mem := r.mem, flash := r.flash,
             trace := t.trace ++
               [Event.run_algorithm (bound_slots stub) (area_address stub.algo) r.retval
                  (u32 r.a2)] }
  if r.retval = ERROR_OK then (r.retval, t1, buf_set_u32 stub STUB_ARGS_FUNC_START r.a2)
  else (r.retval, t1, stub)

/-! ## Stub loader -/

/-- The inner `while (sec_wr < section->size)` loop of `esp32_stub_load`. -/
def section_copy_loop (env : Env) (i : Nat) (sec : imagesection) :
    Nat → Target → Nat → Option (Int × Target)
  | 0, _, _ => none
  | fuel + 1, t, sec_wr =>
    if sec_wr < sec.size then
      let nb := if sec.size - sec_wr > 512 then 512 else sec.size - sec_wr
      let rd := env.image_read_section t i sec_wr nb
      if rd.1 ≠ ERROR_OK then some (rd.1, t)
      else
        let wr := target_write_buffer env t (Xfer.sec i) (u32 (sec.base_address + sec_wr)) rd.2
        if wr.1 ≠ ERROR_OK then some (wr.1, wr.2)
        else section_copy_loop env i sec fuel wr.2 (u32 (sec_wr + rd.2.length))
    else some (ERROR_OK, t)

/-- The `for` loop over the sections of the image in `esp32_stub_load`.
The result carries `ERROR_OK` when every section was placed and copied. -/
def sections_loop (env : Env) (fuel : Nat) :
    List imagesection → Nat → Target → esp32_flash_stub →
      Option (Int × Target × esp32_flash_stub)
  | [], _, t, stub => some (ERROR_OK, t, stub)
  | sec :: rest, i, t, stub =>
    if sec.flags &&& ELF_PHF_EXEC ≠ 0 then
      match target_alloc_working_area env t Area.code sec.size with
      | (none, t1) => some (ERROR_TARGET_RESOURCE_NOT_AVAILABLE, t1, stub)
      | (some wa, t1) =>
        let stub1 := { stub with code := some wa }
        if wa.address ≠ sec.base_address then some (ERROR_FAIL, t1, stub1)
        else
          match section_copy_loop env i sec fuel t1 0 with
          | none => none
          | some (retval, t2) =>
            if retval ≠ ERROR_OK then some (retval, t2, stub1)
            else sections_loop env fuel rest (i + 1) t2 stub1
    else
      match target_alloc_alt_working_area env t Area.data sec.size with
      | (none, t1) => some (ERROR_TARGET_RESOURCE_NOT_AVAILABLE, t1, stub)
      | (some wa, t1) =>
        let stub1 := { stub with data := some wa }
        if wa.address ≠ sec.base_address then some (ERROR_FAIL, t1, stub1)
        else
          match section_copy_loop env i sec fuel t1 0 with
          | none => none
          | some (retval, t2) =>
            if retval ≠ ERROR_OK then some (retval, t2, stub1)
            else sections_loop env fuel rest (i + 1) t2 stub1

/-- The `_on_error` exit of `esp32_stub_load`. -/
def stub_load_on_error (t : Target) (stub : esp32_flash_stub) : Target :=
  let t1 := target_free_working_area t Area.code stub.code
  let t2 := target_free_working_area t1 Area.algo stub.algo
  let t3 := target_free_alt_working_area t2 Area.data stub.data
  target_free_alt_working_area t3 Area.stack stub.stack

/-- The stack top handed to the stub: end of the stack area, low four bits
cleared when misaligned. -/
def stack_top (address : Nat) : Nat :=
  let stack_addr := u32 (address + ESP32_STUB_STACK_SZ)
  if stack_addr % 16 ≠ 0 then u32 (stack_addr &&& 0xFFFFFFFFFFFFFFF0) else stack_addr

/-- Loading of the stub (`esp32_stub_load`).  `none` stands for a section
copy loop that never ends. -/
def esp32_stub_load (env : Env) (fuel : Nat) (t : Target) (stub : esp32_flash_stub) :
    Option (Int × Target × esp32_flash_stub) :=
  let op := env.image_open t
  if op.1 ≠ ERROR_OK then some (op.1, t, stub)
  else
    let stub0 := { stub with code := none, data := none, stack := none, algo := none }
    match sections_loop env fuel op.2.sections 0 t stub0 with
    | none => none
    | some (retval, t1, stub1) =>
      if retval ≠ ERROR_OK then some (retval, stub_load_on_error t1 stub1, stub1)
      else
        match target_alloc_alt_working_area env t1 Area.stack ESP32_STUB_STACK_SZ with
        | (none, t2) =>
          some (ERROR_TARGET_RESOURCE_NOT_AVAILABLE, stub_load_on_error t2 stub1, stub1)
        | (some st, t2) =>
          let stub2 := { stub1 with stack := some st }
          let stack_addr := stack_top st.address
          let t3 := init_reg_param t2 0 "a0"
          let t4 := init_reg_param t3 1 "a1"
          let t5 := init_reg_param t4 2 "windowbase"
          let t6 := init_reg_param t5 3 "windowstart"
          let t7 := init_reg_param t6 4 "ps"
          let stub3 := buf_set_u32 stub2 0 op.2.start_address
          let stub4 := buf_set_u32 stub3 1 stack_addr
          let stub5 := buf_set_u32 stub4 2 0x0
          let stub6 := buf_set_u32 stub5 3 0x1
          let stub7 := buf_set_u32 stub6 4 0x60021
          match target_alloc_working_area env t7 Area.algo env.esp32_stub_wrapper.length with
          | (none, t8) =>
            some (ERROR_TARGET_RESOURCE_NOT_AVAILABLE, stub_load_on_error t8 stub7, stub7)
          | (some al, t8) =>
            let stub8 := { stub7 with algo := some al }
            let wr := target_write_buffer env t8 Xfer.wrapper al.address env.esp32_stub_wrapper
            if wr.1 ≠ ERROR_OK then some (wr.1, stub_load_on_error wr.2 stub8, stub8)
            else some (ERROR_OK, wr.2, stub8)

/-- Release of a loaded stub (`esp32_stub_cleanup`). -/
def esp32_stub_cleanup (t : Target) (stub : esp32_flash_stub) : Target :=
  let t1 := target_free_working_area t Area.algo stub.algo
  let t2 := target_free_working_area t1 Area.code stub.code
  let t3 := target_free_alt_working_area t2 Area.stack stub.stack
  let t4 := target_free_alt_working_area t3 Area.data stub.data
  let t5 := destroy_reg_param t4 4
  let t6 := destroy_reg_param t5 3
  let t7 := destroy_reg_param t6 2
  let t8 := destroy_reg_param t7 1
  destroy_reg_param t8 0

/-! ## Stack canary -/

/-- The loop of `esp32_stub_fill_stack`; the fuel bounds the number of rounds
and is never exhausted, each round advancing `i` by at least one. -/
def fill_stack_loop (env : Env) (stack_addr : Nat) : Nat → Target → Nat → Int × Target
  | 0, t, _ => (ERROR_OK, t)
  | fuel + 1, t, i =>
    if i < ESP32_STUB_STACK_SZ then
      let wr_sz := if ESP32_STUB_STACK_SZ - i ≥ 256 then 256 else ESP32_STUB_STACK_SZ - i
      let wr := target_write_buffer env t Xfer.canary (u32 (stack_addr + i))
        (List.replicate wr_sz ESP32_STUB_STACK_STAMP)
      if wr.1 ≠ ERROR_OK then (wr.1, wr.2)
      else fill_stack_loop env stack_addr fuel wr.2 (i + wr_sz)
    else (ERROR_OK, t)

/-- Filling of the stub stack with canary bytes (`esp32_stub_fill_stack`). -/
def esp32_stub_fill_stack (env : Env) (t : Target) (stack_addr : Nat) : Int × Target :=
  fill_stack_loop env stack_addr ESP32_STUB_STACK_SZ t 0

/-- The inner `for (j ...)` scan of `esp32_stub_check_stack` over one chunk
read at offset `i`: `some r` when a byte differing from the stamp was met
(`checked = 1`), `r` being the return value after that, `none` otherwise. -/
def scan_chunk (i : Nat) (retval : Int) : List Nat → Nat → Option Int
  | [], _ => none
  | b :: bs, j =>
    if b ≠ ESP32_STUB_STACK_STAMP then
      (if i + j > 0 then some retval else some ERROR_FAIL)
    else scan_chunk i retval bs (j + 1)

/-- The outer loop of `esp32_stub_check_stack`; the fuel is never exhausted. -/
def check_stack_loop (env : Env) (stack_addr : Nat) : Nat → Target → Nat → Int → Int × Target
  | 0, t, _, retval => (retval, t)
  | fuel + 1, t, i, retval =>
    if i < ESP32_STUB_STACK_SZ then
      let rd_sz := if ESP32_STUB_STACK_SZ - i ≥ 256 then 256 else ESP32_STUB_STACK_SZ - i
      let rd := target_read_buffer env t Xfer.canary (u32 (stack_addr + i)) rd_sz
      if rd.1 ≠ ERROR_OK then (rd.1, rd.2.2)
      else
        match scan_chunk i rd.1 rd.2.1 0 with
        | some r => (r, rd.2.2)
        | none => check_stack_loop env stack_addr fuel rd.2.2 (i + rd_sz) rd.1
    else (retval, t)

/-- Inspection of the stub stack after a run (`esp32_stub_check_stack`). -/
def esp32_stub_check_stack (env : Env) (t : Target) (stack_addr : Nat) : Int × Target :=
  check_stack_loop env stack_addr ESP32_STUB_STACK_SZ t 0 ERROR_OK

/-! ## Algorithm runner -/

/-- One stub invocation (`esp32_run_algo`, with `ESP32_STUB_STACK_DEBUG` on). -/
def esp32_run_algo (env : Env) (t : Target) (stub : esp32_flash_stub) :
    Int × Target × esp32_flash_stub :=
  let t0 : Target := { t with trace := t.trace ++ [Event.invoke (bound_slots stub)] }
  let fl := esp32_stub_fill_stack env t0 (area_address stub.stack)
  if fl.1 ≠ ERROR_OK then (fl.1, fl.2, stub)
  else
    let rn := target_run_algorithm env fl.2 stub
    if rn.1 ≠ ERROR_OK then rn
    else
      let ck := esp32_stub_check_stack env rn.2.1 (area_address stub.stack)
      (ck.1, ck.2, rn.2.2)

/-! ## Flash operations -/

/-- The stub structure as declared on entry of an operation. -/
def stub_init (count : Nat) : esp32_flash_stub :=
  { code := none, data := none, algo := none, stack := none,
    reg_params := List.replicate STUB_ARGS_MAX 0, reg_params_count := count }

/-- Return value after a stub run: the runner failure, else `ERROR_FAIL` when
the result slot is not `STUB_ERR_OK`, else the runner value. -/
def run_status (retval : Int) (stub : esp32_flash_stub) : Int :=
  if retval ≠ ERROR_OK then retval
  else if buf_get_u32 stub STUB_ARGS_FUNC_START ≠ STUB_ERR_OK then ERROR_FAIL
  else retval

/-- Erase of the sectors `first .. last` (`esp32_erase`).  `none` stands for
no return: a failed assertion or a stub load that never ends. -/
def esp32_erase (env : Env) (fuel : Nat) (bank : flash_bank) (first last : Int) :
    Option (Int × Target) :=
  if bank.target.state ≠ target_state.TARGET_HALTED then
    some (ERROR_TARGET_NOT_HALTED, bank.target)
  else if ¬ (0 ≤ first ∧ first ≤ last ∧ last < bank.num_sectors) then none
  else
    match esp32_stub_load env fuel bank.target (stub_init (STUB_ARGS_FUNC_START + 3)) with
    | none => none
    | some (retval, t1, stub1) =>
      if retval ≠ ERROR_OK then some (retval, t1)
      else
        let t2 := init_reg_param t1 (STUB_ARGS_FUNC_START + 0) "a2"
        let t3 := init_reg_param t2 (STUB_ARGS_FUNC_START + 1) "a3"
        let t4 := init_reg_param t3 (STUB_ARGS_FUNC_START + 2) "a4"
        let stub2 := buf_set_u32 stub1 (STUB_ARGS_FUNC_START + 0) STUB_CMD_FLASH_ERASE
        let stub3 := buf_set_u32 stub2 (STUB_ARGS_FUNC_START + 1)
          ((first * SPI_FLASH_SEC_SIZE) % 2 ^ 32).toNat
        let stub4 := buf_set_u32 stub3 (STUB_ARGS_FUNC_START + 2)
          (((last - first + 1) * SPI_FLASH_SEC_SIZE) % 2 ^ 32).toNat
        let rn := esp32_run_algo env t4 stub4
        let retval1 := run_status rn.1 rn.2.2
        let t5 := destroy_reg_param rn.2.1 (STUB_ARGS_FUNC_START + 0)
        let t6 := destroy_reg_param t5 (STUB_ARGS_FUNC_START + 1)
        let t7 := destroy_reg_param t6 (STUB_ARGS_FUNC_START + 2)
        some (retval1, esp32_stub_cleanup t7 rn.2.2)

/-- The scratch allocation retry loop of `esp32_read` and of `esp32_write`
(the two copies are identical).  The fuel is never exhausted when it exceeds
`buffer_size`. -/
def scratch_alloc_loop (env : Env) : Nat → Target → Nat → Option working_area × Target
  | 0, t, _ => (none, t)
  | fuel + 1, t, buffer_size =>
    match target_alloc_alt_working_area env t Area.scratch buffer_size with
    | (some wa, t1) => (some wa, t1)
    | (none, t1) =>
      if buffer_size / 2 = 0 then (none, t1)
      else scratch_alloc_loop env fuel t1 (buffer_size / 2)

/-- Size of the next chunk: `min(target_buf->size, count - total_count)`. -/
def chunk_size (target_buf : working_area) (count total_count : Nat) : Nat :=
  if target_buf.size < count - total_count then target_buf.size else count - total_count

/-- The chunk loop of `esp32_write`. -/
def write_loop (env : Env) (target_buf : working_area) (buffer : List Nat) (count : Nat) :
    Nat → Target → esp32_flash_stub → Nat → Int → Option (Int × Target × esp32_flash_stub)
  | 0, _, _, _, _ => none
  | fuel + 1, t, stub, total_count, retval =>
    if total_count < count then
      let data_sz := chunk_size target_buf count total_count
      let stub1 := buf_set_u32 stub (STUB_ARGS_FUNC_START + 2) data_sz
      let wr := target_write_buffer env t (Xfer.flash_data total_count) target_buf.address
        ((buffer.drop total_count).take data_sz)
      if wr.1 ≠ ERROR_OK then some (wr.1, wr.2, stub1)
      else
        let rn := esp32_run_algo env wr.2 stub1
        if rn.1 ≠ ERROR_OK then some rn
        else if buf_get_u32 rn.2.2 STUB_ARGS_FUNC_START ≠ STUB_ERR_OK then
          some (ERROR_FAIL, rn.2.1, rn.2.2)
        else write_loop env target_buf buffer count fuel rn.2.1 rn.2.2
          (u32 (total_count + data_sz)) rn.1
    else some (retval, t, stub)

/-- The `_on_error` exit shared by `esp32_read` and `esp32_write`. -/
def transfer_cleanup (t : Target) (stub : esp32_flash_stub) (target_buf : working_area) :
    Target :=
  let t1 := destroy_reg_param t (STUB_ARGS_FUNC_START + 0)
  let t2 := destroy_reg_param t1 (STUB_ARGS_FUNC_START + 1)
  let t3 := destroy_reg_param t2 (STUB_ARGS_FUNC_START + 2)
  let t4 := destroy_reg_param t3 (STUB_ARGS_FUNC_START + 3)
  let t5 := esp32_stub_cleanup t4 stub
  target_free_alt_working_area t5 Area.scratch (some target_buf)

/-- Binding and initial values of the four command slots of read and write. -/
def transfer_setup (t : Target) (stub : esp32_flash_stub) (cmd offset : Nat)
    (target_buf : working_area) : Target × esp32_flash_stub :=
  let t1 := init_reg_param t (STUB_ARGS_FUNC_START + 0) "a2"
  let t2 := init_reg_param t1 (STUB_ARGS_FUNC_START + 1) "a3"
  let t3 := init_reg_param t2 (STUB_ARGS_FUNC_START + 2) "a4"
  let t4 := init_reg_param t3 (STUB_ARGS_FUNC_START + 3) "a5"
  let stub1 := buf_set_u32 stub (STUB_ARGS_FUNC_START + 0) cmd
  let stub2 := buf_set_u32 stub1 (STUB_ARGS_FUNC_START + 1) offset
  let stub3 := buf_set_u32 stub2 (STUB_ARGS_FUNC_START + 3) target_buf.address
  (t4, stub3)

/-- Write of `count` bytes of `buffer` at `offset` (`esp32_write`, with
`ESP32_STUB_ASYNC_WRITE_ALGO` equal to 0 as compiled).  `none` stands for no
return. -/
def esp32_write (env : Env) (fuel : Nat) (bank : flash_bank) (buffer : List Nat)
    (offset count : Nat) : Option (Int × Target) :=
  if bank.target.state ≠ target_state.TARGET_HALTED then
    some (ERROR_TARGET_NOT_HALTED, bank.target)
  else
    match esp32_stub_load env fuel bank.target (stub_init (STUB_ARGS_FUNC_START + 4)) with
    | none => none
    | some (retval, t1, stub1) =>
      if retval ≠ ERROR_OK then some (retval, t1)
      else
        match scratch_alloc_loop env (count + 1) t1 count with
        | (none, t2) => some (ERROR_TARGET_RESOURCE_NOT_AVAILABLE, esp32_stub_cleanup t2 stub1)
        | (some target_buf, t2) =>
          let su := transfer_setup t2 stub1 STUB_CMD_FLASH_WRITE offset target_buf
          match write_loop env target_buf buffer count fuel su.1 su.2 0 retval with
          | none => none
          | some (retval1, t3, stub3) => some (retval1, transfer_cleanup t3 stub3 target_buf)

/-- Replacement of `bytes.length` entries of the host buffer from `index` on. -/
def host_copy (buffer : List Nat) (index : Nat) (bytes : List Nat) : List Nat :=
  buffer.take index ++ bytes ++ buffer.drop (index + bytes.length)

/-- The chunk loop of `esp32_read`; the host buffer is threaded through. -/
def read_loop (env : Env) (target_buf : working_area) (count : Nat) :
    Nat → Target → esp32_flash_stub → List Nat → Nat → Int →
      Option (Int × Target × esp32_flash_stub × List Nat)
  | 0, _, _, _, _, _ => none
  | fuel + 1, t, stub, buffer, total_count, retval =>
    if total_count < count then
      let data_sz := chunk_size target_buf count total_count
      let stub1 := buf_set_u32 stub (STUB_ARGS_FUNC_START + 2) data_sz
      let rn := esp32_run_algo env t stub1
      if rn.1 ≠ ERROR_OK then some (rn.1, rn.2.1, rn.2.2, buffer)
      else if buf_get_u32 rn.2.2 STUB_ARGS_FUNC_START ≠ STUB_ERR_OK then
        some (ERROR_FAIL, rn.2.1, rn.2.2, buffer)
      else
        let rd := target_read_buffer env rn.2.1 (Xfer.flash_data total_count)
          target_buf.address data_sz
        if rd.1 ≠ ERROR_OK then some (rd.1, rd.2.2, rn.2.2, buffer)
        else read_loop env target_buf count fuel rd.2.2 rn.2.2
          (host_copy buffer total_count rd.2.1) (u32 (total_count + data_sz)) rd.1
    else some (retval, t, stub, buffer)

/-- Read of `count` bytes at `offset` into `buffer` (`esp32_read`).  `none`
stands for no return. -/
def esp32_read (env : Env) (fuel : Nat) (bank : flash_bank) (buffer : List Nat)
    (offset count : Nat) : Option (Int × Target × List Nat) :=
  if bank.target.state ≠ target_state.TARGET_HALTED then
    some (ERROR_TARGET_NOT_HALTED, bank.target, buffer)
  else
    match esp32_stub_load env fuel bank.target (stub_init (STUB_ARGS_FUNC_START + 4)) with
    | none => none
    | some (retval, t1, stub1) =>
      if retval ≠ ERROR_OK then some (retval, t1, buffer)
      else
        match scratch_alloc_loop env (count + 1) t1 count with
        | (none, t2) =>
          some (ERROR_TARGET_RESOURCE_NOT_AVAILABLE, esp32_stub_cleanup t2 stub1, buffer)
        | (some target_buf, t2) =>
          let su := transfer_setup t2 stub1 STUB_CMD_FLASH_READ offset target_buf
          match read_loop env target_buf count fuel su.1 su.2 buffer 0 retval with
          | none => none
          | some (retval1, t3, stub3, buffer1) =>
            some (retval1, transfer_cleanup t3 stub3 target_buf, buffer1)

/-- Recomputation of the sector table (`esp32_probe`). -/
def esp32_probe (bank : flash_bank) : Int × flash_bank :=
  let num_sectors := bank.size / SPI_FLASH_SEC_SIZE
  let sectors := (List.range num_sectors).map (fun i =>
    ({ offset := u32 (i * SPI_FLASH_SEC_SIZE), size := SPI_FLASH_SEC_SIZE,
       is_erased := -1, is_protected := 0 } : flash_sector))
  (ERROR_OK,
    { bank with num_sectors := (num_sectors : Int), sectors := some sectors,
                driver_priv := { bank.driver_priv with probed := 1 } })

/-! ## A concrete target used to exercise the definitions -/

/-- The stub modelled as an ideal flash device: it executes the command found
in the slots (opcode, flash address, size, buffer address), reports status 0
and leaves the rest of memory, its stack included, alone. -/
def ideal_run (t : Target) (slots : List Nat) : run_result :=
  let op := slots.getD STUB_ARGS_FUNC_START 0
  let addr := slots.getD (STUB_ARGS_FUNC_START + 1) 0
  let size := slots.getD (STUB_ARGS_FUNC_START + 2) 0
  let buf := slots.getD (STUB_ARGS_FUNC_START + 3) 0
  if op = STUB_CMD_FLASH_WRITE then
    { retval := ERROR_OK, a2 := STUB_ERR_OK, mem := t.mem,
      flash := store t.flash addr (load t.mem buf size) }
  else if op = STUB_CMD_FLASH_READ then
    { retval := ERROR_OK, a2 := STUB_ERR_OK, mem := store t.mem buf (load t.flash addr size),
      flash := t.flash }
  else if op = STUB_CMD_FLASH_ERASE then
    { retval := ERROR_OK, a2 := STUB_ERR_OK, mem := t.mem,
      flash := store t.flash addr (List.replicate size 0xFF) }
  else { retval := ERROR_OK, a2 := STUB_ERR_OK, mem := t.mem, flash := t.flash }

/-- The stub behaves as an ideal flash device: whatever the state, a run
executes the command found in the slots.  Flash afterwards is what `ideal_run`
yields, and so is memory inside the command buffer `[buffer, buffer + size)`;
memory elsewhere, the own stack of the stub included, is left open. -/
def ideal_device (env : Env) : Prop :=
  ∀ (t : Target) (slots : List Nat) (entry : Nat),
    (env.run_algorithm t slots entry).flash = (ideal_run t slots).flash ∧
    ∀ a, slots.getD (STUB_ARGS_FUNC_START + 3) 0 ≤ a →
      a < slots.getD (STUB_ARGS_FUNC_START + 3) 0 + slots.getD (STUB_ARGS_FUNC_START + 2) 0 →
      (env.run_algorithm t slots entry).mem a = (ideal_run t slots).mem a

/-- The ideal device as a program with a stack: it executes the command and
leaves the 1000 bytes below its stack pointer (slot 1) zeroed, the command
buffer excepted. -/
def demo_run (t : Target) (slots : List Nat) : run_result :=
  let sp := slots.getD 1 0
  let buf := slots.getD (STUB_ARGS_FUNC_START + 3) 0
  let size := slots.getD (STUB_ARGS_FUNC_START + 2) 0
  { retval := (ideal_run t slots).retval, a2 := (ideal_run t slots).a2,
    mem := fun a =>
      if (sp - 1000 ≤ a ∧ a < sp) ∧ ¬ (buf ≤ a ∧ a < buf + size) then 0
      else (ideal_run t slots).mem a,
    flash := (ideal_run t slots).flash }

/-- First address above every area of a pool, and at least `base`. -/
def pool_top (base : Nat) (l : List working_area) : Nat :=
  l.foldr (fun w acc => max (w.address + w.size) acc) base

/-- A stub image of one executable and one data section. -/
def demo_image : image :=
  { start_address := 0x40090000,
    sections := [{ base_address := 0x40090000, size := 8, flags := 5 },
                 { base_address := 0x3FFE0000, size := 4, flags := 6 }] }

/-- A cooperative target: allocators that place each area above the ones in
use, with `cap_exec` bytes of execution memory and `cap` bytes of general
memory, transfers that succeed, and the ideal device `demo_run`. -/
def demo_env_caps (cap_exec cap : Nat) : Env :=
  { image_open := fun _ => (ERROR_OK, demo_image),
    image_read_section := fun _ i off n => (ERROR_OK, List.replicate n (i + off)),
    esp32_stub_wrapper := [6, 0, 0, 0],
    alloc_working_area := fun t n =>
      if pool_top 0x40090000 t.areas + n ≤ 0x40090000 + cap_exec then
        some { address := pool_top 0x40090000 t.areas, size := n }
      else none,
    alloc_alt_working_area := fun t n =>
      if pool_top 0x3FFE0000 t.alt_areas + n ≤ 0x3FFE0000 + cap then
        some { address := pool_top 0x3FFE0000 t.alt_areas, size := n }
      else none,
    write_buffer := fun _ _ _ => ERROR_OK,
    read_buffer := fun _ _ _ => ERROR_OK,
    run_algorithm := fun t slots _ => demo_run t slots }

/-- The cooperative target with ample execution memory. -/
def demo_env (cap : Nat) : Env := demo_env_caps 65536 cap

/-- A target in the given state with empty pools, no bound slot and erased flash. -/
def demo_target (st : target_state) : Target :=
  { state := st, mem := fun _ => 0, flash := fun _ => 0xFF, areas := [], alt_areas := [],
    bound := [], trace := [] }

/-- A bank of `size` bytes on the demo target, not yet probed. -/
def demo_bank (st : target_state) (size : Nat) : flash_bank :=
  { target := demo_target st, base := 0, size := size, num_sectors := 0, sectors := none,
    driver_priv := { probed := 0, user_bank_size := size } }

/-- The halted 1 MiB demo bank. -/
def demo_halted_bank : flash_bank := demo_bank target_state.TARGET_HALTED 1048576

/-- The halted 1 MiB demo bank after probe. -/
def demo_probed_bank : flash_bank := (esp32_probe demo_halted_bank).2

/-- Eight bytes of host data. -/
def demo_data : List Nat := [1, 2, 3, 4, 5, 6, 7, 8]

/-- The demo target after a write of the demo data with room for it. -/
def demo_written : Target :=
  ((esp32_write (demo_env 5128) 9 demo_halted_bank demo_data 4096 8).map Prod.snd).getD
    demo_halted_bank.target

/-- What a read of eight bytes after that write returns: target and buffer. -/
def demo_read_back : Target × List Nat :=
  ((esp32_read (demo_env 5128) 9 { demo_halted_bank with target := demo_written }
      (List.replicate 8 0) 4096 8).map Prod.snd).getD (demo_written, [])

/-- The demo target after a write of the demo data with room for four bytes
of scratch only. -/
def demo_chunked : Target :=
  ((esp32_write (demo_env 1032) 9 demo_halted_bank demo_data 4096 8).map Prod.snd).getD
    demo_halted_bank.target

/-- Result of a read of eight bytes with no room for any scratch area. -/
def demo_starved : Int × Target × List Nat :=
  (esp32_read (demo_env 1028) 9 demo_halted_bank (List.replicate 8 0) 0 8).getD
    (ERROR_OK, demo_halted_bank.target, [])

/-! ## Observations on the trace -/

/-- Events that belong to loading, canary handling, running and cleanup: all
but scratch requests, flash data transfers and invocation marks. -/
def quiet : Event → Bool
  | Event.alloc Area.scratch _ _ => false
  | Event.write_buffer (Xfer.flash_data _) _ _ _ => false
  | Event.read_buffer (Xfer.flash_data _) _ _ _ => false
  | Event.invoke _ => false
  | _ => true

/-- The target `t2` extends the trace of `t1` by quiet events only. -/
def Quiet (t1 t2 : Target) : Prop :=
  ∃ evs : List Event, t2.trace = t1.trace ++ evs ∧ ∀ e ∈ evs, quiet e = true

/-- The target `t2` extends the trace of `t1` by quiet events only and has the
same flash content. -/
def Calm (t1 t2 : Target) : Prop :=
  Quiet t1 t2 ∧ t2.flash = t1.flash

/-- A scratch allocation request: requested size and the answer. -/
def scratch_request : Event → Option (Nat × Option working_area)
  | Event.alloc Area.scratch size res => some (size, res)
  | _ => none

/-- The scratch allocation requests of a trace, in order. -/
def scratch_requests (tr : List Event) : List (Nat × Option working_area) :=
  tr.filterMap scratch_request

/-- The slots of a stub invocation. -/
def invocation : Event → Option (List Nat)
  | Event.invoke slots => some slots
  | _ => none

/-- The stub invocations of a trace, in order, each with its slots. -/
def invocations (tr : List Event) : List (List Nat) :=
  tr.filterMap invocation

/-- A step of a chunked write as seen by the transfer engine: a copy of host
bytes (taken at `host_index`) to `address`, or a stub invocation carrying
`size` in the size slot. -/
inductive Step
  | copy (host_index : Nat) (address : Nat) (bytes : List Nat)
  | run (size : Nat)
  deriving DecidableEq

/-- The transfer step an event stands for, if any. -/
def transfer_step : Event → Option Step
  | Event.write_buffer (Xfer.flash_data k) address bytes _ => some (Step.copy k address bytes)
  | Event.invoke slots => some (Step.run (slots.getD (STUB_ARGS_FUNC_START + 2) 0))
  | _ => none

/-- The transfer steps of a trace, in order. -/
def transfer_steps (tr : List Event) : List Step :=
  tr.filterMap transfer_step

/-- The chunk plan of a write of `count` bytes through a scratch area of size
`S = target_buf.size`, in the words of the specification: `ceil(count / S)`
rounds, round `k` copying the host bytes `[k * S, k * S + min(S, count - k * S))`
to the scratch area and then invoking the stub with that size. -/
def chunk_plan (target_buf : working_area) (buffer : List Nat) (count : Nat) : List Step :=
  (List.range ((count + target_buf.size - 1) / target_buf.size)).flatMap (fun k =>
    [Step.copy (k * target_buf.size) target_buf.address
       ((buffer.drop (k * target_buf.size)).take (min target_buf.size (count - k * target_buf.size))),
     Step.run (min target_buf.size (count - k * target_buf.size))])

/-- The stub has its ten slots and hands `n` of them to the runner. -/
def stub_shape (stub : esp32_flash_stub) (n : Nat) : Prop :=
  stub.reg_params.length = STUB_ARGS_MAX ∧ stub.reg_params_count = n

/-- The target `t2` extends the trace of `t1` by events that satisfy `p` only. -/
def Emits (p : Event → Bool) (t1 t2 : Target) : Prop :=
  ∃ evs : List Event, t2.trace = t1.trace ++ evs ∧ ∀ e ∈ evs, p e = true

/-- Events of loading, canary handling and release of areas: allocations other
than scratch requests, releases, and block transfers other than flash data. -/
def plain : Event → Bool
  | Event.alloc Area.scratch _ _ => false
  | Event.alloc _ _ _ => true
  | Event.free _ _ => true
  | Event.write_buffer (Xfer.flash_data _) _ _ _ => false
  | Event.write_buffer _ _ _ _ => true
  | Event.read_buffer (Xfer.flash_data _) _ _ _ => false
  | Event.read_buffer _ _ _ _ => true
  | _ => false

/-- Events that neither bind nor release a parameter slot. -/
def regfree : Event → Bool
  | Event.init_reg_param _ _ => false
  | Event.destroy_reg_param _ => false
  | _ => true

/-- Outcome of a run of the stub code: the value of the runner and the value
left for the result slot. -/
def run_outcome : Event → Option (Int × Nat)
  | Event.run_algorithm _ _ retval status => some (retval, status)
  | _ => none

/-- The outcomes of the runs of a trace, in order. -/
def run_outcomes (tr : List Event) : List (Int × Nat) :=
  tr.filterMap run_outcome

/-- The slot bound by an event, if any. -/
def binding : Event → Option Nat
  | Event.init_reg_param idx _ => some idx
  | _ => none

/-- The slots bound along a trace, in order. -/
def bindings (tr : List Event) : List Nat :=
  tr.filterMap binding

/-- The slot released by an event, if any. -/
def release : Event → Option Nat
  | Event.destroy_reg_param idx => some idx
  | _ => none

/-- The slots released along a trace, in order. -/
def releases (tr : List Event) : List Nat :=
  tr.filterMap release

/-- A copy of host data into the scratch area: the host index it starts at. -/
def scratch_copy : Event → Option Nat
  | Event.write_buffer (Xfer.flash_data k) _ _ _ => some k
  | _ => none

/-- The copies of host data into the scratch area along a trace, in order. -/
def scratch_copies (tr : List Event) : List Nat :=
  tr.filterMap scratch_copy

/-- A copy of the scratch area into the host buffer: the host index it starts
at and its size. -/
def host_read : Event → Option (Nat × Nat)
  | Event.read_buffer (Xfer.flash_data k) _ size _ => some (k, size)
  | _ => none

/-- The copies into the host buffer along a trace, in order. -/
def host_reads (tr : List Event) : List (Nat × Nat) :=
  tr.filterMap host_read

/-- A write of bytes of section `i` of the stub image: address and bytes. -/
def section_write (i : Nat) : Event → Option (Nat × List Nat)
  | Event.write_buffer (Xfer.sec j) address bytes _ =>
    if j = i then some (address, bytes) else none
  | _ => none

/-- The writes of bytes of section `i` along a trace, in order. -/
def section_writes (i : Nat) (tr : List Event) : List (Nat × List Nat) :=
  tr.filterMap (section_write i)

/-- The five bindings of the bootstrap slots made by the stub load. -/
def bootstrap_inits : List Event :=
  [Event.init_reg_param 0 "a0", Event.init_reg_param 1 "a1",
   Event.init_reg_param 2 "windowbase", Event.init_reg_param 3 "windowstart",
   Event.init_reg_param 4 "ps"]

/-- The five releases of the bootstrap slots made by the stub cleanup. -/
def bootstrap_destroys : List Event :=
  [Event.destroy_reg_param 4, Event.destroy_reg_param 3, Event.destroy_reg_param 2,
   Event.destroy_reg_param 1, Event.destroy_reg_param 0]

/-- Events that are neither a stub invocation, nor a run, nor a flash data
transfer. -/
def idle : Event → Bool
  | Event.invoke _ => false
  | Event.run_algorithm _ _ _ _ => false
  | Event.write_buffer (Xfer.flash_data _) _ _ _ => false
  | Event.read_buffer (Xfer.flash_data _) _ _ _ => false
  | _ => true

/-- Whether a section is executable (`section->flags & ELF_PHF_EXEC`). -/
def is_exec (sec : imagesection) : Bool :=
  decide (sec.flags &&& ELF_PHF_EXEC ≠ 0)

/-- The copy plan of a section in the words of the specification: `ceil(n / 512)`
writes, write `k` placing the bytes `[512 k, 512 k + 512)` of the content (as
many as there are) at `base + 512 k`. -/
def copy_plan (base : Nat) (content : List Nat) : List (Nat × List Nat) :=
  (List.range ((content.length + 511) / 512)).map (fun k =>
    (base + k * 512, (content.drop (k * 512)).take 512))

/-! ## Further concrete targets -/

/-- The cooperative target with a stub that reports status 5 from its second
run on. -/
def faulty_env (cap : Nat) : Env :=
  { demo_env cap with
    run_algorithm := fun t slots _ =>
      if (run_outcomes t.trace).length = 0 then demo_run t slots
      else { demo_run t slots with a2 := 5 } }

/-- Result of a read of eight bytes through a scratch area of four bytes on
the target whose stub fails in its second run. -/
def demo_faulty_read : Int × Target × List Nat :=
  (esp32_read (faulty_env 1032) 9 demo_halted_bank (List.replicate 8 0) 4096 8).getD
    (ERROR_OK, demo_halted_bank.target, [])

/-- Result of an erase of sector 0 of the probed demo bank. -/
def demo_erased : Int × Target :=
  (esp32_erase (demo_env 4096) 9 demo_probed_bank 0 0).getD (ERROR_OK, demo_probed_bank.target)

/-- A stub image whose data section is linked 16 bytes above the place the
allocator gives it. -/
def misfit_image : image :=
  { start_address := 0x40090000,
    sections := [{ base_address := 0x40090000, size := 8, flags := 5 },
                 { base_address := 0x3FFE0010, size := 4, flags := 6 }] }

/-- A stub image of two executable sections, the second linked 8 bytes above
the end of the first. -/
def twin_image : image :=
  { start_address := 0x40090000,
    sections := [{ base_address := 0x40090000, size := 8, flags := 5 },
                 { base_address := 0x40090010, size := 8, flags := 5 }] }

/-- The cooperative target with another stub image. -/
def demo_env_image (img : image) : Env :=
  { demo_env 4096 with image_open := fun _ => (ERROR_OK, img) }

/-- The demo target after the first section of the misfit image was placed. -/
def misfit_placed : Int × Target × esp32_flash_stub :=
  (sections_loop (demo_env_image misfit_image) 9 (misfit_image.sections.take 1) 0
    (demo_target target_state.TARGET_HALTED)
    { stub_init 8 with code := none, data := none, stack := none, algo := none }).getD
    (ERROR_OK, demo_target target_state.TARGET_HALTED, stub_init 8)

/-- The cooperative target whose general pool places the stack area, the
request of 1024 bytes, in the last 1024 bytes of the address space. -/
def top_stack_env : Env :=
  { demo_env 4096 with
    alloc_alt_working_area := fun t n =>
      if n = ESP32_STUB_STACK_SZ then some { address := 0xFFFFFC00, size := n }
      else (demo_env 4096).alloc_alt_working_area t n }

/-- The loaded stub on the demo target. -/
def demo_loaded : Int × Target × esp32_flash_stub :=
  (esp32_stub_load (demo_env 4096) 9 (demo_target target_state.TARGET_HALTED) (stub_init 8)).getD
    (ERROR_OK, demo_target target_state.TARGET_HALTED, stub_init 8)

/-- Six hundred bytes of section content. -/
def demo_content : List Nat := (List.range 600).map (fun k => k % 256)

/-- The cooperative target with an image reader that delivers the given
section content. -/
def demo_env_content (content : List Nat) : Env :=
  { demo_env 4096 with
    image_read_section := fun _ _ off n => (ERROR_OK, (content.drop off).take n) }

/-- Result of a read of eight bytes through a scratch area of four bytes on
the demo target. -/
def demo_chunked_read : Int × Target × List Nat :=
  (esp32_read (demo_env 1032) 9 demo_halted_bank (List.replicate 8 0) 4096 8).getD
    (ERROR_FAIL, demo_halted_bank.target, [])

/-- The demo target with no room for any scratch area, after the stub load of
a read. -/
def starved_loaded : Int × Target × esp32_flash_stub :=
  (esp32_stub_load (demo_env 1028) 9 demo_halted_bank.target
    (stub_init (STUB_ARGS_FUNC_START + 4))).getD
    (ERROR_FAIL, demo_halted_bank.target, stub_init (STUB_ARGS_FUNC_START + 4))

/-- The demo target with room for one byte of scratch, after the stub load of
a write. -/
def tight_loaded : Int × Target × esp32_flash_stub :=
  (esp32_stub_load (demo_env 1029) 3 demo_halted_bank.target
    (stub_init (STUB_ARGS_FUNC_START + 4))).getD
    (ERROR_FAIL, demo_halted_bank.target, stub_init (STUB_ARGS_FUNC_START + 4))

/-- A stub image of two executable sections, the second linked right after the
first. -/
def paired_image : image :=
  { start_address := 0x40090000,
    sections := [{ base_address := 0x40090000, size := 8, flags := 5 },
                 { base_address := 0x40090008, size := 8, flags := 5 }] }

/-! ## Theorems -/

/-- C1: when the target is not halted, erase, read and write each return the
target-not-halted error and leave the target (pools, bound slots, memory,
flash, trace of calls) exactly as it was, for every bank and arguments. -/
theorem not_halted_no_effect (env : Env) (fuel : Nat) (bank : flash_bank) (buffer : List Nat)
    (offset count : Nat) (first last : Int)
    (h : bank.target.state ≠ target_state.TARGET_HALTED) :
    esp32_erase env fuel bank first last = some (ERROR_TARGET_NOT_HALTED, bank.target) ∧
    esp32_read env fuel bank buffer offset count
      = some (ERROR_TARGET_NOT_HALTED, bank.target, buffer) ∧
    esp32_write env fuel bank buffer offset count
      = some (ERROR_TARGET_NOT_HALTED, bank.target) := by
  refine ⟨?_, ?_, ?_⟩
  · unfold esp32_erase; rw [if_pos h]
  · unfold esp32_read; rw [if_pos h]
  · unfold esp32_write; rw [if_pos h]

/-- Witness of C1: a write on a running target. -/
theorem not_halted_no_effect_witness :
    (demo_bank target_state.TARGET_RUNNING 1048576).target.state ≠ target_state.TARGET_HALTED ∧
    esp32_write (demo_env 4096) 0 (demo_bank target_state.TARGET_RUNNING 1048576) [1, 2] 4096 2
      = some (ERROR_TARGET_NOT_HALTED, (demo_bank target_state.TARGET_RUNNING 1048576).target) :=
  ⟨by decide,
   (not_halted_no_effect (demo_env 4096) 0 (demo_bank target_state.TARGET_RUNNING 1048576)
      [1, 2] 4096 2 0 0 (by decide)).2.2⟩

/-! ### Stack check -/

theorem load_succ (mem : Nat → Nat) (a n : Nat) :
    load mem a (n + 1) = mem a :: load mem (a + 1) n := by
  unfold load
  rw [List.range_succ_eq_map]
  simp only [List.map_cons, List.map_map, Nat.add_zero]
  congr 1
  apply List.map_congr_left
  intro k _
  simp only [Function.comp, Nat.succ_eq_add_one]
  congr 1
  omega

theorem scan_chunk_later (i : Nat) (retval : Int) (l : List Nat) (j : Nat) (h : 0 < i + j) :
    scan_chunk i retval l j = none ∨ scan_chunk i retval l j = some retval := by
  induction l generalizing j with
  | nil => left; rfl
  | cons b bs ih =>
    unfold scan_chunk
    by_cases hb : b ≠ ESP32_STUB_STACK_STAMP
    · right; rw [if_pos hb, if_pos h]
    · rw [if_neg hb]; exact ih (j + 1) (by omega)

theorem target_read_buffer_ok (env : Env) (hrd : ∀ t a n, env.read_buffer t a n = ERROR_OK)
    (t : Target) (x : Xfer) (a n : Nat) :
    target_read_buffer env t x a n
      = (ERROR_OK, load t.mem a n,
          { t with trace := t.trace ++ [Event.read_buffer x a n ERROR_OK] }) := by
  unfold target_read_buffer
  simp only [hrd, if_true]

theorem check_stack_loop_later (env : Env) (hrd : ∀ t a n, env.read_buffer t a n = ERROR_OK)
    (stack_addr fuel : Nat) (t : Target) (i : Nat) (hi : 0 < i) :
    (check_stack_loop env stack_addr fuel t i ERROR_OK).1 = ERROR_OK := by
  induction fuel generalizing t i with
  | zero => rfl
  | succ fuel ih =>
    unfold check_stack_loop
    by_cases hlt : i < ESP32_STUB_STACK_SZ
    · simp only [if_pos hlt, target_read_buffer_ok env hrd, ne_eq, not_true_eq_false, if_false]
      rcases scan_chunk_later i ERROR_OK
        (load t.mem (u32 (stack_addr + i))
          (if ESP32_STUB_STACK_SZ - i ≥ 256 then 256 else ESP32_STUB_STACK_SZ - i)) 0
        (by omega) with h | h
      · rw [h]; exact ih _ _ (by omega)
      · rw [h]
    · simp only [if_neg hlt]

/-- C4: when the stack region is read back without transport error, the stack
check returns `ERROR_FAIL` exactly when the byte at offset 0 differs from the
stamp `0xCE`; otherwise (every byte stamped, or the first byte that differs
lying at an offset greater than 0) it returns `ERROR_OK`. -/
theorem check_stack_fails_iff_first_byte (env : Env) (t : Target) (stack_addr : Nat)
    (hrd : ∀ t a n, env.read_buffer t a n = ERROR_OK) (h32 : stack_addr < 2 ^ 32) :
    ((esp32_stub_check_stack env t stack_addr).1 = ERROR_FAIL
        ↔ t.mem stack_addr ≠ ESP32_STUB_STACK_STAMP) ∧
    (t.mem stack_addr = ESP32_STUB_STACK_STAMP →
        (esp32_stub_check_stack env t stack_addr).1 = ERROR_OK) := by
  have hu : u32 (stack_addr + 0) = stack_addr := by
    unfold u32; rw [Nat.add_zero]; exact Nat.mod_eq_of_lt h32
  have hstep : esp32_stub_check_stack env t stack_addr =
      match scan_chunk 0 ERROR_OK (load t.mem stack_addr 256) 0 with
      | some r => (r, { t with trace := t.trace ++
          [Event.read_buffer Xfer.canary stack_addr 256 ERROR_OK] })
      | none => check_stack_loop env stack_addr 1023
          { t with trace := t.trace ++ [Event.read_buffer Xfer.canary stack_addr 256 ERROR_OK] }
          256 ERROR_OK := by
    show check_stack_loop env stack_addr (1023 + 1) t 0 ERROR_OK = _
    rw [check_stack_loop]
    simp only [target_read_buffer_ok env hrd, hu, ESP32_STUB_STACK_SZ]
    rfl
  rw [hstep, load_succ]
  unfold scan_chunk
  by_cases hb : t.mem stack_addr ≠ ESP32_STUB_STACK_STAMP
  · rw [if_pos hb, if_neg (by omega)]
    exact ⟨⟨fun _ => hb, fun _ => rfl⟩, fun h => absurd h hb⟩
  · have hb' : t.mem stack_addr = ESP32_STUB_STACK_STAMP := not_not.mp hb
    simp only [if_neg hb]
    have hok : (match scan_chunk 0 ERROR_OK (load t.mem (stack_addr + 1) 255) (0 + 1) with
        | some r => (r, { t with trace := t.trace ++
            [Event.read_buffer Xfer.canary stack_addr 256 ERROR_OK] })
        | none => check_stack_loop env stack_addr 1023
            { t with trace := t.trace ++ [Event.read_buffer Xfer.canary stack_addr 256 ERROR_OK] }
            256 ERROR_OK).1 = ERROR_OK := by
      rcases scan_chunk_later 0 ERROR_OK (load t.mem (stack_addr + 1) 255) (0 + 1) (by omega)
        with h | h
      · rw [h]; exact check_stack_loop_later env hrd _ _ _ _ (by omega)
      · rw [h]
    refine ⟨⟨fun h => ?_, fun h => absurd hb' h⟩, fun _ => hok⟩
    rw [hok] at h
    exact absurd h (by decide)

/-- Witness of C4: on the demo target the untouched stack (all zero bytes, so
byte 0 is not the stamp) fails the check. -/
theorem check_stack_fails_iff_first_byte_witness :
    (esp32_stub_check_stack (demo_env 4096) (demo_target target_state.TARGET_HALTED)
        0x3FFE0000).1 = ERROR_FAIL :=
  (check_stack_fails_iff_first_byte (demo_env 4096) (demo_target target_state.TARGET_HALTED)
    0x3FFE0000 (fun _ _ _ => rfl) (by norm_num)).1.mpr (by decide)

/-! ### Probe -/

/-- C6: for every (32-bit) bank size, probe returns success, marks the bank
probed, sets the sector count to `size / 4096` and builds a table of that many
rows, row `i` being offset `i * 4096`, size 4096, erased status unknown (-1),
unprotected (0); a bank of 1 MiB gets exactly 256 rows. -/
theorem probe_sector_table (bank : flash_bank) (h32 : bank.size < 2 ^ 32) :
    (esp32_probe bank).1 = ERROR_OK ∧
    (esp32_probe bank).2.driver_priv.probed = 1 ∧
    (esp32_probe bank).2.num_sectors = ((bank.size / 4096 : Nat) : Int) ∧
    ∃ table : List flash_sector,
      (esp32_probe bank).2.sectors = some table ∧
      table.length = bank.size / 4096 ∧
      (∀ i, i < bank.size / 4096 →
        table[i]? = some { offset := i * 4096, size := 4096, is_erased := -1,
                           is_protected := 0 }) ∧
      (bank.size = 1048576 → table.length = 256) := by
  refine ⟨rfl, rfl, rfl, _, rfl, ?_, ?_, ?_⟩
  · simp [SPI_FLASH_SEC_SIZE]
  · intro i hi
    have hlt : i * 4096 < 4294967296 := by omega
    simp [SPI_FLASH_SEC_SIZE, u32, hi, Nat.mod_eq_of_lt hlt]
  · intro hsz
    simp [SPI_FLASH_SEC_SIZE, hsz]

/-- Witness of C6: the 1 MiB bank. -/
theorem probe_sector_table_witness :
    (esp32_probe (demo_bank target_state.TARGET_HALTED 1048576)).2.num_sectors = 256 ∧
    (esp32_probe (demo_bank target_state.TARGET_HALTED 1048576)).2.driver_priv.probed = 1 :=
  ⟨(probe_sector_table (demo_bank target_state.TARGET_HALTED 1048576) (by decide)).2.2.1,
   (probe_sector_table (demo_bank target_state.TARGET_HALTED 1048576) (by decide)).2.1⟩

/-! ### Quiet extensions of the trace -/

theorem Quiet.qrefl (t : Target) : Quiet t t :=
  ⟨[], by simp, by simp⟩

theorem Quiet.qtrans {t1 t2 t3 : Target} (h12 : Quiet t1 t2) (h23 : Quiet t2 t3) : Quiet t1 t3 := by
  obtain ⟨e1, h1, q1⟩ := h12
  obtain ⟨e2, h2, q2⟩ := h23
  refine ⟨e1 ++ e2, by rw [h2, h1, List.append_assoc], ?_⟩
  intro e he
  rcases List.mem_append.mp he with h | h
  · exact q1 e h
  · exact q2 e h

theorem Quiet.qone {t1 t2 : Target} (e : Event) (h : t2.trace = t1.trace ++ [e])
    (hq : quiet e = true) : Quiet t1 t2 :=
  ⟨[e], h, by simpa using hq⟩

theorem Quiet.filterMap_eq {α : Type} (f : Event → Option α)
    (hf : ∀ e, quiet e = true → f e = none) {t1 t2 : Target} (h : Quiet t1 t2) :
    t2.trace.filterMap f = t1.trace.filterMap f := by
  obtain ⟨evs, htr, hq⟩ := h
  rw [htr, List.filterMap_append]
  have : evs.filterMap f = [] := by
    rw [List.filterMap_eq_nil_iff]
    intro e he
    exact hf e (hq e he)
  rw [this, List.append_nil]

theorem scratch_request_quiet (e : Event) (h : quiet e = true) : scratch_request e = none := by
  cases e with
  | alloc a size res => cases a <;> simp_all [quiet, scratch_request]
  | _ => rfl

theorem invocation_quiet (e : Event) (h : quiet e = true) : invocation e = none := by
  cases e with
  | invoke slots => simp [quiet] at h
  | _ => rfl

theorem transfer_step_quiet (e : Event) (h : quiet e = true) : transfer_step e = none := by
  cases e with
  | invoke slots => simp [quiet] at h
  | write_buffer x a b r => cases x <;> simp_all [quiet, transfer_step]
  | _ => rfl

theorem Quiet.scratch_requests {t1 t2 : Target} (h : Quiet t1 t2) :
    scratch_requests t2.trace = scratch_requests t1.trace :=
  h.filterMap_eq scratch_request scratch_request_quiet

theorem Quiet.invocations {t1 t2 : Target} (h : Quiet t1 t2) :
    invocations t2.trace = invocations t1.trace :=
  h.filterMap_eq invocation invocation_quiet

theorem Quiet.transfer_steps {t1 t2 : Target} (h : Quiet t1 t2) :
    transfer_steps t2.trace = transfer_steps t1.trace :=
  h.filterMap_eq transfer_step transfer_step_quiet

theorem Calm.crefl (t : Target) : Calm t t :=
  ⟨Quiet.qrefl t, rfl⟩

theorem Calm.ctrans {t1 t2 t3 : Target} (h12 : Calm t1 t2) (h23 : Calm t2 t3) : Calm t1 t3 :=
  ⟨h12.1.qtrans h23.1, by rw [h23.2, h12.2]⟩

theorem Calm.cone {t1 t2 : Target} (e : Event) (h : t2.trace = t1.trace ++ [e])
    (hq : quiet e = true) (hf : t2.flash = t1.flash) : Calm t1 t2 :=
  ⟨Quiet.qone e h hq, hf⟩

theorem calm_alloc (env : Env) (t : Target) (a : Area) (size : Nat) (ha : a ≠ Area.scratch) :
    Calm t (target_alloc_working_area env t a size).2 := by
  unfold target_alloc_working_area
  cases env.alloc_working_area t size <;>
    exact Calm.cone _ rfl (by cases a <;> first | rfl | exact absurd rfl ha) rfl

theorem calm_alloc_alt (env : Env) (t : Target) (a : Area) (size : Nat) (ha : a ≠ Area.scratch) :
    Calm t (target_alloc_alt_working_area env t a size).2 := by
  unfold target_alloc_alt_working_area
  cases env.alloc_alt_working_area t size <;>
    exact Calm.cone _ rfl (by cases a <;> first | rfl | exact absurd rfl ha) rfl

theorem calm_free (t : Target) (a : Area) (wa : Option working_area) :
    Calm t (target_free_working_area t a wa) := by
  cases wa with
  | none => exact Calm.crefl t
  | some w => exact Calm.cone _ rfl rfl rfl

theorem calm_free_alt (t : Target) (a : Area) (wa : Option working_area) :
    Calm t (target_free_alt_working_area t a wa) := by
  cases wa with
  | none => exact Calm.crefl t
  | some w => exact Calm.cone _ rfl rfl rfl

theorem calm_write (env : Env) (t : Target) (x : Xfer) (a : Nat) (b : List Nat)
    (hx : ∀ k, x ≠ Xfer.flash_data k) :
    Calm t (target_write_buffer env t x a b).2 := by
  unfold target_write_buffer
  have hq : ∀ r, quiet (Event.write_buffer x a b r) = true := by
    intro r; cases x <;> first | rfl | exact absurd rfl (hx _)
  by_cases h : env.write_buffer t a b = ERROR_OK
  · simp only [h, if_true]; exact Calm.cone _ rfl (hq _) rfl
  · simp only [h, if_false]; exact Calm.cone _ rfl (hq _) rfl

theorem calm_read (env : Env) (t : Target) (x : Xfer) (a n : Nat)
    (hx : ∀ k, x ≠ Xfer.flash_data k) :
    Calm t (target_read_buffer env t x a n).2.2 := by
  unfold target_read_buffer
  have hq : ∀ r, quiet (Event.read_buffer x a n r) = true := by
    intro r; cases x <;> first | rfl | exact absurd rfl (hx _)
  by_cases h : env.read_buffer t a n = ERROR_OK
  · simp only [h, if_true]; exact Calm.cone _ rfl (hq _) rfl
  · simp only [h, if_false]; exact Calm.cone _ rfl (hq _) rfl

theorem calm_init (t : Target) (idx : Nat) (name : String) : Calm t (init_reg_param t idx name) :=
  Calm.cone _ rfl rfl rfl

theorem calm_destroy (t : Target) (idx : Nat) : Calm t (destroy_reg_param t idx) :=
  Calm.cone _ rfl rfl rfl

theorem quiet_run (env : Env) (t : Target) (stub : esp32_flash_stub) :
    Quiet t (target_run_algorithm env t stub).2.1 := by
  unfold target_run_algorithm
  by_cases h : (env.run_algorithm t (bound_slots stub) (area_address stub.algo)).retval = ERROR_OK
  · simp only [h, if_true]; exact Quiet.qone _ rfl rfl
  · simp only [h, if_false]; exact Quiet.qone _ rfl rfl

theorem calm_fill_loop (env : Env) (stack_addr fuel : Nat) (t : Target) (i : Nat) :
    Calm t (fill_stack_loop env stack_addr fuel t i).2 := by
  induction fuel generalizing t i with
  | zero => exact Calm.crefl t
  | succ fuel ih =>
    rw [fill_stack_loop]
    dsimp only
    split_ifs <;>
      first
      | exact Calm.crefl t
      | exact calm_write env t Xfer.canary _ _ (by intro k; simp)
      | exact (calm_write env t Xfer.canary _ _ (by intro k; simp)).ctrans (ih _ _)

theorem calm_check_loop (env : Env) (stack_addr fuel : Nat) (t : Target) (i : Nat) (rv : Int) :
    Calm t (check_stack_loop env stack_addr fuel t i rv).2 := by
  induction fuel generalizing t i rv with
  | zero => exact Calm.crefl t
  | succ fuel ih =>
    rw [check_stack_loop]
    dsimp only
    split_ifs <;>
      first
      | exact Calm.crefl t
      | exact calm_read env t Xfer.canary _ _ (by intro k; simp)
      | (split
         · exact calm_read env t Xfer.canary _ _ (by intro k; simp)
         · exact (calm_read env t Xfer.canary _ _ (by intro k; simp)).ctrans (ih _ _ _))

theorem calm_cleanup (t : Target) (stub : esp32_flash_stub) : Calm t (esp32_stub_cleanup t stub) := by
  unfold esp32_stub_cleanup
  exact ((((((((calm_free t _ _).ctrans (calm_free _ _ _)).ctrans (calm_free_alt _ _ _)).ctrans
    (calm_free_alt _ _ _)).ctrans (calm_destroy _ _)).ctrans (calm_destroy _ _)).ctrans
    (calm_destroy _ _)).ctrans (calm_destroy _ _)).ctrans (calm_destroy _ _)

theorem calm_on_error (t : Target) (stub : esp32_flash_stub) :
    Calm t (stub_load_on_error t stub) := by
  unfold stub_load_on_error
  exact (((calm_free t _ _).ctrans (calm_free _ _ _)).ctrans (calm_free_alt _ _ _)).ctrans
    (calm_free_alt _ _ _)

theorem calm_transfer_cleanup (t : Target) (stub : esp32_flash_stub) (tb : working_area) :
    Calm t (transfer_cleanup t stub tb) := by
  unfold transfer_cleanup
  exact (((((calm_destroy t _).ctrans (calm_destroy _ _)).ctrans (calm_destroy _ _)).ctrans
    (calm_destroy _ _)).ctrans (calm_cleanup _ _)).ctrans (calm_free_alt _ _ _)

/-! ### The loader emits quiet events and keeps the slot array -/

theorem section_copy_loop_quiet (env : Env) (i : Nat) (sec : imagesection) (fuel : Nat)
    (t : Target) (w : Nat) (rv : Int) (t' : Target)
    (h : section_copy_loop env i sec fuel t w = some (rv, t')) : Calm t t' := by
  induction fuel generalizing t w with
  | zero => simp [section_copy_loop] at h
  | succ fuel ih =>
    rw [section_copy_loop] at h
    dsimp only at h
    have hw : ∀ b, Calm t (target_write_buffer env t (Xfer.sec i)
        (u32 (sec.base_address + w)) b).2 :=
      fun b => calm_write env t (Xfer.sec i) _ b (by intro k; simp)
    split_ifs at h
    all_goals first
      | (simp only [Option.some.injEq, Prod.mk.injEq] at h
         obtain ⟨_, rfl⟩ := h
         first | exact Calm.crefl _ | exact hw _)
      | exact (hw _).ctrans (ih _ _ h)

theorem sections_loop_spec (env : Env) (fuel : Nat) (secs : List imagesection) (i : Nat)
    (t : Target) (stub : esp32_flash_stub) (rv : Int) (t' : Target) (stub' : esp32_flash_stub)
    (h : sections_loop env fuel secs i t stub = some (rv, t', stub')) :
    Calm t t' ∧ stub'.reg_params = stub.reg_params ∧
      stub'.reg_params_count = stub.reg_params_count ∧
      stub'.stack = stub.stack ∧ stub'.algo = stub.algo := by
  induction secs generalizing i t stub with
  | nil =>
    simp only [sections_loop, Option.some.injEq, Prod.mk.injEq] at h
    obtain ⟨_, rfl, rfl⟩ := h
    exact ⟨Calm.crefl _, rfl, rfl, rfl, rfl⟩
  | cons sec rest ih =>
    rw [sections_loop] at h
    split_ifs at h with hx
    · have hq := calm_alloc env t Area.code sec.size (by decide)
      revert hq h
      cases target_alloc_working_area env t Area.code sec.size with
      | mk res t1 =>
        cases res with
        | none =>
          intro h hq
          simp only [Option.some.injEq, Prod.mk.injEq] at h
          obtain ⟨_, rfl, rfl⟩ := h
          exact ⟨hq, rfl, rfl, rfl, rfl⟩
        | some wa =>
          intro h hq
          dsimp only at h
          split_ifs at h with hadr
          · simp only [Option.some.injEq, Prod.mk.injEq] at h
            obtain ⟨_, rfl, rfl⟩ := h
            exact ⟨hq, rfl, rfl, rfl, rfl⟩
          · cases hc : section_copy_loop env i sec fuel t1 0 with
            | none => rw [hc] at h; simp at h
            | some r =>
              obtain ⟨rv2, t2⟩ := r
              rw [hc] at h
              dsimp only at h
              have hq2 := section_copy_loop_quiet env i sec fuel t1 0 rv2 t2 hc
              split_ifs at h
              · simp only [Option.some.injEq, Prod.mk.injEq] at h
                obtain ⟨_, rfl, rfl⟩ := h
                exact ⟨hq.ctrans hq2, rfl, rfl, rfl, rfl⟩
              · obtain ⟨q, a, b, c, d⟩ := ih _ _ _ h
                exact ⟨(hq.ctrans hq2).ctrans q, a, b, c, d⟩
    · have hq := calm_alloc_alt env t Area.data sec.size (by decide)
      revert hq h
      cases target_alloc_alt_working_area env t Area.data sec.size with
      | mk res t1 =>
        cases res with
        | none =>
          intro h hq
          simp only [Option.some.injEq, Prod.mk.injEq] at h
          obtain ⟨_, rfl, rfl⟩ := h
          exact ⟨hq, rfl, rfl, rfl, rfl⟩
        | some wa =>
          intro h hq
          dsimp only at h
          split_ifs at h with hadr
          · simp only [Option.some.injEq, Prod.mk.injEq] at h
            obtain ⟨_, rfl, rfl⟩ := h
            exact ⟨hq, rfl, rfl, rfl, rfl⟩
          · cases hc : section_copy_loop env i sec fuel t1 0 with
            | none => rw [hc] at h; simp at h
            | some r =>
              obtain ⟨rv2, t2⟩ := r
              rw [hc] at h
              dsimp only at h
              have hq2 := section_copy_loop_quiet env i sec fuel t1 0 rv2 t2 hc
              split_ifs at h
              · simp only [Option.some.injEq, Prod.mk.injEq] at h
                obtain ⟨_, rfl, rfl⟩ := h
                exact ⟨hq.ctrans hq2, rfl, rfl, rfl, rfl⟩
              · obtain ⟨q, a, b, c, d⟩ := ih _ _ _ h
                exact ⟨(hq.ctrans hq2).ctrans q, a, b, c, d⟩

theorem buf_set_u32_length (stub : esp32_flash_stub) (idx v : Nat) :
    (buf_set_u32 stub idx v).reg_params.length = stub.reg_params.length := by
  simp [buf_set_u32]

theorem buf_set_u32_shape (stub : esp32_flash_stub) (idx v n : Nat) (h : stub_shape stub n) :
    stub_shape (buf_set_u32 stub idx v) n :=
  ⟨by rw [buf_set_u32_length]; exact h.1, h.2⟩

theorem mem_alt_areas_write (env : Env) (t : Target) (x : Xfer) (a : Nat) (b : List Nat) :
    (target_write_buffer env t x a b).2.alt_areas = t.alt_areas := by
  unfold target_write_buffer
  dsimp only
  split_ifs <;> rfl

theorem stub_load_spec (env : Env) (fuel : Nat) (t : Target) (stub : esp32_flash_stub)
    (rv : Int) (t' : Target) (stub' : esp32_flash_stub)
    (h : esp32_stub_load env fuel t stub = some (rv, t', stub')) :
    Calm t t' ∧ (∀ n, stub_shape stub n → stub_shape stub' n) ∧
      (rv = ERROR_OK → ∃ st t0, stub'.stack = some st ∧ st ∈ t'.alt_areas ∧
        env.alloc_alt_working_area t0 ESP32_STUB_STACK_SZ = some st) := by
  unfold esp32_stub_load at h
  dsimp only at h
  split_ifs at h with hop
  · simp only [Option.some.injEq, Prod.mk.injEq] at h
    obtain ⟨rfl, rfl, rfl⟩ := h
    exact ⟨Calm.crefl _, fun n hn => hn, fun h0 => absurd h0 hop⟩
  · cases hs : sections_loop env fuel (env.image_open t).2.sections 0 t
        { stub with code := none, data := none, stack := none, algo := none } with
    | none => rw [hs] at h; simp at h
    | some r =>
      obtain ⟨rv1, t1, stub1⟩ := r
      rw [hs] at h
      dsimp only at h
      obtain ⟨q1, hrp, hrc, -, -⟩ := sections_loop_spec env fuel _ _ _ _ _ _ _ hs
      have hsh1 : ∀ n, stub_shape stub n → stub_shape stub1 n := by
        intro n hn
        exact ⟨by rw [hrp]; exact hn.1, by rw [hrc]; exact hn.2⟩
      split_ifs at h with hrv1
      · simp only [Option.some.injEq, Prod.mk.injEq] at h
        obtain ⟨rfl, rfl, rfl⟩ := h
        exact ⟨q1.ctrans (calm_on_error _ _), hsh1, fun h0 => absurd h0 hrv1⟩
      · have hq2 := calm_alloc_alt env t1 Area.stack ESP32_STUB_STACK_SZ (by decide)
        have hmem : ∀ st, (target_alloc_alt_working_area env t1 Area.stack
            ESP32_STUB_STACK_SZ).1 = some st →
            st ∈ (target_alloc_alt_working_area env t1 Area.stack
              ESP32_STUB_STACK_SZ).2.alt_areas ∧
            env.alloc_alt_working_area t1 ESP32_STUB_STACK_SZ = some st := by
          intro st
          unfold target_alloc_alt_working_area
          cases hal : env.alloc_alt_working_area t1 ESP32_STUB_STACK_SZ with
          | none => simp
          | some w => intro hw; simp only [Option.some.injEq] at hw; subst hw; simp
        revert hq2 hmem h
        cases target_alloc_alt_working_area env t1 Area.stack ESP32_STUB_STACK_SZ with
        | mk res t2 =>
          cases res with
          | none =>
            intro h hq2 _
            simp only [Option.some.injEq, Prod.mk.injEq] at h
            obtain ⟨rfl, rfl, rfl⟩ := h
            exact ⟨(q1.ctrans hq2).ctrans (calm_on_error _ _), hsh1, fun h0 => absurd h0 (by decide)⟩
          | some st =>
            intro h hq2 hmem
            dsimp only at h
            have hq7 : Calm t2 (init_reg_param (init_reg_param (init_reg_param (init_reg_param
                (init_reg_param t2 0 "a0") 1 "a1") 2 "windowbase") 3 "windowstart") 4 "ps") :=
              ((((calm_init _ _ _).ctrans (calm_init _ _ _)).ctrans (calm_init _ _ _)).ctrans
                (calm_init _ _ _)).ctrans (calm_init _ _ _)
            have hq8 := calm_alloc env (init_reg_param (init_reg_param (init_reg_param
                (init_reg_param (init_reg_param t2 0 "a0") 1 "a1") 2 "windowbase") 3
                "windowstart") 4 "ps") Area.algo env.esp32_stub_wrapper.length (by decide)
            have hal8 : (target_alloc_working_area env (init_reg_param (init_reg_param
                (init_reg_param (init_reg_param (init_reg_param t2 0 "a0") 1 "a1") 2
                "windowbase") 3 "windowstart") 4 "ps") Area.algo
                env.esp32_stub_wrapper.length).2.alt_areas = t2.alt_areas := by
              unfold target_alloc_working_area
              cases env.alloc_working_area _ _ <;> rfl
            have hsh7 : ∀ n, stub_shape stub n → stub_shape
                (buf_set_u32 (buf_set_u32 (buf_set_u32 (buf_set_u32 (buf_set_u32
                  { stub1 with stack := some st } 0 (env.image_open t).2.start_address) 1
                  (stack_top st.address)) 2 0x0) 3 0x1) 4 0x60021) n := by
              intro n hn
              have h1 := hsh1 n hn
              exact buf_set_u32_shape _ _ _ _ (buf_set_u32_shape _ _ _ _ (buf_set_u32_shape _ _ _ _
                (buf_set_u32_shape _ _ _ _ (buf_set_u32_shape _ _ _ _ ⟨h1.1, h1.2⟩))))
            revert hq8 hal8 h
            cases target_alloc_working_area env (init_reg_param (init_reg_param (init_reg_param
                (init_reg_param (init_reg_param t2 0 "a0") 1 "a1") 2 "windowbase") 3
                "windowstart") 4 "ps") Area.algo env.esp32_stub_wrapper.length with
            | mk res8 t8 =>
              cases res8 with
              | none =>
                intro h hq8 _
                simp only [Option.some.injEq, Prod.mk.injEq] at h
                obtain ⟨rfl, rfl, rfl⟩ := h
                exact ⟨(((q1.ctrans hq2).ctrans hq7).ctrans hq8).ctrans (calm_on_error _ _), hsh7,
                  fun h0 => absurd h0 (by decide)⟩
              | some al =>
                intro h hq8 hal8
                dsimp only at h
                have hq9 := calm_write env t8 Xfer.wrapper al.address env.esp32_stub_wrapper
                  (by intro k; simp)
                split_ifs at h with hwr
                · simp only [Option.some.injEq, Prod.mk.injEq] at h
                  obtain ⟨rfl, rfl, rfl⟩ := h
                  exact ⟨((((q1.ctrans hq2).ctrans hq7).ctrans hq8).ctrans hq9).ctrans
                    (calm_on_error _ _), fun n hn => ⟨(hsh7 n hn).1, (hsh7 n hn).2⟩,
                    fun h0 => absurd h0 hwr⟩
                · simp only [Option.some.injEq, Prod.mk.injEq] at h
                  obtain ⟨rfl, rfl, rfl⟩ := h
                  refine ⟨(((q1.ctrans hq2).ctrans hq7).ctrans hq8).ctrans hq9,
                    fun n hn => ⟨(hsh7 n hn).1, (hsh7 n hn).2⟩,
                    fun _ => ⟨st, t1, rfl, ?_, (hmem st rfl).2⟩⟩
                  rw [mem_alt_areas_write]
                  dsimp only at hal8
                  rw [hal8]
                  exact (hmem st rfl).1

/-! ### One stub invocation -/

theorem run_algo_quiet (env : Env) (t : Target) (stub : esp32_flash_stub) :
    Quiet { t with trace := t.trace ++ [Event.invoke (bound_slots stub)] }
      (esp32_run_algo env t stub).2.1 := by
  unfold esp32_run_algo esp32_stub_fill_stack esp32_stub_check_stack
  dsimp only
  split_ifs
  · exact (calm_fill_loop env _ _ _ _).1
  · exact (calm_fill_loop env _ _ _ _).1.qtrans (quiet_run env _ _)
  · exact ((calm_fill_loop env _ _ _ _).1.qtrans (quiet_run env _ _)).qtrans
      (calm_check_loop env _ _ _ _ _).1

theorem run_algo_stub (env : Env) (t : Target) (stub : esp32_flash_stub) :
    (esp32_run_algo env t stub).2.2 = stub ∨
    ∃ v, (esp32_run_algo env t stub).2.2 = buf_set_u32 stub STUB_ARGS_FUNC_START v := by
  unfold esp32_run_algo target_run_algorithm
  dsimp only
  split_ifs <;> first | (left; rfl) | (right; exact ⟨_, rfl⟩)

theorem run_algo_shape (env : Env) (t : Target) (stub : esp32_flash_stub) (n : Nat)
    (h : stub_shape stub n) : stub_shape (esp32_run_algo env t stub).2.2 n := by
  rcases run_algo_stub env t stub with h1 | ⟨v, h1⟩
  · rw [h1]; exact h
  · rw [h1]; exact buf_set_u32_shape _ _ _ _ h

theorem run_algo_invocations (env : Env) (t : Target) (stub : esp32_flash_stub) :
    invocations (esp32_run_algo env t stub).2.1.trace
      = invocations t.trace ++ [bound_slots stub] := by
  rw [(run_algo_quiet env t stub).invocations]
  simp [invocations, invocation]

theorem run_algo_scratch_requests (env : Env) (t : Target) (stub : esp32_flash_stub) :
    scratch_requests (esp32_run_algo env t stub).2.1.trace = scratch_requests t.trace := by
  rw [(run_algo_quiet env t stub).scratch_requests]
  simp [scratch_requests, scratch_request]

theorem run_algo_transfer_steps (env : Env) (t : Target) (stub : esp32_flash_stub) :
    transfer_steps (esp32_run_algo env t stub).2.1.trace
      = transfer_steps t.trace
        ++ [Step.run ((bound_slots stub).getD (STUB_ARGS_FUNC_START + 2) 0)] := by
  rw [(run_algo_quiet env t stub).transfer_steps]
  simp [transfer_steps, transfer_step]

/-! ### The scratch allocation retry loop -/

theorem halving_step (n k : Nat) : n / 2 / 2 ^ k = n / 2 ^ (k + 1) := by
  rw [Nat.div_div_eq_div_mul, pow_succ, Nat.mul_comm]

theorem scratch_alloc_loop_spec (env : Env) (fuel : Nat) (t : Target) (n : Nat) (hf : n < fuel) :
    ∃ m : Nat,
      scratch_requests (scratch_alloc_loop env fuel t n).2.trace
        = scratch_requests t.trace ++ (List.range m).map (fun k => (n / 2 ^ k, none))
            ++ [(n / 2 ^ m, (scratch_alloc_loop env fuel t n).1)] ∧
      ((scratch_alloc_loop env fuel t n).1 = none → n / 2 ^ (m + 1) = 0) ∧
      (0 < m → n / 2 ^ m ≠ 0) ∧
      invocations (scratch_alloc_loop env fuel t n).2.trace = invocations t.trace ∧
      transfer_steps (scratch_alloc_loop env fuel t n).2.trace = transfer_steps t.trace ∧
      (∀ wa, (scratch_alloc_loop env fuel t n).1 = some wa →
        ∃ t0, env.alloc_alt_working_area t0 (n / 2 ^ m) = some wa ∧
          t0.alt_areas = t.alt_areas) ∧
      (scratch_alloc_loop env fuel t n).2.flash = t.flash ∧
      (scratch_alloc_loop env fuel t n).2.mem = t.mem := by
  induction fuel generalizing t n with
  | zero => omega
  | succ fuel ih =>
    rw [scratch_alloc_loop]
    unfold target_alloc_alt_working_area
    cases hal : env.alloc_alt_working_area t n with
    | some wa =>
      refine ⟨0, ?_, ?_, ?_, ?_, ?_, ?_, rfl, rfl⟩
      · simp [scratch_requests, scratch_request]
      · simp
      · simp
      · simp [invocations, invocation]
      · simp [transfer_steps, transfer_step]
      · intro wa1 hwa
        simp only [Option.some.injEq] at hwa
        subst hwa
        exact ⟨t, by simpa using hal, rfl⟩
    | none =>
      dsimp only
      by_cases hz : n / 2 = 0
      · rw [if_pos hz]
        refine ⟨0, ?_, ?_, ?_, ?_, ?_, ?_, rfl, rfl⟩ <;>
          simp [scratch_requests, scratch_request, invocations, invocation, transfer_steps,
            transfer_step, hz]
      · rw [if_neg hz]
        obtain ⟨m, h1, h2, h3, h4, h5, h6, h7, h8⟩ := ih
          { t with trace := t.trace ++ [Event.alloc Area.scratch n none] } (n / 2) (by omega)
        refine ⟨m + 1, ?_, ?_, ?_, ?_, ?_, ?_, h7, h8⟩
        · rw [h1, List.range_succ_eq_map]
          simp [scratch_requests, scratch_request, halving_step, Function.comp_def]
        · intro hn
          have := h2 hn
          rwa [halving_step] at this
        · intro _
          by_cases hm : 0 < m
          · have := h3 hm
            rwa [halving_step] at this
          · have hm0 : m = 0 := by omega
            subst hm0
            simpa using hz
        · rw [h4]; simp [invocations, invocation]
        · rw [h5]; simp [transfer_steps, transfer_step]
        · intro wa hwa
          obtain ⟨t0, ht0, ha0⟩ := h6 wa hwa
          exact ⟨t0, by rw [← halving_step]; exact ht0, ha0⟩

theorem scratch_attempts_le_log (n m : Nat) (h : 0 < m → n / 2 ^ m ≠ 0) : m ≤ Nat.log 2 n := by
  by_cases hm : 0 < m
  · have h1 := h hm
    have h2 : 2 ^ m ≤ n := by
      by_contra hlt
      exact h1 (Nat.div_eq_of_lt (by omega))
    exact Nat.le_log_of_pow_le (by norm_num) h2
  · omega

/-! ### Slots -/

theorem bound_slots_set_same (stub : esp32_flash_stub) (idx v n : Nat) (h : stub_shape stub n)
    (hi : idx < n) (hm : idx < STUB_ARGS_MAX) :
    (bound_slots (buf_set_u32 stub idx v)).getD idx 0 = u32 v := by
  unfold bound_slots buf_set_u32
  simp [List.getD_eq_getElem?_getD, List.getElem?_take, List.getElem?_set, h.1, h.2, hi, hm]

theorem bound_slots_set_other (stub : esp32_flash_stub) (idx j v : Nat) (hne : idx ≠ j) :
    (bound_slots (buf_set_u32 stub idx v)).getD j 0 = (bound_slots stub).getD j 0 := by
  unfold bound_slots buf_set_u32
  simp [List.getD_eq_getElem?_getD, List.getElem?_take, List.getElem?_set, hne]

theorem stub_init_shape (n : Nat) : stub_shape (stub_init n) n :=
  ⟨by simp [stub_init], rfl⟩

theorem stub_load_ok (env : Env) (fuel : Nat) (t : Target) (n : Nat)
    (h : (esp32_stub_load env fuel t (stub_init n)).map Prod.fst = some ERROR_OK) :
    ∃ t1 stub1, esp32_stub_load env fuel t (stub_init n) = some (ERROR_OK, t1, stub1) ∧
      Calm t t1 ∧ stub_shape stub1 n ∧ ∃ st t0, stub1.stack = some st ∧ st ∈ t1.alt_areas ∧
        env.alloc_alt_working_area t0 ESP32_STUB_STACK_SZ = some st := by
  cases hl : esp32_stub_load env fuel t (stub_init n) with
  | none => rw [hl] at h; simp at h
  | some r =>
    obtain ⟨rv, t1, stub1⟩ := r
    rw [hl] at h
    simp only [Option.map_some', Option.some.injEq] at h
    subst h
    obtain ⟨hc, hs, hst⟩ := stub_load_spec env fuel t _ _ _ _ hl
    exact ⟨t1, stub1, rfl, hc, hs n (stub_init_shape n), hst rfl⟩

/-! ### Erase -/

theorem erase_slot_value (x : Int) (h0 : 0 ≤ x) (h1 : x < 2 ^ 20) :
    ((u32 ((x * (SPI_FLASH_SEC_SIZE : Nat)) % 2 ^ 32).toNat : Nat) : Int) = x * 4096 := by
  have hx : x * ((SPI_FLASH_SEC_SIZE : Nat) : Int) % 2 ^ 32 = x * 4096 := by
    simp only [SPI_FLASH_SEC_SIZE]
    push_cast
    apply Int.emod_eq_of_lt <;> omega
  rw [hx]
  unfold u32
  have h2 : (x * 4096).toNat < 2 ^ 32 := by omega
  rw [Nat.mod_eq_of_lt h2]
  omega

/-- C5: on a halted target whose stub loads, for a bank whose sector count is
the one probe computes from its 32-bit size and every sector range
`0 <= first <= last < sector count`, erase returns after exactly one stub
invocation and no scratch allocation request; the invocation carries opcode 3,
address `first * 4096` and size `(last - first + 1) * 4096`, which for
`first = last = 0` is address 0 and size 4096. -/
theorem erase_single_invocation (env : Env) (fuel : Nat) (bank : flash_bank) (first last : Int)
    (hh : bank.target.state = target_state.TARGET_HALTED)
    (hrange : 0 ≤ first ∧ first ≤ last ∧ last < bank.num_sectors)
    (hsize : bank.size < 2 ^ 32)
    (hprobed : bank.num_sectors = ((bank.size / SPI_FLASH_SEC_SIZE : Nat) : Int))
    (hload : (esp32_stub_load env fuel bank.target (stub_init (STUB_ARGS_FUNC_START + 3))).map
      Prod.fst = some ERROR_OK) :
    ∃ rv t' slots, esp32_erase env fuel bank first last = some (rv, t') ∧
      invocations t'.trace = invocations bank.target.trace ++ [slots] ∧
      scratch_requests t'.trace = scratch_requests bank.target.trace ∧
      slots.getD STUB_ARGS_FUNC_START 0 = STUB_CMD_FLASH_ERASE ∧
      ((slots.getD (STUB_ARGS_FUNC_START + 1) 0 : Nat) : Int) = first * 4096 ∧
      ((slots.getD (STUB_ARGS_FUNC_START + 2) 0 : Nat) : Int) = (last - first + 1) * 4096 ∧
      (first = 0 → last = 0 →
        slots.getD (STUB_ARGS_FUNC_START + 1) 0 = 0 ∧
        slots.getD (STUB_ARGS_FUNC_START + 2) 0 = 4096) := by
  obtain ⟨t1, stub1, hl, hc1, hs1, -⟩ := stub_load_ok env fuel bank.target _ hload
  obtain ⟨h0, h1, h2⟩ := hrange
  have hns : bank.num_sectors < 2 ^ 20 := by
    rw [hprobed]
    have : bank.size / SPI_FLASH_SEC_SIZE < 2 ^ 20 := by
      unfold SPI_FLASH_SEC_SIZE; omega
    exact_mod_cast this
  have hA := erase_slot_value first h0 (by omega)
  have hB := erase_slot_value (last - first + 1) (by omega) (by omega)
  let stub4 := buf_set_u32 (buf_set_u32 (buf_set_u32 stub1 (STUB_ARGS_FUNC_START + 0)
      STUB_CMD_FLASH_ERASE) (STUB_ARGS_FUNC_START + 1)
      ((first * SPI_FLASH_SEC_SIZE) % 2 ^ 32).toNat) (STUB_ARGS_FUNC_START + 2)
      (((last - first + 1) * SPI_FLASH_SEC_SIZE) % 2 ^ 32).toNat
  let t4 := init_reg_param (init_reg_param (init_reg_param t1 (STUB_ARGS_FUNC_START + 0) "a2")
      (STUB_ARGS_FUNC_START + 1) "a3") (STUB_ARGS_FUNC_START + 2) "a4"
  have hc4 : Calm bank.target t4 :=
    ((hc1.ctrans (calm_init _ _ _)).ctrans (calm_init _ _ _)).ctrans (calm_init _ _ _)
  have hs2 := buf_set_u32_shape stub1 (STUB_ARGS_FUNC_START + 0) STUB_CMD_FLASH_ERASE _ hs1
  have hs3 := buf_set_u32_shape _ (STUB_ARGS_FUNC_START + 1)
    ((first * SPI_FLASH_SEC_SIZE) % 2 ^ 32).toNat _ hs2
  have heq : esp32_erase env fuel bank first last =
      some (run_status (esp32_run_algo env t4 stub4).1 (esp32_run_algo env t4 stub4).2.2,
        esp32_stub_cleanup (destroy_reg_param (destroy_reg_param (destroy_reg_param
          (esp32_run_algo env t4 stub4).2.1 (STUB_ARGS_FUNC_START + 0))
          (STUB_ARGS_FUNC_START + 1)) (STUB_ARGS_FUNC_START + 2))
          (esp32_run_algo env t4 stub4).2.2) := by
    unfold esp32_erase
    rw [if_neg (by simp [hh]), if_neg (by simp [h0, h1, h2]), hl]
    simp only [ne_eq, not_true_eq_false, if_false]
  have hcl : Calm (esp32_run_algo env t4 stub4).2.1
      (esp32_stub_cleanup (destroy_reg_param (destroy_reg_param (destroy_reg_param
          (esp32_run_algo env t4 stub4).2.1 (STUB_ARGS_FUNC_START + 0))
          (STUB_ARGS_FUNC_START + 1)) (STUB_ARGS_FUNC_START + 2))
          (esp32_run_algo env t4 stub4).2.2) :=
    (((calm_destroy _ _).ctrans (calm_destroy _ _)).ctrans (calm_destroy _ _)).ctrans
      (calm_cleanup _ _)
  have hsl1 : (bound_slots stub4).getD (STUB_ARGS_FUNC_START + 1) 0
      = u32 ((first * SPI_FLASH_SEC_SIZE) % 2 ^ 32).toNat := by
    show (bound_slots (buf_set_u32 _ _ _)).getD _ 0 = _
    rw [bound_slots_set_other _ _ _ _ (by decide)]
    exact bound_slots_set_same _ _ _ _ hs2 (by decide) (by decide)
  have hsl2 : (bound_slots stub4).getD (STUB_ARGS_FUNC_START + 2) 0
      = u32 (((last - first + 1) * SPI_FLASH_SEC_SIZE) % 2 ^ 32).toNat :=
    bound_slots_set_same _ _ _ _ hs3 (by decide) (by decide)
  refine ⟨_, _, bound_slots stub4, heq, ?_, ?_, ?_, ?_, ?_, ?_⟩
  · rw [hcl.1.invocations, run_algo_invocations, hc4.1.invocations]
  · rw [hcl.1.scratch_requests, run_algo_scratch_requests, hc4.1.scratch_requests]
  · show (bound_slots (buf_set_u32 _ _ _)).getD _ 0 = _
    rw [bound_slots_set_other _ _ _ _ (by decide), bound_slots_set_other _ _ _ _ (by decide)]
    exact bound_slots_set_same _ _ _ _ hs1 (by decide) (by decide)
  · rw [hsl1]; exact hA
  · rw [hsl2]; exact hB
  · intro hf hla
    subst hf hla
    rw [hsl1, hsl2]
    decide

/-! ### The chunk loops -/

theorem scratch_requests_write (env : Env) (t : Target) (x : Xfer) (a : Nat) (b : List Nat) :
    scratch_requests (target_write_buffer env t x a b).2.trace = scratch_requests t.trace := by
  unfold target_write_buffer
  dsimp only
  split_ifs <;> simp [scratch_requests, scratch_request]

theorem scratch_requests_read (env : Env) (t : Target) (x : Xfer) (a n : Nat) :
    scratch_requests (target_read_buffer env t x a n).2.2.trace = scratch_requests t.trace := by
  unfold target_read_buffer
  dsimp only
  split_ifs <;> simp [scratch_requests, scratch_request]

theorem chunk_size_pos (tb : working_area) (count total : Nat) (hS : 1 ≤ tb.size)
    (h : total < count) : 1 ≤ chunk_size tb count total := by
  unfold chunk_size
  split_ifs <;> omega

theorem chunk_size_le (tb : working_area) (count total : Nat) :
    chunk_size tb count total ≤ count - total := by
  unfold chunk_size
  split_ifs <;> omega

theorem u32_of_lt (v : Nat) (h : v < 2 ^ 32) : u32 v = v := Nat.mod_eq_of_lt h

theorem write_loop_scratch (env : Env) (tb : working_area) (buffer : List Nat) (count fuel : Nat)
    (t : Target) (stub : esp32_flash_stub) (total : Nat) (rv : Int)
    (r : Int × Target × esp32_flash_stub)
    (h : write_loop env tb buffer count fuel t stub total rv = some r) :
    scratch_requests r.2.1.trace = scratch_requests t.trace := by
  induction fuel generalizing t stub total rv with
  | zero => simp [write_loop] at h
  | succ fuel ih =>
    rw [write_loop] at h
    dsimp only at h
    split_ifs at h
    · simp only [Option.some.injEq] at h; subst h
      exact scratch_requests_write _ _ _ _ _
    · simp only [Option.some.injEq] at h; subst h
      rw [run_algo_scratch_requests, scratch_requests_write]
    · simp only [Option.some.injEq] at h; subst h
      show scratch_requests (esp32_run_algo _ _ _).2.1.trace = _
      rw [run_algo_scratch_requests, scratch_requests_write]
    · rw [ih _ _ _ _ h, run_algo_scratch_requests, scratch_requests_write]
    · simp only [Option.some.injEq] at h; subst h; rfl

theorem read_loop_scratch (env : Env) (tb : working_area) (count fuel : Nat)
    (t : Target) (stub : esp32_flash_stub) (buffer : List Nat) (total : Nat) (rv : Int)
    (r : Int × Target × esp32_flash_stub × List Nat)
    (h : read_loop env tb count fuel t stub buffer total rv = some r) :
    scratch_requests r.2.1.trace = scratch_requests t.trace := by
  induction fuel generalizing t stub buffer total rv with
  | zero => simp [read_loop] at h
  | succ fuel ih =>
    rw [read_loop] at h
    dsimp only at h
    split_ifs at h
    · simp only [Option.some.injEq] at h; subst h
      exact run_algo_scratch_requests _ _ _
    · simp only [Option.some.injEq] at h; subst h
      exact run_algo_scratch_requests _ _ _
    · simp only [Option.some.injEq] at h; subst h
      show scratch_requests (target_read_buffer _ _ _ _ _).2.2.trace = _
      rw [scratch_requests_read, run_algo_scratch_requests]
    · rw [ih _ _ _ _ _ h, scratch_requests_read, run_algo_scratch_requests]
    · simp only [Option.some.injEq] at h; subst h; rfl

theorem write_loop_terminates (env : Env) (tb : working_area) (buffer : List Nat)
    (count fuel : Nat) (t : Target) (stub : esp32_flash_stub) (total : Nat) (rv : Int)
    (hS : count = 0 ∨ 1 ≤ tb.size) (h32 : count < 2 ^ 32) (hle : total ≤ count)
    (hf : count - total < fuel) :
    (write_loop env tb buffer count fuel t stub total rv).isSome = true := by
  induction fuel generalizing t stub total rv with
  | zero => omega
  | succ fuel ih =>
    rw [write_loop]
    dsimp only
    split_ifs with hlt
    · rfl
    · rfl
    · rfl
    · have h1 := chunk_size_pos tb count total (by omega) hlt
      have h2 := chunk_size_le tb count total
      rw [u32_of_lt _ (by omega)]
      exact ih _ _ _ _ (by omega) (by omega)
    · rfl

theorem read_loop_terminates (env : Env) (tb : working_area) (count fuel : Nat)
    (t : Target) (stub : esp32_flash_stub) (buffer : List Nat) (total : Nat) (rv : Int)
    (hS : count = 0 ∨ 1 ≤ tb.size) (h32 : count < 2 ^ 32) (hle : total ≤ count)
    (hf : count - total < fuel) :
    (read_loop env tb count fuel t stub buffer total rv).isSome = true := by
  induction fuel generalizing t stub buffer total rv with
  | zero => omega
  | succ fuel ih =>
    rw [read_loop]
    dsimp only
    split_ifs with hlt
    · rfl
    · rfl
    · rfl
    · have h1 := chunk_size_pos tb count total (by omega) hlt
      have h2 := chunk_size_le tb count total
      rw [u32_of_lt _ (by omega)]
      exact ih _ _ _ _ _ (by omega) (by omega)
    · rfl

/-! ### Read and write after a successful load -/

theorem esp32_read_eq (env : Env) (fuel : Nat) (bank : flash_bank) (buffer : List Nat)
    (offset count : Nat) (t1 : Target) (stub1 : esp32_flash_stub)
    (hh : bank.target.state = target_state.TARGET_HALTED)
    (hl : esp32_stub_load env fuel bank.target (stub_init (STUB_ARGS_FUNC_START + 4))
      = some (ERROR_OK, t1, stub1)) :
    esp32_read env fuel bank buffer offset count =
      match scratch_alloc_loop env (count + 1) t1 count with
      | (none, t2) =>
        some (ERROR_TARGET_RESOURCE_NOT_AVAILABLE, esp32_stub_cleanup t2 stub1, buffer)
      | (some target_buf, t2) =>
        match read_loop env target_buf count fuel
          (transfer_setup t2 stub1 STUB_CMD_FLASH_READ offset target_buf).1
          (transfer_setup t2 stub1 STUB_CMD_FLASH_READ offset target_buf).2 buffer 0 ERROR_OK with
        | none => none
        | some (retval1, t3, stub3, buffer1) =>
          some (retval1, transfer_cleanup t3 stub3 target_buf, buffer1) := by
  unfold esp32_read
  rw [if_neg (by simp [hh]), hl]
  simp only [ne_eq, not_true_eq_false, if_false]

theorem esp32_write_eq (env : Env) (fuel : Nat) (bank : flash_bank) (buffer : List Nat)
    (offset count : Nat) (t1 : Target) (stub1 : esp32_flash_stub)
    (hh : bank.target.state = target_state.TARGET_HALTED)
    (hl : esp32_stub_load env fuel bank.target (stub_init (STUB_ARGS_FUNC_START + 4))
      = some (ERROR_OK, t1, stub1)) :
    esp32_write env fuel bank buffer offset count =
      match scratch_alloc_loop env (count + 1) t1 count with
      | (none, t2) =>
        some (ERROR_TARGET_RESOURCE_NOT_AVAILABLE, esp32_stub_cleanup t2 stub1)
      | (some target_buf, t2) =>
        match write_loop env target_buf buffer count fuel
          (transfer_setup t2 stub1 STUB_CMD_FLASH_WRITE offset target_buf).1
          (transfer_setup t2 stub1 STUB_CMD_FLASH_WRITE offset target_buf).2 0 ERROR_OK with
        | none => none
        | some (retval1, t3, stub3) =>
          some (retval1, transfer_cleanup t3 stub3 target_buf) := by
  unfold esp32_write
  rw [if_neg (by simp [hh]), hl]
  simp only [ne_eq, not_true_eq_false, if_false]

theorem calm_transfer_setup (t : Target) (stub : esp32_flash_stub) (cmd offset : Nat)
    (tb : working_area) : Calm t (transfer_setup t stub cmd offset tb).1 := by
  unfold transfer_setup
  exact (((calm_init _ _ _).ctrans (calm_init _ _ _)).ctrans (calm_init _ _ _)).ctrans
    (calm_init _ _ _)

theorem scratch_alloc_loop_attempts (env : Env) (t : Target) (n : Nat) :
    (scratch_requests (scratch_alloc_loop env (n + 1) t n).2.trace).length
      ≤ (scratch_requests t.trace).length + (Nat.log 2 n + 1) := by
  obtain ⟨m, h1, -, h3, -, -, -, -, -⟩ := scratch_alloc_loop_spec env (n + 1) t n (by omega)
  have hm := scratch_attempts_le_log n m h3
  rw [h1]
  simp only [List.length_append, List.length_map, List.length_range, List.length_singleton]
  omega

theorem read_retry_requests (env : Env) (fuel : Nat) (bank : flash_bank) (buffer : List Nat)
    (offset count : Nat)
    (hh : bank.target.state = target_state.TARGET_HALTED)
    (hload : (esp32_stub_load env fuel bank.target (stub_init (STUB_ARGS_FUNC_START + 4))).map
      Prod.fst = some ERROR_OK) :
    ∃ (m : Nat) (granted : Option working_area),
      (0 < m → count / 2 ^ m ≠ 0) ∧
      (∀ rv t' b', esp32_read env fuel bank buffer offset count = some (rv, t', b') →
        scratch_requests t'.trace
          = scratch_requests bank.target.trace
            ++ (List.range m).map (fun k => (count / 2 ^ k, none))
            ++ [(count / 2 ^ m, granted)]) := by
  obtain ⟨t1, stub1, hl, hc1, -, -⟩ := stub_load_ok env fuel bank.target _ hload
  obtain ⟨m, h1, -, h3, -, -, -, -, -⟩ :=
    scratch_alloc_loop_spec env (count + 1) t1 count (by omega)
  have heq := esp32_read_eq env fuel bank buffer offset count t1 stub1 hh hl
  generalize hr : scratch_alloc_loop env (count + 1) t1 count = r at h1 heq
  obtain ⟨res, t2⟩ := r
  refine ⟨m, res, h3, ?_⟩
  intro rv t' b' hres
  rw [heq] at hres
  cases res with
  | none =>
    simp only [Option.some.injEq, Prod.mk.injEq] at hres
    obtain ⟨-, rfl, -⟩ := hres
    rw [(calm_cleanup t2 stub1).1.scratch_requests, ← hc1.1.scratch_requests]
    exact h1
  | some tb =>
    dsimp only at hres
    cases hlp : read_loop env tb count fuel
        (transfer_setup t2 stub1 STUB_CMD_FLASH_READ offset tb).1
        (transfer_setup t2 stub1 STUB_CMD_FLASH_READ offset tb).2 buffer 0 ERROR_OK with
    | none => rw [hlp] at hres; simp at hres
    | some q =>
      obtain ⟨rv3, t3, stub3, b3⟩ := q
      rw [hlp] at hres
      simp only [Option.some.injEq, Prod.mk.injEq] at hres
      obtain ⟨-, rfl, -⟩ := hres
      rw [(calm_transfer_cleanup t3 stub3 tb).1.scratch_requests,
        read_loop_scratch _ _ _ _ _ _ _ _ _ _ hlp,
        (calm_transfer_setup t2 stub1 _ _ tb).1.scratch_requests, ← hc1.1.scratch_requests]
      exact h1

theorem write_retry_requests (env : Env) (fuel : Nat) (bank : flash_bank) (buffer : List Nat)
    (offset count : Nat)
    (hh : bank.target.state = target_state.TARGET_HALTED)
    (hload : (esp32_stub_load env fuel bank.target (stub_init (STUB_ARGS_FUNC_START + 4))).map
      Prod.fst = some ERROR_OK) :
    ∃ (m : Nat) (granted : Option working_area),
      (0 < m → count / 2 ^ m ≠ 0) ∧
      (∀ rv t', esp32_write env fuel bank buffer offset count = some (rv, t') →
        scratch_requests t'.trace
          = scratch_requests bank.target.trace
            ++ (List.range m).map (fun k => (count / 2 ^ k, none))
            ++ [(count / 2 ^ m, granted)]) := by
  obtain ⟨t1, stub1, hl, hc1, -, -⟩ := stub_load_ok env fuel bank.target _ hload
  obtain ⟨m, h1, -, h3, -, -, -, -, -⟩ :=
    scratch_alloc_loop_spec env (count + 1) t1 count (by omega)
  have heq := esp32_write_eq env fuel bank buffer offset count t1 stub1 hh hl
  generalize hr : scratch_alloc_loop env (count + 1) t1 count = r at h1 heq
  obtain ⟨res, t2⟩ := r
  refine ⟨m, res, h3, ?_⟩
  intro rv t' hres
  rw [heq] at hres
  cases res with
  | none =>
    simp only [Option.some.injEq, Prod.mk.injEq] at hres
    obtain ⟨-, rfl⟩ := hres
    rw [(calm_cleanup t2 stub1).1.scratch_requests, ← hc1.1.scratch_requests]
    exact h1
  | some tb =>
    dsimp only at hres
    cases hlp : write_loop env tb buffer count fuel
        (transfer_setup t2 stub1 STUB_CMD_FLASH_WRITE offset tb).1
        (transfer_setup t2 stub1 STUB_CMD_FLASH_WRITE offset tb).2 0 ERROR_OK with
    | none => rw [hlp] at hres; simp at hres
    | some q =>
      obtain ⟨rv3, t3, stub3⟩ := q
      rw [hlp] at hres
      simp only [Option.some.injEq, Prod.mk.injEq] at hres
      obtain ⟨-, rfl⟩ := hres
      rw [(calm_transfer_cleanup t3 stub3 tb).1.scratch_requests,
        write_loop_scratch _ _ _ _ _ _ _ _ _ _ hlp,
        (calm_transfer_setup t2 stub1 _ _ tb).1.scratch_requests, ← hc1.1.scratch_requests]
      exact h1

/-- C8, amended: the retry loop of read and of write makes at most
`floor(log2(n)) + 1` scratch allocation attempts for an initial size `n`,
whatever the allocator answers: the loop itself, and every read and every
write that returns. -/
theorem scratch_attempts_bound (env : Env) (fuel : Nat) (bank : flash_bank) (buffer : List Nat)
    (offset count : Nat) (t : Target) :
    (scratch_requests (scratch_alloc_loop env (count + 1) t count).2.trace).length
        ≤ (scratch_requests t.trace).length + (Nat.log 2 count + 1) ∧
    (∀ rv t' b', esp32_read env fuel bank buffer offset count = some (rv, t', b') →
      (scratch_requests t'.trace).length
        ≤ (scratch_requests bank.target.trace).length + (Nat.log 2 count + 1)) ∧
    (∀ rv t', esp32_write env fuel bank buffer offset count = some (rv, t') →
      (scratch_requests t'.trace).length
        ≤ (scratch_requests bank.target.trace).length + (Nat.log 2 count + 1)) := by
  refine ⟨scratch_alloc_loop_attempts env t count, ?_, ?_⟩
  · intro rv t' b' hres
    by_cases hh : bank.target.state = target_state.TARGET_HALTED
    · cases hl : esp32_stub_load env fuel bank.target (stub_init (STUB_ARGS_FUNC_START + 4)) with
      | none =>
        unfold esp32_read at hres
        rw [if_neg (by simp [hh]), hl] at hres
        simp at hres
      | some q =>
        obtain ⟨rv1, t1, stub1⟩ := q
        by_cases hrv : rv1 = ERROR_OK
        · subst hrv
          have hload : (esp32_stub_load env fuel bank.target
              (stub_init (STUB_ARGS_FUNC_START + 4))).map Prod.fst = some ERROR_OK := by
            rw [hl]; rfl
          obtain ⟨m, granted, h3, hreq⟩ :=
            read_retry_requests env fuel bank buffer offset count hh hload
          have hm := scratch_attempts_le_log count m h3
          rw [hreq rv t' b' hres]
          simp only [List.length_append, List.length_map, List.length_range,
            List.length_singleton]
          omega
        · unfold esp32_read at hres
          rw [if_neg (by simp [hh]), hl] at hres
          simp only [ne_eq, hrv, not_false_eq_true, if_true, Option.some.injEq,
            Prod.mk.injEq] at hres
          obtain ⟨-, rfl, -⟩ := hres
          rw [(stub_load_spec env fuel _ _ _ _ _ hl).1.1.scratch_requests]
          omega
    · unfold esp32_read at hres
      rw [if_pos hh] at hres
      simp only [Option.some.injEq, Prod.mk.injEq] at hres
      obtain ⟨-, rfl, -⟩ := hres
      omega
  · intro rv t' hres
    by_cases hh : bank.target.state = target_state.TARGET_HALTED
    · cases hl : esp32_stub_load env fuel bank.target (stub_init (STUB_ARGS_FUNC_START + 4)) with
      | none =>
        unfold esp32_write at hres
        rw [if_neg (by simp [hh]), hl] at hres
        simp at hres
      | some q =>
        obtain ⟨rv1, t1, stub1⟩ := q
        by_cases hrv : rv1 = ERROR_OK
        · subst hrv
          have hload : (esp32_stub_load env fuel bank.target
              (stub_init (STUB_ARGS_FUNC_START + 4))).map Prod.fst = some ERROR_OK := by
            rw [hl]; rfl
          obtain ⟨m, granted, h3, hreq⟩ :=
            write_retry_requests env fuel bank buffer offset count hh hload
          have hm := scratch_attempts_le_log count m h3
          rw [hreq rv t' hres]
          simp only [List.length_append, List.length_map, List.length_range,
            List.length_singleton]
          omega
        · unfold esp32_write at hres
          rw [if_neg (by simp [hh]), hl] at hres
          simp only [ne_eq, hrv, not_false_eq_true, if_true, Option.some.injEq,
            Prod.mk.injEq] at hres
          obtain ⟨-, rfl⟩ := hres
          rw [(stub_load_spec env fuel _ _ _ _ _ hl).1.1.scratch_requests]
          omega
    · unfold esp32_write at hres
      rw [if_pos hh] at hres
      simp only [Option.some.injEq, Prod.mk.injEq] at hres
      obtain ⟨-, rfl⟩ := hres
      omega

set_option maxRecDepth 100000 in
/-- Counterexample to C8 as stated: a read of 8 bytes on a target with no room
for any scratch area makes four allocation attempts (8, 4, 2, 1), more than
`log2(8) = 3`. -/
theorem scratch_attempts_exceed_log2 :
    (esp32_read (demo_env 1028) 9 demo_halted_bank [0, 0, 0, 0, 0, 0, 0, 0]
        0 8).map (fun r => (r.1, (scratch_requests r.2.1.trace).map Prod.fst))
      = some (ERROR_TARGET_RESOURCE_NOT_AVAILABLE, [8, 4, 2, 1]) ∧
    ¬ ([8, 4, 2, 1].length ≤ Nat.log 2 8) := by
  refine ⟨by decide, ?_⟩
  have : Nat.log 2 8 = 3 := by
    rw [Nat.log_eq_iff] <;> norm_num
  rw [this]
  decide

set_option maxRecDepth 100000 in
/-- Counterexample to C9 as stated: when the request for 2 bytes is refused
and the one for 1 byte is granted, write goes on with the one-byte scratch
area, the smallest non-empty size, invokes the stub twice and returns success;
no floor above zero stops it. -/
theorem write_uses_one_byte_scratch :
    (esp32_write (demo_env 1029) 3 demo_halted_bank [7, 9] 0 2).map
        (fun r => (r.1, scratch_requests r.2.trace, (invocations r.2.trace).length))
      = some (ERROR_OK, [(2, none), (1, some { address := 0x3FFE0404, size := 1 })], 2) := by
  decide

/-! ### The chunk plan of write -/

theorem transfer_steps_write_data (env : Env) (t : Target) (k a : Nat) (b : List Nat) :
    transfer_steps (target_write_buffer env t (Xfer.flash_data k) a b).2.trace
      = transfer_steps t.trace ++ [Step.copy k a b] := by
  unfold target_write_buffer
  dsimp only
  split_ifs <;> simp [transfer_steps, transfer_step]

theorem chunks_lt_iff (S count j : Nat) (hS : 1 ≤ S) :
    j * S < count ↔ j < (count + S - 1) / S := by
  have h := @Nat.le_div_iff_mul_le S (j + 1) (count + S - 1) (by omega : 0 < S)
  rw [Nat.add_mul, Nat.one_mul] at h
  constructor
  · intro hlt
    exact h.mpr (by omega)
  · intro hlt
    have := h.mp hlt
    omega

theorem chunk_total_next (S count j : Nat) :
    min (j * S) count + min S (count - min (j * S) count) = min ((j + 1) * S) count := by
  rw [Nat.add_mul]
  omega

theorem chunk_size_eq_min (tb : working_area) (count total : Nat) :
    chunk_size tb count total = min tb.size (count - total) := by
  unfold chunk_size
  split_ifs <;> omega

theorem write_loop_steps (env : Env) (tb : working_area) (buffer : List Nat) (count : Nat)
    (hS : 1 ≤ tb.size) (h32 : count < 2 ^ 32) (fuel j : Nat) (t : Target)
    (stub : esp32_flash_stub) (rv0 : Int) (r : Int × Target × esp32_flash_stub)
    (hsh : stub_shape stub (STUB_ARGS_FUNC_START + 4))
    (h : write_loop env tb buffer count fuel t stub (min (j * tb.size) count) rv0 = some r)
    (hok : r.1 = ERROR_OK) :
    transfer_steps r.2.1.trace = transfer_steps t.trace ++
      (List.range' j ((count + tb.size - 1) / tb.size - j)).flatMap (fun k =>
        [Step.copy (k * tb.size) tb.address
           ((buffer.drop (k * tb.size)).take (min tb.size (count - k * tb.size))),
         Step.run (min tb.size (count - k * tb.size))]) := by
  induction fuel generalizing j t stub rv0 with
  | zero => simp [write_loop] at h
  | succ fuel ih =>
    rw [write_loop] at h
    dsimp only at h
    by_cases hlt : min (j * tb.size) count < count
    · have hj : j * tb.size < count := by omega
      have hjn := (chunks_lt_iff tb.size count j hS).mp hj
      have hg : min (j * tb.size) count = j * tb.size := by omega
      have hnext := chunk_total_next tb.size count j
      have hd : chunk_size tb count (j * tb.size) = min tb.size (count - j * tb.size) :=
        chunk_size_eq_min tb count (j * tb.size)
      have hu : u32 (j * tb.size + min tb.size (count - j * tb.size))
          = min ((j + 1) * tb.size) count := by
        rw [u32_of_lt (j * tb.size + min tb.size (count - j * tb.size)) (by omega)]
        rw [hg] at hnext
        exact hnext
      have hu2 : u32 (min tb.size (count - j * tb.size)) = min tb.size (count - j * tb.size) :=
        u32_of_lt _ (by omega)
      rw [if_pos hlt, hg, hd] at h
      have hsh1 := buf_set_u32_shape stub (STUB_ARGS_FUNC_START + 2)
        (min tb.size (count - j * tb.size)) _ hsh
      split_ifs at h with h1 h2 h3
      · simp only [Option.some.injEq] at h; subst h
        exact absurd hok h1
      · simp only [Option.some.injEq] at h; subst h
        exact absurd hok h2
      · simp only [Option.some.injEq] at h; subst h
        exact absurd hok (show ERROR_FAIL ≠ ERROR_OK by decide)
      · rw [hu] at h
        have hrec := ih (j + 1) _ _ _ (run_algo_shape env _ _ _ hsh1) h
        rw [hrec, run_algo_transfer_steps, transfer_steps_write_data,
          bound_slots_set_same _ _ _ _ hsh (by decide) (by decide), hu2]
        have hr : (count + tb.size - 1) / tb.size - j
            = ((count + tb.size - 1) / tb.size - (j + 1)) + 1 := by omega
        rw [hr, List.range'_succ, List.flatMap_cons]
        simp only [List.append_assoc, List.cons_append, List.nil_append, List.singleton_append]
    · rw [if_neg hlt] at h
      simp only [Option.some.injEq] at h; subst h
      have hjn : ¬ j < (count + tb.size - 1) / tb.size := by
        intro hc
        have := (chunks_lt_iff tb.size count j hS).mpr hc
        omega
      have hz : (count + tb.size - 1) / tb.size - j = 0 := by omega
      rw [hz]
      simp

theorem invocations_write (env : Env) (t : Target) (x : Xfer) (a : Nat) (b : List Nat) :
    invocations (target_write_buffer env t x a b).2.trace = invocations t.trace := by
  unfold target_write_buffer
  dsimp only
  split_ifs <;> simp [invocations, invocation]

theorem write_loop_invocations (env : Env) (tb : working_area) (buffer : List Nat) (count : Nat)
    (hS : 1 ≤ tb.size) (h32 : count < 2 ^ 32) (fuel j : Nat) (t : Target)
    (stub : esp32_flash_stub) (rv0 : Int) (r : Int × Target × esp32_flash_stub)
    (h : write_loop env tb buffer count fuel t stub (min (j * tb.size) count) rv0 = some r)
    (hok : r.1 = ERROR_OK) :
    (invocations r.2.1.trace).length
      = (invocations t.trace).length + ((count + tb.size - 1) / tb.size - j) := by
  induction fuel generalizing j t stub rv0 with
  | zero => simp [write_loop] at h
  | succ fuel ih =>
    rw [write_loop] at h
    dsimp only at h
    by_cases hlt : min (j * tb.size) count < count
    · have hj : j * tb.size < count := by omega
      have hjn := (chunks_lt_iff tb.size count j hS).mp hj
      have hg : min (j * tb.size) count = j * tb.size := by omega
      have hnext := chunk_total_next tb.size count j
      have hd : chunk_size tb count (j * tb.size) = min tb.size (count - j * tb.size) :=
        chunk_size_eq_min tb count (j * tb.size)
      have hu : u32 (j * tb.size + min tb.size (count - j * tb.size))
          = min ((j + 1) * tb.size) count := by
        rw [u32_of_lt (j * tb.size + min tb.size (count - j * tb.size)) (by omega)]
        rw [hg] at hnext
        exact hnext
      rw [if_pos hlt, hg, hd] at h
      split_ifs at h with h1 h2 h3
      · simp only [Option.some.injEq] at h; subst h
        exact absurd hok h1
      · simp only [Option.some.injEq] at h; subst h
        exact absurd hok h2
      · simp only [Option.some.injEq] at h; subst h
        exact absurd hok (show ERROR_FAIL ≠ ERROR_OK by decide)
      · rw [hu] at h
        have hrec := ih (j + 1) _ _ _ h
        rw [hrec, run_algo_invocations, invocations_write, List.length_append,
          List.length_singleton]
        omega
    · rw [if_neg hlt] at h
      simp only [Option.some.injEq] at h; subst h
      have hjn : ¬ j < (count + tb.size - 1) / tb.size := by
        intro hc
        have := (chunks_lt_iff tb.size count j hS).mpr hc
        omega
      have hz : (count + tb.size - 1) / tb.size - j = 0 := by omega
      rw [hz]
      rfl

theorem transfer_setup_shape (t : Target) (stub : esp32_flash_stub) (cmd offset n : Nat)
    (tb : working_area) (h : stub_shape stub n) :
    stub_shape (transfer_setup t stub cmd offset tb).2 n := by
  unfold transfer_setup
  exact buf_set_u32_shape _ _ _ _ (buf_set_u32_shape _ _ _ _ (buf_set_u32_shape _ _ _ _ h))

/-- C2: a write of `count` bytes that returns success with a granted scratch
area of size `S >= 1` performs exactly the chunk plan: `ceil(count / S)` stub
invocations, invocation `k` carrying `min(S, count - k * S)` in the size slot
and preceded by the copy of the host bytes `[k * S, k * S + that size)` into
the scratch area; `count = 8192` with `S = 4096` gives two rounds of 4096
bytes, the first and second half of the data.  With enough fuel the write
returns whenever the stub loads and granted areas are as large as requested. -/
theorem write_chunk_plan (env : Env) (fuel : Nat) (bank : flash_bank) (buffer : List Nat)
    (offset count : Nat)
    (hh : bank.target.state = target_state.TARGET_HALTED) (h32 : count < 2 ^ 32) :
    ((esp32_stub_load env fuel bank.target (stub_init (STUB_ARGS_FUNC_START + 4))).map
        Prod.fst = some ERROR_OK → count < fuel →
      (∀ t n wa, env.alloc_alt_working_area t n = some wa → n ≤ wa.size) →
      (esp32_write env fuel bank buffer offset count).isSome = true) ∧
    (∀ t' size tb, esp32_write env fuel bank buffer offset count = some (ERROR_OK, t') →
      (scratch_requests t'.trace).getLast? = some (size, some tb) → 1 ≤ tb.size →
      transfer_steps t'.trace = transfer_steps bank.target.trace ++ chunk_plan tb buffer count ∧
      (invocations t'.trace).length
        = (invocations bank.target.trace).length + (count + tb.size - 1) / tb.size ∧
      (count = 8192 → tb.size = 4096 →
        chunk_plan tb buffer count
          = [Step.copy 0 tb.address (buffer.take 4096), Step.run 4096,
             Step.copy 4096 tb.address ((buffer.drop 4096).take 4096), Step.run 4096])) := by
  constructor
  · intro hload hf hcontract
    obtain ⟨t1, stub1, hl, hc1, -, -⟩ := stub_load_ok env fuel bank.target _ hload
    obtain ⟨m, -, -, h3, -, -, h6, -, -⟩ := scratch_alloc_loop_spec env (count + 1) t1 count (by omega)
    rw [esp32_write_eq env fuel bank buffer offset count t1 stub1 hh hl]
    generalize scratch_alloc_loop env (count + 1) t1 count = r at h6
    obtain ⟨res, t2⟩ := r
    cases res with
    | none => rfl
    | some wa =>
      dsimp only
      obtain ⟨t0, ht0, -⟩ := h6 wa rfl
      have hsz := hcontract t0 _ wa ht0
      have hS : count = 0 ∨ 1 ≤ wa.size := by
        by_cases hc0 : count = 0
        · exact Or.inl hc0
        · right
          have : count / 2 ^ m ≠ 0 := by
            by_cases hm : 0 < m
            · exact h3 hm
            · have hm0 : m = 0 := by omega
              subst hm0
              simpa using hc0
          have hpos : 1 ≤ count / 2 ^ m := Nat.one_le_iff_ne_zero.mpr this
          exact le_trans hpos hsz
      have ht := write_loop_terminates env wa buffer count fuel
        (transfer_setup t2 stub1 STUB_CMD_FLASH_WRITE offset wa).1
        (transfer_setup t2 stub1 STUB_CMD_FLASH_WRITE offset wa).2 0 ERROR_OK hS h32
        (Nat.zero_le _) (by omega)
      cases hlp : write_loop env wa buffer count fuel
          (transfer_setup t2 stub1 STUB_CMD_FLASH_WRITE offset wa).1
          (transfer_setup t2 stub1 STUB_CMD_FLASH_WRITE offset wa).2 0 ERROR_OK with
      | none => rw [hlp] at ht; simp at ht
      | some q => rfl
  · intro t' size tb hres hlast hS
    have hplan : ∀ (hc : count = 8192) (hs : tb.size = 4096),
        chunk_plan tb buffer count
          = [Step.copy 0 tb.address (buffer.take 4096), Step.run 4096,
             Step.copy 4096 tb.address ((buffer.drop 4096).take 4096), Step.run 4096] := by
      intro hc hs
      unfold chunk_plan
      rw [hc, hs]
      have h2 : (8192 + 4096 - 1) / 4096 = 2 := by norm_num
      rw [h2]
      simp [List.range_succ, List.flatMap_cons, List.flatMap_nil]
    cases hl : esp32_stub_load env fuel bank.target (stub_init (STUB_ARGS_FUNC_START + 4)) with
    | none =>
      unfold esp32_write at hres
      rw [if_neg (by simp [hh]), hl] at hres
      simp at hres
    | some q =>
      obtain ⟨rv1, t1, stub1⟩ := q
      by_cases hrv : rv1 = ERROR_OK
      · subst hrv
        obtain ⟨hc1, hsh, -⟩ := stub_load_spec env fuel _ _ _ _ _ hl
        have hsh1 := hsh _ (stub_init_shape (STUB_ARGS_FUNC_START + 4))
        obtain ⟨m, h1, -, -, h4, h5, -, -, -⟩ :=
          scratch_alloc_loop_spec env (count + 1) t1 count (by omega)
        rw [esp32_write_eq env fuel bank buffer offset count t1 stub1 hh hl] at hres
        generalize scratch_alloc_loop env (count + 1) t1 count = r at h1 h4 h5 hres
        obtain ⟨res, t2⟩ := r
        cases res with
        | none =>
          simp only [Option.some.injEq, Prod.mk.injEq] at hres
          exact absurd hres.1 (by decide)
        | some tb0 =>
          dsimp only at hres h1 h4 h5
          cases hlp : write_loop env tb0 buffer count fuel
              (transfer_setup t2 stub1 STUB_CMD_FLASH_WRITE offset tb0).1
              (transfer_setup t2 stub1 STUB_CMD_FLASH_WRITE offset tb0).2 0 ERROR_OK with
          | none => rw [hlp] at hres; simp at hres
          | some q3 =>
            obtain ⟨rv3, t3, stub3⟩ := q3
            rw [hlp] at hres
            simp only [Option.some.injEq, Prod.mk.injEq] at hres
            obtain ⟨rfl, rfl⟩ := hres
            have hcl := calm_transfer_cleanup t3 stub3 tb0
            have hsu := calm_transfer_setup t2 stub1 STUB_CMD_FLASH_WRITE offset tb0
            have htb : tb0 = tb := by
              rw [hcl.1.scratch_requests, write_loop_scratch _ _ _ _ _ _ _ _ _ _ hlp,
                hsu.1.scratch_requests, h1, List.getLast?_append] at hlast
              simp only [List.getLast?_singleton, Option.or_some, Option.some.injEq,
                Prod.mk.injEq] at hlast
              exact hlast.2
            subst htb
            have hz : min (0 * tb0.size) count = 0 := by simp
            have hlp0 := hlp
            rw [← hz] at hlp0
            refine ⟨?_, ?_, hplan⟩
            · rw [hcl.1.transfer_steps,
                write_loop_steps env tb0 buffer count hS h32 fuel 0 _ _ _ _
                  (transfer_setup_shape _ _ _ _ _ _ hsh1) hlp0 rfl,
                hsu.1.transfer_steps, h5, hc1.1.transfer_steps]
              unfold chunk_plan
              rw [List.range_eq_range', Nat.sub_zero]
            · rw [hcl.1.invocations,
                write_loop_invocations env tb0 buffer count hS h32 fuel 0 _ _ _ _ hlp0 rfl,
                hsu.1.invocations, h4, hc1.1.invocations, Nat.sub_zero]
      · unfold esp32_write at hres
        rw [if_neg (by simp [hh]), hl] at hres
        simp only [ne_eq, hrv, not_false_eq_true, if_true, Option.some.injEq,
          Prod.mk.injEq] at hres
        exact hres.1.elim

/-! ### Memory -/

theorem load_length (mem : Nat → Nat) (a n : Nat) : (load mem a n).length = n := by
  simp [load]

theorem load_congr (m1 m2 : Nat → Nat) (a n : Nat)
    (h : ∀ k, k < n → m1 (a + k) = m2 (a + k)) : load m1 a n = load m2 a n := by
  unfold load
  apply List.map_congr_left
  intro k hk
  exact h k (List.mem_range.mp hk)

theorem load_store_same (mem : Nat → Nat) (a : Nat) (bytes : List Nat) :
    load (store mem a bytes) a bytes.length = bytes := by
  apply List.ext_getElem
  · simp [load]
  · intro k h1 h2
    simp only [load, List.getElem_map, List.getElem_range, store]
    rw [if_pos ⟨by omega, by omega⟩]
    simp [List.getD_eq_getElem?_getD, List.getElem?_eq_getElem h2]

theorem store_outside (mem : Nat → Nat) (a : Nat) (bytes : List Nat) (x : Nat)
    (h : x < a ∨ a + bytes.length ≤ x) : store mem a bytes x = mem x := by
  unfold store
  rw [if_neg (by omega)]

theorem write_buffer_mem_outside (env : Env) (t : Target) (xf : Xfer) (a : Nat) (b : List Nat)
    (x : Nat) (h : x < a ∨ a + b.length ≤ x) :
    (target_write_buffer env t xf a b).2.mem x = t.mem x := by
  unfold target_write_buffer
  dsimp only
  split_ifs
  · exact store_outside _ _ _ _ h
  · rfl

theorem write_buffer_mem_ok (env : Env) (t : Target) (xf : Xfer) (a : Nat) (b : List Nat)
    (h : (target_write_buffer env t xf a b).1 = ERROR_OK) :
    (target_write_buffer env t xf a b).2.mem = store t.mem a b := by
  unfold target_write_buffer at h ⊢
  dsimp only at h ⊢
  split_ifs with h1
  · rfl
  · rw [if_neg h1] at h
    exact absurd h h1

theorem read_buffer_ok (env : Env) (t : Target) (xf : Xfer) (a n : Nat)
    (h : (target_read_buffer env t xf a n).1 = ERROR_OK) :
    (target_read_buffer env t xf a n).2.1 = load t.mem a n ∧
      (target_read_buffer env t xf a n).2.2.flash = t.flash := by
  unfold target_read_buffer at h ⊢
  dsimp only at h ⊢
  split_ifs with h1
  · exact ⟨rfl, rfl⟩
  · rw [if_neg h1] at h
    exact absurd h h1

theorem fill_stack_mem_outside (env : Env) (sa : Nat) (hsa : sa + ESP32_STUB_STACK_SZ ≤ 2 ^ 32)
    (fuel : Nat) (t : Target) (i : Nat) (x : Nat)
    (hx : x < sa ∨ sa + ESP32_STUB_STACK_SZ ≤ x) :
    (fill_stack_loop env sa fuel t i).2.mem x = t.mem x := by
  induction fuel generalizing t i with
  | zero => rfl
  | succ fuel ih =>
    rw [fill_stack_loop]
    dsimp only
    by_cases hi : i < ESP32_STUB_STACK_SZ
    · rw [if_pos hi]
      have hu : u32 (sa + i) = sa + i := u32_of_lt _ (by omega)
      have hout : ∀ n, n ≤ ESP32_STUB_STACK_SZ - i →
          (target_write_buffer env t Xfer.canary (u32 (sa + i))
            (List.replicate n ESP32_STUB_STACK_STAMP)).2.mem x = t.mem x := by
        intro n hn
        apply write_buffer_mem_outside
        rw [hu, List.length_replicate]
        omega
      have hsz : (if ESP32_STUB_STACK_SZ - i ≥ 256 then 256 else ESP32_STUB_STACK_SZ - i)
          ≤ ESP32_STUB_STACK_SZ - i := by
        split_ifs <;> omega
      split_ifs with h1 h2
      · exact hout _ (by omega)
      · rw [ih]; exact hout _ (by omega)
      · exact hout _ (by omega)
      · rw [ih]; exact hout _ (by omega)
    · rw [if_neg hi]

theorem read_buffer_mem (env : Env) (t : Target) (xf : Xfer) (a n : Nat) :
    (target_read_buffer env t xf a n).2.2.mem = t.mem := by
  unfold target_read_buffer
  dsimp only
  split_ifs <;> rfl

theorem check_stack_mem (env : Env) (sa fuel : Nat) (t : Target) (i : Nat) (rv : Int) :
    (check_stack_loop env sa fuel t i rv).2.mem = t.mem := by
  induction fuel generalizing t i rv with
  | zero => rfl
  | succ fuel ih =>
    rw [check_stack_loop]
    dsimp only
    split_ifs <;>
      first
      | rfl
      | exact read_buffer_mem env t _ _ _
      | (split
         · exact read_buffer_mem env t _ _ _
         · rw [ih]; exact read_buffer_mem env t _ _ _)

/-! ### One invocation of the ideal stub -/

theorem run_algorithm_mem_flash (env : Env) (t : Target) (stub : esp32_flash_stub) :
    (target_run_algorithm env t stub).2.1.mem
        = (env.run_algorithm t (bound_slots stub) (area_address stub.algo)).mem ∧
      (target_run_algorithm env t stub).2.1.flash
        = (env.run_algorithm t (bound_slots stub) (area_address stub.algo)).flash := by
  unfold target_run_algorithm
  dsimp only
  split_ifs <;> exact ⟨rfl, rfl⟩

theorem run_algo_ideal (env : Env) (hrun : ideal_device env)
    (t : Target) (stub : esp32_flash_stub) (st : working_area) (hst : stub.stack = some st)
    (hsa : st.address + ESP32_STUB_STACK_SZ ≤ 2 ^ 32)
    (hok : (esp32_run_algo env t stub).1 = ERROR_OK) :
    ∃ tf : Target, tf.flash = t.flash ∧
      (∀ x, x < st.address ∨ st.address + ESP32_STUB_STACK_SZ ≤ x → tf.mem x = t.mem x) ∧
      (∀ a, (bound_slots stub).getD (STUB_ARGS_FUNC_START + 3) 0 ≤ a →
        a < (bound_slots stub).getD (STUB_ARGS_FUNC_START + 3) 0
          + (bound_slots stub).getD (STUB_ARGS_FUNC_START + 2) 0 →
        (esp32_run_algo env t stub).2.1.mem a = (ideal_run tf (bound_slots stub)).mem a) ∧
      (esp32_run_algo env t stub).2.1.flash = (ideal_run tf (bound_slots stub)).flash := by
  have haddr : area_address stub.stack = st.address := by rw [hst]; rfl
  unfold esp32_run_algo esp32_stub_fill_stack esp32_stub_check_stack at hok ⊢
  rw [haddr] at hok ⊢
  dsimp only at hok ⊢
  refine ⟨(fill_stack_loop env st.address ESP32_STUB_STACK_SZ
      { t with trace := t.trace ++ [Event.invoke (bound_slots stub)] } 0).2, ?_, ?_, ?_⟩
  · exact (calm_fill_loop env _ _ _ _).2
  · intro x hx
    exact fill_stack_mem_outside env st.address hsa _ _ _ x hx
  · by_cases h1 : (fill_stack_loop env st.address ESP32_STUB_STACK_SZ
        { t with trace := t.trace ++ [Event.invoke (bound_slots stub)] } 0).1 ≠ ERROR_OK
    · rw [if_pos h1] at hok
      exact absurd hok h1
    · rw [if_neg h1] at hok ⊢
      by_cases h2 : (target_run_algorithm env (fill_stack_loop env st.address
          ESP32_STUB_STACK_SZ
          { t with trace := t.trace ++ [Event.invoke (bound_slots stub)] } 0).2 stub).1
          ≠ ERROR_OK
      · rw [if_pos h2] at hok
        exact absurd hok h2
      · rw [if_neg h2]
        dsimp only
        rw [check_stack_mem, (calm_check_loop env _ _ _ _ _).2,
          (run_algorithm_mem_flash env _ stub).1, (run_algorithm_mem_flash env _ stub).2]
        exact ⟨fun a ha hb => (hrun _ _ _).2 a ha hb, (hrun _ _ _).1⟩

/-! ### Single-chunk transfers through the ideal stub -/

theorem chunk_size_full (tb : working_area) (count : Nat) (hfit : count ≤ tb.size) :
    chunk_size tb count 0 = count := by
  unfold chunk_size
  split_ifs <;> omega

theorem write_loop_done (env : Env) (tb : working_area) (buffer : List Nat) (count fuel : Nat)
    (t : Target) (stub : esp32_flash_stub) (rv : Int) (r : Int × Target × esp32_flash_stub)
    (h : write_loop env tb buffer count fuel t stub count rv = some r) : r = (rv, t, stub) := by
  cases fuel with
  | zero => simp [write_loop] at h
  | succ fuel =>
    rw [write_loop, if_neg (Nat.lt_irrefl _)] at h
    simp only [Option.some.injEq] at h
    exact h.symm

theorem read_loop_done (env : Env) (tb : working_area) (count fuel : Nat)
    (t : Target) (stub : esp32_flash_stub) (buffer : List Nat) (rv : Int)
    (r : Int × Target × esp32_flash_stub × List Nat)
    (h : read_loop env tb count fuel t stub buffer count rv = some r) :
    r = (rv, t, stub, buffer) := by
  cases fuel with
  | zero => simp [read_loop] at h
  | succ fuel =>
    rw [read_loop, if_neg (Nat.lt_irrefl _)] at h
    simp only [Option.some.injEq] at h
    exact h.symm

theorem buf_set_u32_stack (stub : esp32_flash_stub) (idx v : Nat) :
    (buf_set_u32 stub idx v).stack = stub.stack := rfl

theorem write_single_chunk (env : Env)
    (hrun : ideal_device env)
    (tb st : working_area) (data : List Nat) (count offset : Nat)
    (hpos : 0 < count) (hfit : count ≤ tb.size) (h32 : count < 2 ^ 32)
    (hlen : data.length = count) (hsa : st.address + ESP32_STUB_STACK_SZ ≤ 2 ^ 32)
    (hdis : tb.address + tb.size ≤ st.address ∨ st.address + ESP32_STUB_STACK_SZ ≤ tb.address)
    (fuel : Nat) (t : Target) (stub : esp32_flash_stub) (rv0 : Int)
    (r : Int × Target × esp32_flash_stub)
    (hsh : stub_shape stub (STUB_ARGS_FUNC_START + 4)) (hst : stub.stack = some st)
    (hop : (bound_slots stub).getD STUB_ARGS_FUNC_START 0 = STUB_CMD_FLASH_WRITE)
    (hoff : (bound_slots stub).getD (STUB_ARGS_FUNC_START + 1) 0 = offset)
    (hbuf : (bound_slots stub).getD (STUB_ARGS_FUNC_START + 3) 0 = tb.address)
    (h : write_loop env tb data count fuel t stub 0 rv0 = some r) (hok : r.1 = ERROR_OK) :
    load r.2.1.flash offset count = data := by
  cases fuel with
  | zero => simp [write_loop] at h
  | succ fuel =>
    rw [write_loop, if_pos hpos] at h
    dsimp only at h
    rw [chunk_size_full tb count hfit, List.drop_zero,
      List.take_of_length_le (by omega : data.length ≤ count)] at h
    by_cases h1 : (target_write_buffer env t (Xfer.flash_data 0) tb.address data).1 ≠ ERROR_OK
    · rw [if_pos h1] at h
      simp only [Option.some.injEq] at h; subst h
      exact absurd hok h1
    · rw [if_neg h1] at h
      by_cases h2 : (esp32_run_algo env
          (target_write_buffer env t (Xfer.flash_data 0) tb.address data).2
          (buf_set_u32 stub (STUB_ARGS_FUNC_START + 2) count)).1 ≠ ERROR_OK
      · rw [if_pos h2] at h
        simp only [Option.some.injEq] at h; subst h
        exact absurd hok h2
      · rw [if_neg h2] at h
        split_ifs at h with h3
        · simp only [Option.some.injEq] at h; subst h
          exact absurd hok (show ERROR_FAIL ≠ ERROR_OK by decide)
        · rw [Nat.zero_add, u32_of_lt _ h32] at h
          have hr := write_loop_done _ _ _ _ _ _ _ _ _ h
          subst hr
          obtain ⟨tf, -, hmem, -, hfl⟩ := run_algo_ideal env hrun
            (target_write_buffer env t (Xfer.flash_data 0) tb.address data).2
            (buf_set_u32 stub (STUB_ARGS_FUNC_START + 2) count) st
            (by rw [buf_set_u32_stack]; exact hst) hsa (not_not.mp h2)
          show load (esp32_run_algo env _ _).2.1.flash offset count = data
          rw [hfl]
          have hs5 : (bound_slots (buf_set_u32 stub (STUB_ARGS_FUNC_START + 2) count)).getD
              STUB_ARGS_FUNC_START 0 = STUB_CMD_FLASH_WRITE := by
            rw [bound_slots_set_other _ _ _ _ (by decide)]; exact hop
          have hs6 : (bound_slots (buf_set_u32 stub (STUB_ARGS_FUNC_START + 2) count)).getD
              (STUB_ARGS_FUNC_START + 1) 0 = offset := by
            rw [bound_slots_set_other _ _ _ _ (by decide)]; exact hoff
          have hs7 : (bound_slots (buf_set_u32 stub (STUB_ARGS_FUNC_START + 2) count)).getD
              (STUB_ARGS_FUNC_START + 2) 0 = count := by
            rw [bound_slots_set_same _ _ _ _ hsh (by decide) (by decide), u32_of_lt _ h32]
          have hs8 : (bound_slots (buf_set_u32 stub (STUB_ARGS_FUNC_START + 2) count)).getD
              (STUB_ARGS_FUNC_START + 3) 0 = tb.address := by
            rw [bound_slots_set_other _ _ _ _ (by decide)]; exact hbuf
          unfold ideal_run
          simp only [hs5, hs6, hs7, hs8, if_true]
          have hL : (load tf.mem tb.address count).length = count := load_length _ _ _
          have hsame := load_store_same tf.flash offset (load tf.mem tb.address count)
          rw [hL] at hsame
          rw [hsame]
          have hwm := write_buffer_mem_ok env t (Xfer.flash_data 0) tb.address data
            (not_not.mp h1)
          have hc : load tf.mem tb.address count
              = load (store t.mem tb.address data) tb.address count := by
            apply load_congr
            intro k hk
            rw [hmem _ (by omega), hwm]
          rw [hc]
          have := load_store_same t.mem tb.address data
          rw [hlen] at this
          exact this

theorem read_single_chunk (env : Env)
    (hrun : ideal_device env)
    (tb st : working_area) (count offset : Nat)
    (hpos : 0 < count) (hfit : count ≤ tb.size) (h32 : count < 2 ^ 32)
    (hsa : st.address + ESP32_STUB_STACK_SZ ≤ 2 ^ 32)
    (fuel : Nat) (t : Target) (stub : esp32_flash_stub) (buf0 : List Nat) (rv0 : Int)
    (r : Int × Target × esp32_flash_stub × List Nat)
    (hsh : stub_shape stub (STUB_ARGS_FUNC_START + 4)) (hst : stub.stack = some st)
    (hop : (bound_slots stub).getD STUB_ARGS_FUNC_START 0 = STUB_CMD_FLASH_READ)
    (hoff : (bound_slots stub).getD (STUB_ARGS_FUNC_START + 1) 0 = offset)
    (hbuf : (bound_slots stub).getD (STUB_ARGS_FUNC_START + 3) 0 = tb.address)
    (hb0 : buf0.length = count)
    (h : read_loop env tb count fuel t stub buf0 0 rv0 = some r) (hok : r.1 = ERROR_OK) :
    r.2.2.2 = load t.flash offset count := by
  cases fuel with
  | zero => simp [read_loop] at h
  | succ fuel =>
    rw [read_loop, if_pos hpos] at h
    dsimp only at h
    rw [chunk_size_full tb count hfit] at h
    by_cases h1 : (esp32_run_algo env t
        (buf_set_u32 stub (STUB_ARGS_FUNC_START + 2) count)).1 ≠ ERROR_OK
    · rw [if_pos h1] at h
      simp only [Option.some.injEq] at h; subst h
      exact absurd hok h1
    · rw [if_neg h1] at h
      split_ifs at h with h2 h3
      · simp only [Option.some.injEq] at h; subst h
        exact absurd hok (show ERROR_FAIL ≠ ERROR_OK by decide)
      · simp only [Option.some.injEq] at h; subst h
        exact absurd hok h3
      · rw [Nat.zero_add, u32_of_lt _ h32] at h
        have hr := read_loop_done _ _ _ _ _ _ _ _ _ h
        subst hr
        obtain ⟨tf, hfl0, -, hmem, -⟩ := run_algo_ideal env hrun t
          (buf_set_u32 stub (STUB_ARGS_FUNC_START + 2) count) st
          (by rw [buf_set_u32_stack]; exact hst) hsa (not_not.mp h1)
        have hrd := (read_buffer_ok env _ (Xfer.flash_data 0) tb.address count
          (not_not.mp h3)).1
        show host_copy buf0 0 (target_read_buffer env _ _ _ _).2.1 = _
        rw [hrd]
        have hs5 : (bound_slots (buf_set_u32 stub (STUB_ARGS_FUNC_START + 2) count)).getD
            STUB_ARGS_FUNC_START 0 = STUB_CMD_FLASH_READ := by
          rw [bound_slots_set_other _ _ _ _ (by decide)]; exact hop
        have hs6 : (bound_slots (buf_set_u32 stub (STUB_ARGS_FUNC_START + 2) count)).getD
            (STUB_ARGS_FUNC_START + 1) 0 = offset := by
          rw [bound_slots_set_other _ _ _ _ (by decide)]; exact hoff
        have hs7 : (bound_slots (buf_set_u32 stub (STUB_ARGS_FUNC_START + 2) count)).getD
            (STUB_ARGS_FUNC_START + 2) 0 = count := by
          rw [bound_slots_set_same _ _ _ _ hsh (by decide) (by decide), u32_of_lt _ h32]
        have hs8 : (bound_slots (buf_set_u32 stub (STUB_ARGS_FUNC_START + 2) count)).getD
            (STUB_ARGS_FUNC_START + 3) 0 = tb.address := by
          rw [bound_slots_set_other _ _ _ _ (by decide)]; exact hbuf
        have hcg : load (esp32_run_algo env t
            (buf_set_u32 stub (STUB_ARGS_FUNC_START + 2) count)).2.1.mem tb.address count
            = load (ideal_run tf (bound_slots
                (buf_set_u32 stub (STUB_ARGS_FUNC_START + 2) count))).mem tb.address count := by
          apply load_congr
          intro k hk
          exact hmem _ (by rw [hs8]; omega) (by rw [hs8, hs7]; omega)
        rw [hcg]
        unfold ideal_run
        have hne : STUB_CMD_FLASH_READ ≠ STUB_CMD_FLASH_WRITE := by decide
        simp only [hs5, hs6, hs7, hs8, hne, if_true, if_false]
        have hL : (load tf.flash offset count).length = count := load_length _ _ _
        have hsame := load_store_same tf.mem tb.address (load tf.flash offset count)
        rw [hL] at hsame
        rw [hsame, hfl0]
        unfold host_copy
        rw [load_length, List.take_zero, List.nil_append, Nat.zero_add,
          List.drop_of_length_le (by omega), List.append_nil]

/-! ### Round trip -/

theorem write_ok_inv (env : Env) (fuel : Nat) (bank : flash_bank) (buffer : List Nat)
    (offset count : Nat) (t' : Target)
    (hres : esp32_write env fuel bank buffer offset count = some (ERROR_OK, t')) :
    ∃ t1 stub1 tb t2 t3 stub3,
      esp32_stub_load env fuel bank.target (stub_init (STUB_ARGS_FUNC_START + 4))
        = some (ERROR_OK, t1, stub1) ∧
      scratch_alloc_loop env (count + 1) t1 count = (some tb, t2) ∧
      write_loop env tb buffer count fuel
        (transfer_setup t2 stub1 STUB_CMD_FLASH_WRITE offset tb).1
        (transfer_setup t2 stub1 STUB_CMD_FLASH_WRITE offset tb).2 0 ERROR_OK
        = some (ERROR_OK, t3, stub3) ∧
      t' = transfer_cleanup t3 stub3 tb := by
  by_cases hh : bank.target.state = target_state.TARGET_HALTED
  · cases hl : esp32_stub_load env fuel bank.target (stub_init (STUB_ARGS_FUNC_START + 4)) with
    | none =>
      unfold esp32_write at hres
      rw [if_neg (by simp [hh]), hl] at hres
      simp at hres
    | some q =>
      obtain ⟨rv1, t1, stub1⟩ := q
      by_cases hrv : rv1 = ERROR_OK
      · subst hrv
        rw [esp32_write_eq env fuel bank buffer offset count t1 stub1 hh hl] at hres
        cases hsc : scratch_alloc_loop env (count + 1) t1 count with
        | mk res t2 =>
          rw [hsc] at hres
          cases res with
          | none =>
            simp only [Option.some.injEq, Prod.mk.injEq] at hres
            exact absurd hres.1 (by decide)
          | some tb =>
            dsimp only at hres
            cases hlp : write_loop env tb buffer count fuel
                (transfer_setup t2 stub1 STUB_CMD_FLASH_WRITE offset tb).1
                (transfer_setup t2 stub1 STUB_CMD_FLASH_WRITE offset tb).2 0 ERROR_OK with
            | none => rw [hlp] at hres; simp at hres
            | some q3 =>
              obtain ⟨rv3, t3, stub3⟩ := q3
              rw [hlp] at hres
              simp only [Option.some.injEq, Prod.mk.injEq] at hres
              obtain ⟨rfl, rfl⟩ := hres
              exact ⟨t1, stub1, tb, t2, t3, stub3, rfl, hsc, hlp, rfl⟩
      · unfold esp32_write at hres
        rw [if_neg (by simp [hh]), hl] at hres
        simp only [ne_eq, hrv, not_false_eq_true, if_true, Option.some.injEq,
          Prod.mk.injEq] at hres
        exact hres.1.elim
  · unfold esp32_write at hres
    rw [if_pos hh] at hres
    simp only [Option.some.injEq, Prod.mk.injEq] at hres
    exact absurd hres.1 (by decide)

theorem read_ok_inv (env : Env) (fuel : Nat) (bank : flash_bank) (buffer : List Nat)
    (offset count : Nat) (t' : Target) (out : List Nat)
    (hres : esp32_read env fuel bank buffer offset count = some (ERROR_OK, t', out)) :
    ∃ t1 stub1 tb t2 t3 stub3,
      esp32_stub_load env fuel bank.target (stub_init (STUB_ARGS_FUNC_START + 4))
        = some (ERROR_OK, t1, stub1) ∧
      scratch_alloc_loop env (count + 1) t1 count = (some tb, t2) ∧
      read_loop env tb count fuel
        (transfer_setup t2 stub1 STUB_CMD_FLASH_READ offset tb).1
        (transfer_setup t2 stub1 STUB_CMD_FLASH_READ offset tb).2 buffer 0 ERROR_OK
        = some (ERROR_OK, t3, stub3, out) ∧
      t' = transfer_cleanup t3 stub3 tb := by
  by_cases hh : bank.target.state = target_state.TARGET_HALTED
  · cases hl : esp32_stub_load env fuel bank.target (stub_init (STUB_ARGS_FUNC_START + 4)) with
    | none =>
      unfold esp32_read at hres
      rw [if_neg (by simp [hh]), hl] at hres
      simp at hres
    | some q =>
      obtain ⟨rv1, t1, stub1⟩ := q
      by_cases hrv : rv1 = ERROR_OK
      · subst hrv
        rw [esp32_read_eq env fuel bank buffer offset count t1 stub1 hh hl] at hres
        cases hsc : scratch_alloc_loop env (count + 1) t1 count with
        | mk res t2 =>
          rw [hsc] at hres
          cases res with
          | none =>
            simp only [Option.some.injEq, Prod.mk.injEq] at hres
            exact absurd hres.1 (by decide)
          | some tb =>
            dsimp only at hres
            cases hlp : read_loop env tb count fuel
                (transfer_setup t2 stub1 STUB_CMD_FLASH_READ offset tb).1
                (transfer_setup t2 stub1 STUB_CMD_FLASH_READ offset tb).2 buffer 0 ERROR_OK with
            | none => rw [hlp] at hres; simp at hres
            | some q3 =>
              obtain ⟨rv3, t3, stub3, b3⟩ := q3
              rw [hlp] at hres
              simp only [Option.some.injEq, Prod.mk.injEq] at hres
              obtain ⟨rfl, rfl, rfl⟩ := hres
              exact ⟨t1, stub1, tb, t2, t3, stub3, rfl, hsc, hlp, rfl⟩
      · unfold esp32_read at hres
        rw [if_neg (by simp [hh]), hl] at hres
        simp only [ne_eq, hrv, not_false_eq_true, if_true, Option.some.injEq,
          Prod.mk.injEq] at hres
        exact hres.1.elim
  · unfold esp32_read at hres
    rw [if_pos hh] at hres
    simp only [Option.some.injEq, Prod.mk.injEq] at hres
    exact absurd hres.1 (by decide)

theorem single_request (old : List (Nat × Option working_area)) (m count : Nat)
    (g : Option working_area) (tbw : working_area)
    (h : old ++ (List.range m).map (fun k => (count / 2 ^ k, (none : Option working_area)))
        ++ [(count / 2 ^ m, g)] = old ++ [(count, some tbw)]) :
    m = 0 ∧ g = some tbw := by
  rw [List.append_assoc] at h
  have h1 := List.append_cancel_left h
  have hlen := congrArg List.length h1
  simp only [List.length_append, List.length_map, List.length_range,
    List.length_singleton] at hlen
  have hm : m = 0 := by omega
  subst hm
  simp only [List.range_zero, List.map_nil, List.nil_append, List.cons.injEq, Prod.mk.injEq,
    and_true] at h1
  exact ⟨rfl, h1.2⟩

theorem transfer_setup_slots (t : Target) (stub : esp32_flash_stub) (cmd offset : Nat)
    (tb : working_area) (hsh : stub_shape stub (STUB_ARGS_FUNC_START + 4)) :
    (bound_slots (transfer_setup t stub cmd offset tb).2).getD STUB_ARGS_FUNC_START 0 = u32 cmd ∧
    (bound_slots (transfer_setup t stub cmd offset tb).2).getD (STUB_ARGS_FUNC_START + 1) 0
      = u32 offset ∧
    (bound_slots (transfer_setup t stub cmd offset tb).2).getD (STUB_ARGS_FUNC_START + 3) 0
      = u32 tb.address ∧
    (transfer_setup t stub cmd offset tb).2.stack = stub.stack := by
  unfold transfer_setup
  dsimp only
  have h1 := buf_set_u32_shape stub (STUB_ARGS_FUNC_START + 0) cmd _ hsh
  have h2 := buf_set_u32_shape _ (STUB_ARGS_FUNC_START + 1) offset _ h1
  refine ⟨?_, ?_, ?_, rfl⟩
  · rw [bound_slots_set_other _ _ _ _ (by decide), bound_slots_set_other _ _ _ _ (by decide)]
    exact bound_slots_set_same _ _ _ _ hsh (by decide) (by decide)
  · rw [bound_slots_set_other _ _ _ _ (by decide)]
    exact bound_slots_set_same _ _ _ _ h1 (by decide) (by decide)
  · exact bound_slots_set_same _ _ _ _ h2 (by decide) (by decide)

theorem write_stores_data (env : Env)
    (hrun : ideal_device env)
    (hcontract : ∀ t n wa, env.alloc_alt_working_area t n = some wa →
      n ≤ wa.size ∧ wa.address + wa.size ≤ 2 ^ 32 ∧
      ∀ w ∈ t.alt_areas, wa.address + wa.size ≤ w.address ∨ w.address + w.size ≤ wa.address)
    (fuel : Nat) (bank : flash_bank) (data : List Nat) (offset count : Nat) (t' : Target)
    (tbw : working_area) (h32c : count < 2 ^ 32) (h32o : offset < 2 ^ 32)
    (hlen : data.length = count)
    (hw : esp32_write env fuel bank data offset count = some (ERROR_OK, t'))
    (hsw : scratch_requests t'.trace
      = scratch_requests bank.target.trace ++ [(count, some tbw)]) :
    load t'.flash offset count = data := by
  by_cases hc0 : count = 0
  · subst hc0
    rw [List.length_eq_zero] at hlen
    subst hlen
    rfl
  · obtain ⟨t1, stub1, tb, t2, t3, stub3, hl, hsc, hlp, rfl⟩ := write_ok_inv _ _ _ _ _ _ _ hw
    obtain ⟨hc1, hshape, hstack⟩ := stub_load_spec env fuel _ _ _ _ _ hl
    have hsh1 := hshape _ (stub_init_shape (STUB_ARGS_FUNC_START + 4))
    obtain ⟨st, ts, hst, hstmem, hstal⟩ := hstack rfl
    obtain ⟨m, h1, -, -, -, -, h6, h7, -⟩ :=
      scratch_alloc_loop_spec env (count + 1) t1 count (by omega)
    rw [hsc] at h1 h6 h7
    dsimp only at h1 h6 h7
    have hcl := calm_transfer_cleanup t3 stub3 tb
    have hsu := calm_transfer_setup t2 stub1 STUB_CMD_FLASH_WRITE offset tb
    rw [hcl.1.scratch_requests, write_loop_scratch _ _ _ _ _ _ _ _ _ _ hlp,
      hsu.1.scratch_requests, h1, hc1.1.scratch_requests] at hsw
    obtain ⟨hm0, -⟩ := single_request _ _ _ _ _ hsw
    subst hm0
    obtain ⟨t0, hal, hareas⟩ := h6 tb rfl
    rw [pow_zero, Nat.div_one] at hal
    obtain ⟨hfit, htb32, hdisj⟩ := hcontract t0 count tb hal
    obtain ⟨hstsz, hst32, -⟩ := hcontract ts ESP32_STUB_STACK_SZ st hstal
    have hd := hdisj st (by rw [hareas]; exact hstmem)
    obtain ⟨s5, s6, s8, sst⟩ := transfer_setup_slots t2 stub1 STUB_CMD_FLASH_WRITE offset tb hsh1
    rw [hcl.2]
    exact write_single_chunk env hrun tb st data count offset (by omega) hfit h32c hlen
      (by omega) (by omega) fuel _ _ _ _
      (transfer_setup_shape _ _ _ _ _ _ hsh1) (by rw [sst]; exact hst)
      (by rw [s5]; rfl) (by rw [s6]; exact u32_of_lt _ h32o)
      (by rw [s8]; exact u32_of_lt _ (by omega)) hlp rfl

theorem read_returns_flash (env : Env)
    (hrun : ideal_device env)
    (hcontract : ∀ t n wa, env.alloc_alt_working_area t n = some wa →
      n ≤ wa.size ∧ wa.address + wa.size ≤ 2 ^ 32 ∧
      ∀ w ∈ t.alt_areas, wa.address + wa.size ≤ w.address ∨ w.address + w.size ≤ wa.address)
    (fuel : Nat) (bank : flash_bank) (buf0 : List Nat) (offset count : Nat) (t' : Target)
    (out : List Nat) (tbr : working_area) (h32c : count < 2 ^ 32) (h32o : offset < 2 ^ 32)
    (hb0 : buf0.length = count)
    (hr : esp32_read env fuel bank buf0 offset count = some (ERROR_OK, t', out))
    (hsr : scratch_requests t'.trace
      = scratch_requests bank.target.trace ++ [(count, some tbr)]) :
    out = load bank.target.flash offset count := by
  obtain ⟨t1, stub1, tb, t2, t3, stub3, hl, hsc, hlp, rfl⟩ := read_ok_inv _ _ _ _ _ _ _ _ hr
  by_cases hc0 : count = 0
  · subst hc0
    have := read_loop_done _ _ _ _ _ _ _ _ _ hlp
    simp only [Prod.mk.injEq] at this
    rw [this.2.2.2]
    rw [List.length_eq_zero] at hb0
    subst hb0
    rfl
  · obtain ⟨hc1, hshape, hstack⟩ := stub_load_spec env fuel _ _ _ _ _ hl
    have hsh1 := hshape _ (stub_init_shape (STUB_ARGS_FUNC_START + 4))
    obtain ⟨st, ts, hst, hstmem, hstal⟩ := hstack rfl
    obtain ⟨m, h1, -, -, -, -, h6, h7, -⟩ :=
      scratch_alloc_loop_spec env (count + 1) t1 count (by omega)
    rw [hsc] at h1 h6 h7
    dsimp only at h1 h6 h7
    have hcl := calm_transfer_cleanup t3 stub3 tb
    have hsu := calm_transfer_setup t2 stub1 STUB_CMD_FLASH_READ offset tb
    rw [hcl.1.scratch_requests, read_loop_scratch _ _ _ _ _ _ _ _ _ _ hlp,
      hsu.1.scratch_requests, h1, hc1.1.scratch_requests] at hsr
    obtain ⟨hm0, -⟩ := single_request _ _ _ _ _ hsr
    subst hm0
    obtain ⟨t0, hal, hareas⟩ := h6 tb rfl
    rw [pow_zero, Nat.div_one] at hal
    obtain ⟨hfit, htb32, -⟩ := hcontract t0 count tb hal
    obtain ⟨hstsz, hst32, -⟩ := hcontract ts ESP32_STUB_STACK_SZ st hstal
    obtain ⟨s5, s6, s8, sst⟩ := transfer_setup_slots t2 stub1 STUB_CMD_FLASH_READ offset tb hsh1
    have hmain := read_single_chunk env hrun tb st count offset (by omega) hfit h32c
      (by omega) fuel _ _ buf0 _ _
      (transfer_setup_shape _ _ _ _ _ _ hsh1) (by rw [sst]; exact hst)
      (by rw [s5]; rfl) (by rw [s6]; exact u32_of_lt _ h32o)
      (by rw [s8]; exact u32_of_lt _ (by omega)) hb0 hlp rfl
    dsimp only at hmain
    rw [hmain, hsu.2, h7, hc1.2]

/-- C10: with sufficient scratch memory (the allocator hands out areas at least
as large as requested, inside the 32-bit address space and clear of the areas
in use, and the one scratch request of each operation, for the full `count`,
is granted) and the stub behaving as an ideal flash device, a successful write
of `data` (`count` bytes) at `offset` followed by a successful read of `count`
bytes at `offset` returns a buffer equal to `data`.  Both operations succeed
on a halted target only. -/
theorem write_read_roundtrip (env : Env) (fuelw fuelr : Nat) (bank : flash_bank)
    (data buf0 : List Nat) (offset count : Nat) (t1 t2 : Target) (out : List Nat)
    (tbw tbr : working_area)
    (h32c : count < 2 ^ 32) (h32o : offset < 2 ^ 32)
    (hlen : data.length = count) (hb0 : buf0.length = count)
    (hrun : ideal_device env)
    (hcontract : ∀ t n wa, env.alloc_alt_working_area t n = some wa →
      n ≤ wa.size ∧ wa.address + wa.size ≤ 2 ^ 32 ∧
      ∀ w ∈ t.alt_areas, wa.address + wa.size ≤ w.address ∨ w.address + w.size ≤ wa.address)
    (hw : esp32_write env fuelw bank data offset count = some (ERROR_OK, t1))
    (hsw : scratch_requests t1.trace
      = scratch_requests bank.target.trace ++ [(count, some tbw)])
    (hr : esp32_read env fuelr { bank with target := t1 } buf0 offset count
      = some (ERROR_OK, t2, out))
    (hsr : scratch_requests t2.trace = scratch_requests t1.trace ++ [(count, some tbr)]) :
    out = data := by
  have hflash := write_stores_data env hrun hcontract fuelw bank data offset count t1 tbw
    h32c h32o hlen hw hsw
  have hout := read_returns_flash env hrun hcontract fuelr { bank with target := t1 } buf0
    offset count t2 out tbr h32c h32o hb0 hr hsr
  rw [hout]
  exact hflash

/-! ### The demo target meets the hypotheses -/

theorem pool_top_ge (base : Nat) (l : List working_area) :
    base ≤ pool_top base l ∧ ∀ w ∈ l, w.address + w.size ≤ pool_top base l := by
  induction l with
  | nil => exact ⟨Nat.le_refl _, by simp⟩
  | cons a l ih =>
    have hstep : pool_top base (a :: l) = max (a.address + a.size) (pool_top base l) := rfl
    rw [hstep]
    refine ⟨le_trans ih.1 (le_max_right _ _), ?_⟩
    intro w hw
    rcases List.mem_cons.mp hw with h | h
    · subst h; exact le_max_left _ _
    · exact le_trans (ih.2 w h) (le_max_right _ _)

theorem demo_contract (cap : Nat) (hcap : 0x3FFE0000 + cap ≤ 2 ^ 32) (t : Target) (n : Nat)
    (wa : working_area) (h : (demo_env cap).alloc_alt_working_area t n = some wa) :
    n ≤ wa.size ∧ wa.address + wa.size ≤ 2 ^ 32 ∧
      ∀ w ∈ t.alt_areas, wa.address + wa.size ≤ w.address ∨ w.address + w.size ≤ wa.address := by
  simp only [demo_env, demo_env_caps] at h
  split_ifs at h with hfit
  simp only [Option.some.injEq] at h
  subst h
  refine ⟨Nat.le_refl _, by dsimp only; omega, ?_⟩
  intro w hw
  right
  exact (pool_top_ge _ _).2 w hw

theorem demo_ideal (cap : Nat) : ideal_device (demo_env cap) := by
  intro t slots entry
  simp only [demo_env, demo_env_caps, demo_run, true_and]
  intro a ha hb
  rw [if_neg]
  intro hc
  exact hc.2 ⟨ha, hb⟩

/-! ### The theorems at concrete inputs -/

/-- Witness of C5: erase of sector 0 on the probed demo bank. -/
theorem erase_single_invocation_witness :
    ∃ rv t' slots, esp32_erase (demo_env 4096) 9 demo_probed_bank 0 0 = some (rv, t') ∧
      invocations t'.trace = invocations demo_probed_bank.target.trace ++ [slots] ∧
      scratch_requests t'.trace = scratch_requests demo_probed_bank.target.trace ∧
      slots.getD STUB_ARGS_FUNC_START 0 = STUB_CMD_FLASH_ERASE ∧
      ((slots.getD (STUB_ARGS_FUNC_START + 1) 0 : Nat) : Int) = 0 * 4096 ∧
      ((slots.getD (STUB_ARGS_FUNC_START + 2) 0 : Nat) : Int) = (0 - 0 + 1) * 4096 ∧
      ((0 : Int) = 0 → (0 : Int) = 0 →
        slots.getD (STUB_ARGS_FUNC_START + 1) 0 = 0 ∧
        slots.getD (STUB_ARGS_FUNC_START + 2) 0 = 4096) :=
  erase_single_invocation (demo_env 4096) 9 demo_probed_bank 0 0 rfl (by decide) (by decide)
    rfl (by decide)

set_option maxRecDepth 100000 in
/-- Witness of C10: eight bytes written at offset 4096 of the demo bank, with
room for the whole request, are read back unchanged. -/
theorem write_read_roundtrip_witness : demo_read_back.2 = demo_data :=
  write_read_roundtrip (demo_env 5128) 9 9 demo_halted_bank demo_data (List.replicate 8 0)
    4096 8 demo_written demo_read_back.1 demo_read_back.2
    { address := 0x3FFE0404, size := 8 } { address := 0x3FFE0404, size := 8 }
    (by norm_num) (by norm_num) rfl rfl (demo_ideal 5128)
    (demo_contract 5128 (by norm_num)) rfl (by decide) rfl (by decide)

set_option maxRecDepth 100000 in
/-- Witness of C2: eight bytes through a scratch area of four bytes go in two
rounds of four. -/
theorem write_chunk_plan_witness :
    transfer_steps demo_chunked.trace
      = [Step.copy 0 0x3FFE0404 [1, 2, 3, 4], Step.run 4,
         Step.copy 4 0x3FFE0404 [5, 6, 7, 8], Step.run 4] ∧
    (invocations demo_chunked.trace).length = 2 :=
  ⟨((write_chunk_plan (demo_env 1032) 9 demo_halted_bank demo_data 4096 8 rfl
      (by norm_num)).2 demo_chunked 4 { address := 0x3FFE0404, size := 4 } rfl
      (by decide) (by decide)).1,
   ((write_chunk_plan (demo_env 1032) 9 demo_halted_bank demo_data 4096 8 rfl
      (by norm_num)).2 demo_chunked 4 { address := 0x3FFE0404, size := 4 } rfl
      (by decide) (by decide)).2.1⟩

set_option maxRecDepth 100000 in
/-- Witness of C8 (amended): the starved read of 8 bytes makes at most
`log2(8) + 1` attempts. -/
theorem scratch_attempts_bound_witness :
    (scratch_requests demo_starved.2.1.trace).length
      ≤ (scratch_requests demo_halted_bank.target.trace).length + (Nat.log 2 8 + 1) :=
  (scratch_attempts_bound (demo_env 1028) 9 demo_halted_bank (List.replicate 8 0) 0 8
    demo_halted_bank.target).2.1 demo_starved.1 demo_starved.2.1 demo_starved.2.2 rfl

set_option maxRecDepth 100000 in
/-- C3, the code at a failing input: erase of sector 0 on a halted target whose
execution pool holds the stub code but not the wrapper.  The call returns the
resource-not-available error with every working area released, yet the five
bootstrap slots bound by the stub load are still bound, although none was
bound before the call. -/
theorem erase_leaks_bootstrap_slots :
    demo_probed_bank.target.bound = [] ∧
    (esp32_erase (demo_env_caps 8 4096) 9 demo_probed_bank 0 0).map
        (fun r => (r.1, r.2.bound, r.2.areas, r.2.alt_areas))
      = some (ERROR_TARGET_RESOURCE_NOT_AVAILABLE, [4, 3, 2, 1, 0], [], []) := by
  decide

/-! ### Classified extensions of the trace -/

theorem Emits.erefl (p : Event → Bool) (t : Target) : Emits p t t :=
  ⟨[], by simp, by simp⟩

theorem Emits.etrans {p : Event → Bool} {t1 t2 t3 : Target} (h12 : Emits p t1 t2)
    (h23 : Emits p t2 t3) : Emits p t1 t3 := by
  obtain ⟨e1, h1, q1⟩ := h12
  obtain ⟨e2, h2, q2⟩ := h23
  refine ⟨e1 ++ e2, by rw [h2, h1, List.append_assoc], ?_⟩
  intro e he
  rcases List.mem_append.mp he with h | h
  · exact q1 e h
  · exact q2 e h

theorem Emits.eone {p : Event → Bool} {t1 t2 : Target} (e : Event)
    (h : t2.trace = t1.trace ++ [e]) (hp : p e = true) : Emits p t1 t2 :=
  ⟨[e], h, by simpa using hp⟩

theorem Emits.emono {p q : Event → Bool} (hpq : ∀ e, p e = true → q e = true) {t1 t2 : Target}
    (h : Emits p t1 t2) : Emits q t1 t2 := by
  obtain ⟨evs, htr, hp⟩ := h
  exact ⟨evs, htr, fun e he => hpq e (hp e he)⟩

theorem filterMap_none_of {α : Type} (p : Event → Bool) (f : Event → Option α)
    (hf : ∀ e, p e = true → f e = none) (evs : List Event) (h : ∀ e ∈ evs, p e = true) :
    evs.filterMap f = [] := by
  rw [List.filterMap_eq_nil_iff]
  intro e he
  exact hf e (h e he)

theorem Emits.filterMap_none {α : Type} {p : Event → Bool} (f : Event → Option α)
    (hf : ∀ e, p e = true → f e = none) {t1 t2 : Target} (h : Emits p t1 t2) :
    t2.trace.filterMap f = t1.trace.filterMap f := by
  obtain ⟨evs, htr, hq⟩ := h
  rw [htr, List.filterMap_append, filterMap_none_of p f hf evs hq, List.append_nil]

theorem run_outcome_plain (e : Event) (h : plain e = true) : run_outcome e = none := by
  cases e with
  | run_algorithm s en r st => simp [plain] at h
  | _ => rfl

theorem binding_plain (e : Event) (h : plain e = true) : binding e = none := by
  cases e with
  | init_reg_param i n => simp [plain] at h
  | _ => rfl

theorem release_plain (e : Event) (h : plain e = true) : release e = none := by
  cases e with
  | destroy_reg_param i => simp [plain] at h
  | _ => rfl

theorem scratch_copy_plain (e : Event) (h : plain e = true) : scratch_copy e = none := by
  cases e with
  | write_buffer x a b r => cases x <;> simp_all [plain, scratch_copy]
  | _ => rfl

theorem host_read_plain (e : Event) (h : plain e = true) : host_read e = none := by
  cases e with
  | read_buffer x a b r => cases x <;> simp_all [plain, host_read]
  | _ => rfl

theorem invocation_plain (e : Event) (h : plain e = true) : invocation e = none := by
  cases e with
  | invoke s => simp [plain] at h
  | _ => rfl

theorem regfree_plain (e : Event) (h : plain e = true) : regfree e = true := by
  cases e with
  | init_reg_param i n => simp [plain] at h
  | destroy_reg_param i => simp [plain] at h
  | _ => rfl

theorem binding_regfree (e : Event) (h : regfree e = true) : binding e = none := by
  cases e with
  | init_reg_param i n => simp [regfree] at h
  | _ => rfl

theorem release_regfree (e : Event) (h : regfree e = true) : release e = none := by
  cases e with
  | destroy_reg_param i => simp [regfree] at h
  | _ => rfl

theorem emits_alloc (env : Env) (t : Target) (a : Area) (size : Nat) (ha : a ≠ Area.scratch) :
    Emits plain t (target_alloc_working_area env t a size).2 := by
  unfold target_alloc_working_area
  cases env.alloc_working_area t size <;>
    exact Emits.eone _ rfl (by cases a <;> first | rfl | exact absurd rfl ha)

theorem emits_alloc_alt (env : Env) (t : Target) (a : Area) (size : Nat) (ha : a ≠ Area.scratch) :
    Emits plain t (target_alloc_alt_working_area env t a size).2 := by
  unfold target_alloc_alt_working_area
  cases env.alloc_alt_working_area t size <;>
    exact Emits.eone _ rfl (by cases a <;> first | rfl | exact absurd rfl ha)

theorem emits_free (t : Target) (a : Area) (wa : Option working_area) :
    Emits plain t (target_free_working_area t a wa) := by
  cases wa with
  | none => exact Emits.erefl _ t
  | some w => exact Emits.eone _ rfl rfl

theorem emits_free_alt (t : Target) (a : Area) (wa : Option working_area) :
    Emits plain t (target_free_alt_working_area t a wa) := by
  cases wa with
  | none => exact Emits.erefl _ t
  | some w => exact Emits.eone _ rfl rfl

theorem emits_write (env : Env) (t : Target) (x : Xfer) (a : Nat) (b : List Nat)
    (hx : ∀ k, x ≠ Xfer.flash_data k) :
    Emits plain t (target_write_buffer env t x a b).2 := by
  unfold target_write_buffer
  have hq : ∀ r, plain (Event.write_buffer x a b r) = true := by
    intro r; cases x <;> first | rfl | exact absurd rfl (hx _)
  by_cases h : env.write_buffer t a b = ERROR_OK
  · simp only [h, if_true]; exact Emits.eone _ rfl (hq _)
  · simp only [h, if_false]; exact Emits.eone _ rfl (hq _)

theorem emits_read (env : Env) (t : Target) (x : Xfer) (a n : Nat)
    (hx : ∀ k, x ≠ Xfer.flash_data k) :
    Emits plain t (target_read_buffer env t x a n).2.2 := by
  unfold target_read_buffer
  have hq : ∀ r, plain (Event.read_buffer x a n r) = true := by
    intro r; cases x <;> first | rfl | exact absurd rfl (hx _)
  by_cases h : env.read_buffer t a n = ERROR_OK
  · simp only [h, if_true]; exact Emits.eone _ rfl (hq _)
  · simp only [h, if_false]; exact Emits.eone _ rfl (hq _)

theorem emits_fill_loop (env : Env) (stack_addr fuel : Nat) (t : Target) (i : Nat) :
    Emits plain t (fill_stack_loop env stack_addr fuel t i).2 := by
  induction fuel generalizing t i with
  | zero => exact Emits.erefl _ t
  | succ fuel ih =>
    rw [fill_stack_loop]
    dsimp only
    split_ifs <;>
      first
      | exact Emits.erefl _ t
      | exact emits_write env t Xfer.canary _ _ (by intro k; simp)
      | exact (emits_write env t Xfer.canary _ _ (by intro k; simp)).etrans (ih _ _)

theorem emits_check_loop (env : Env) (stack_addr fuel : Nat) (t : Target) (i : Nat) (rv : Int) :
    Emits plain t (check_stack_loop env stack_addr fuel t i rv).2 := by
  induction fuel generalizing t i rv with
  | zero => exact Emits.erefl _ t
  | succ fuel ih =>
    rw [check_stack_loop]
    dsimp only
    split_ifs <;>
      first
      | exact Emits.erefl _ t
      | exact emits_read env t Xfer.canary _ _ (by intro k; simp)
      | (split
         · exact emits_read env t Xfer.canary _ _ (by intro k; simp)
         · exact (emits_read env t Xfer.canary _ _ (by intro k; simp)).etrans (ih _ _ _))

theorem emits_on_error (t : Target) (stub : esp32_flash_stub) :
    Emits plain t (stub_load_on_error t stub) := by
  unfold stub_load_on_error
  exact (((emits_free t _ _).etrans (emits_free _ _ _)).etrans (emits_free_alt _ _ _)).etrans
    (emits_free_alt _ _ _)

theorem emits_section_copy_loop (env : Env) (i : Nat) (sec : imagesection) (fuel : Nat)
    (t : Target) (w : Nat) (rv : Int) (t' : Target)
    (h : section_copy_loop env i sec fuel t w = some (rv, t')) : Emits plain t t' := by
  induction fuel generalizing t w with
  | zero => simp [section_copy_loop] at h
  | succ fuel ih =>
    rw [section_copy_loop] at h
    dsimp only at h
    have hw : ∀ b, Emits plain t (target_write_buffer env t (Xfer.sec i)
        (u32 (sec.base_address + w)) b).2 :=
      fun b => emits_write env t (Xfer.sec i) _ b (by intro k; simp)
    split_ifs at h
    all_goals first
      | (simp only [Option.some.injEq, Prod.mk.injEq] at h
         obtain ⟨_, rfl⟩ := h
         first | exact Emits.erefl _ _ | exact hw _)
      | exact (hw _).etrans (ih _ _ h)

theorem emits_sections_loop (env : Env) (fuel : Nat) (secs : List imagesection) (i : Nat)
    (t : Target) (stub : esp32_flash_stub) (rv : Int) (t' : Target) (stub' : esp32_flash_stub)
    (h : sections_loop env fuel secs i t stub = some (rv, t', stub')) :
    Emits plain t t' := by
  induction secs generalizing i t stub with
  | nil =>
    simp only [sections_loop, Option.some.injEq, Prod.mk.injEq] at h
    obtain ⟨_, rfl, rfl⟩ := h
    exact Emits.erefl _ _
  | cons sec rest ih =>
    rw [sections_loop] at h
    split_ifs at h with hx
    · have hq := emits_alloc env t Area.code sec.size (by decide)
      revert hq h
      cases target_alloc_working_area env t Area.code sec.size with
      | mk res t1 =>
        cases res with
        | none =>
          intro h hq
          simp only [Option.some.injEq, Prod.mk.injEq] at h
          obtain ⟨_, rfl, rfl⟩ := h
          exact hq
        | some wa =>
          intro h hq
          dsimp only at h
          split_ifs at h with hadr
          · simp only [Option.some.injEq, Prod.mk.injEq] at h
            obtain ⟨_, rfl, rfl⟩ := h
            exact hq
          · cases hc : section_copy_loop env i sec fuel t1 0 with
            | none => rw [hc] at h; simp at h
            | some r =>
              obtain ⟨rv2, t2⟩ := r
              rw [hc] at h
              dsimp only at h
              have hq2 := emits_section_copy_loop env i sec fuel t1 0 rv2 t2 hc
              split_ifs at h
              · simp only [Option.some.injEq, Prod.mk.injEq] at h
                obtain ⟨_, rfl, rfl⟩ := h
                exact hq.etrans hq2
              · exact (hq.etrans hq2).etrans (ih _ _ _ h)
    · have hq := emits_alloc_alt env t Area.data sec.size (by decide)
      revert hq h
      cases target_alloc_alt_working_area env t Area.data sec.size with
      | mk res t1 =>
        cases res with
        | none =>
          intro h hq
          simp only [Option.some.injEq, Prod.mk.injEq] at h
          obtain ⟨_, rfl, rfl⟩ := h
          exact hq
        | some wa =>
          intro h hq
          dsimp only at h
          split_ifs at h with hadr
          · simp only [Option.some.injEq, Prod.mk.injEq] at h
            obtain ⟨_, rfl, rfl⟩ := h
            exact hq
          · cases hc : section_copy_loop env i sec fuel t1 0 with
            | none => rw [hc] at h; simp at h
            | some r =>
              obtain ⟨rv2, t2⟩ := r
              rw [hc] at h
              dsimp only at h
              have hq2 := emits_section_copy_loop env i sec fuel t1 0 rv2 t2 hc
              split_ifs at h
              · simp only [Option.some.injEq, Prod.mk.injEq] at h
                obtain ⟨_, rfl, rfl⟩ := h
                exact hq.etrans hq2
              · exact (hq.etrans hq2).etrans (ih _ _ _ h)

theorem trace_split {t ta tb tc : Target} {b : List Event} (hA : Emits plain t ta)
    (hb : tb.trace = ta.trace ++ b) (hC : Emits plain tb tc) :
    ∃ evs1 evs2 : List Event, tc.trace = t.trace ++ evs1 ++ b ++ evs2 ∧
      (∀ e ∈ evs1, plain e = true) ∧ (∀ e ∈ evs2, plain e = true) := by
  obtain ⟨e1, h1, q1⟩ := hA
  obtain ⟨e2, h2, q2⟩ := hC
  exact ⟨e1, e2, by rw [h2, hb, h1], q1, q2⟩

theorem trace_split_nil {t ta : Target} (hA : Emits plain t ta) :
    ∃ evs1 evs2 : List Event, ta.trace = t.trace ++ evs1 ++ [] ++ evs2 ∧
      (∀ e ∈ evs1, plain e = true) ∧ (∀ e ∈ evs2, plain e = true) := by
  obtain ⟨e1, h1, q1⟩ := hA
  exact ⟨e1, [], by rw [h1]; simp, q1, by simp⟩

/-- Trace of a stub load: plain events, with the five bootstrap bindings in
between when the load got as far as the stack area. -/
theorem stub_load_trace (env : Env) (fuel : Nat) (t : Target) (stub : esp32_flash_stub)
    (rv : Int) (t' : Target) (stub' : esp32_flash_stub)
    (h : esp32_stub_load env fuel t stub = some (rv, t', stub')) :
    ∃ (evs1 b evs2 : List Event), t'.trace = t.trace ++ evs1 ++ b ++ evs2 ∧
      (∀ e ∈ evs1, plain e = true) ∧ (∀ e ∈ evs2, plain e = true) ∧
      (b = [] ∨ b = bootstrap_inits) ∧ (rv = ERROR_OK → b = bootstrap_inits) := by
  unfold esp32_stub_load at h
  dsimp only at h
  split_ifs at h with hop
  · simp only [Option.some.injEq, Prod.mk.injEq] at h
    obtain ⟨rfl, rfl, rfl⟩ := h
    exact ⟨[], [], [], by simp, by simp, by simp, Or.inl rfl, fun h0 => absurd h0 hop⟩
  · cases hs : sections_loop env fuel (env.image_open t).2.sections 0 t
        { stub with code := none, data := none, stack := none, algo := none } with
    | none => rw [hs] at h; simp at h
    | some r =>
      obtain ⟨rv1, t1, stub1⟩ := r
      rw [hs] at h
      dsimp only at h
      have q1 := emits_sections_loop env fuel _ _ _ _ _ _ _ hs
      split_ifs at h with hrv1
      · simp only [Option.some.injEq, Prod.mk.injEq] at h
        obtain ⟨rfl, rfl, rfl⟩ := h
        obtain ⟨a, c, h1, h2, h3⟩ := trace_split_nil (q1.etrans (emits_on_error t1 stub1))
        exact ⟨a, [], c, h1, h2, h3, Or.inl rfl, fun h0 => absurd h0 hrv1⟩
      · have hq2 := emits_alloc_alt env t1 Area.stack ESP32_STUB_STACK_SZ (by decide)
        revert hq2 h
        cases target_alloc_alt_working_area env t1 Area.stack ESP32_STUB_STACK_SZ with
        | mk res t2 =>
          cases res with
          | none =>
            intro h hq2
            simp only [Option.some.injEq, Prod.mk.injEq] at h
            obtain ⟨rfl, rfl, rfl⟩ := h
            obtain ⟨a, c, h1, h2, h3⟩ :=
              trace_split_nil ((q1.etrans hq2).etrans (emits_on_error t2 stub1))
            exact ⟨a, [], c, h1, h2, h3, Or.inl rfl, fun h0 => absurd h0 (by decide)⟩
          | some st =>
            intro h hq2
            dsimp only at h
            have hb : (init_reg_param (init_reg_param (init_reg_param (init_reg_param
                (init_reg_param t2 0 "a0") 1 "a1") 2 "windowbase") 3 "windowstart") 4
                "ps").trace = t2.trace ++ bootstrap_inits := by
              simp [init_reg_param, bootstrap_inits]
            have hq8 := emits_alloc env (init_reg_param (init_reg_param (init_reg_param
                (init_reg_param (init_reg_param t2 0 "a0") 1 "a1") 2 "windowbase") 3
                "windowstart") 4 "ps") Area.algo env.esp32_stub_wrapper.length (by decide)
            revert hq8 h
            cases target_alloc_working_area env (init_reg_param (init_reg_param (init_reg_param
                (init_reg_param (init_reg_param t2 0 "a0") 1 "a1") 2 "windowbase") 3
                "windowstart") 4 "ps") Area.algo env.esp32_stub_wrapper.length with
            | mk res8 t8 =>
              cases res8 with
              | none =>
                intro h hq8
                simp only [Option.some.injEq, Prod.mk.injEq] at h
                obtain ⟨rfl, rfl, rfl⟩ := h
                obtain ⟨a, c, h1, h2, h3⟩ :=
                  trace_split (q1.etrans hq2) hb (hq8.etrans (emits_on_error _ _))
                exact ⟨a, _, c, h1, h2, h3, Or.inr rfl, fun h0 => absurd h0 (by decide)⟩
              | some al =>
                intro h hq8
                dsimp only at h
                have hq9 := emits_write env t8 Xfer.wrapper al.address env.esp32_stub_wrapper
                  (by intro k; simp)
                split_ifs at h with hwr
                · simp only [Option.some.injEq, Prod.mk.injEq] at h
                  obtain ⟨rfl, rfl, rfl⟩ := h
                  obtain ⟨a, c, h1, h2, h3⟩ :=
                    trace_split (q1.etrans hq2) hb ((hq8.etrans hq9).etrans (emits_on_error _ _))
                  exact ⟨a, _, c, h1, h2, h3, Or.inr rfl, fun h0 => absurd h0 hwr⟩
                · simp only [Option.some.injEq, Prod.mk.injEq] at h
                  obtain ⟨rfl, rfl, rfl⟩ := h
                  obtain ⟨a, c, h1, h2, h3⟩ := trace_split (q1.etrans hq2) hb (hq8.etrans hq9)
                  exact ⟨a, _, c, h1, h2, h3, Or.inr rfl, fun _ => rfl⟩

/-- What a successful stub load is made of. -/
theorem stub_load_ok_form (env : Env) (fuel : Nat) (t : Target) (stub : esp32_flash_stub)
    (t' : Target) (stub' : esp32_flash_stub)
    (h : esp32_stub_load env fuel t stub = some (ERROR_OK, t', stub')) :
    ∃ (t1 : Target) (stub1 : esp32_flash_stub) (st : working_area) (t2 : Target)
      (al : working_area) (t8 : Target),
      sections_loop env fuel (env.image_open t).2.sections 0 t
        { stub with code := none, data := none, stack := none, algo := none }
          = some (ERROR_OK, t1, stub1) ∧
      target_alloc_alt_working_area env t1 Area.stack ESP32_STUB_STACK_SZ = (some st, t2) ∧
      stub' = { buf_set_u32 (buf_set_u32 (buf_set_u32 (buf_set_u32 (buf_set_u32
                  { stub1 with stack := some st } 0 (env.image_open t).2.start_address) 1
                  (stack_top st.address)) 2 0x0) 3 0x1) 4 0x60021 with algo := some al } ∧
      t' = (target_write_buffer env t8 Xfer.wrapper al.address env.esp32_stub_wrapper).2 := by
  unfold esp32_stub_load at h
  dsimp only at h
  split_ifs at h with hop
  · simp only [Option.some.injEq, Prod.mk.injEq] at h
    exact absurd h.1 hop
  · cases hs : sections_loop env fuel (env.image_open t).2.sections 0 t
        { stub with code := none, data := none, stack := none, algo := none } with
    | none => rw [hs] at h; simp at h
    | some r =>
      obtain ⟨rv1, t1, stub1⟩ := r
      rw [hs] at h
      dsimp only at h
      split_ifs at h with hrv1
      · simp only [Option.some.injEq, Prod.mk.injEq] at h
        exact absurd h.1 hrv1
      · have hrv : rv1 = ERROR_OK := not_not.mp hrv1
        subst hrv
        cases hst : target_alloc_alt_working_area env t1 Area.stack ESP32_STUB_STACK_SZ with
        | mk res t2 =>
          rw [hst] at h
          cases res with
          | none =>
            simp only [Option.some.injEq, Prod.mk.injEq] at h
            exact absurd h.1 (by decide)
          | some st =>
            dsimp only at h
            cases hal : target_alloc_working_area env (init_reg_param (init_reg_param
                (init_reg_param (init_reg_param (init_reg_param t2 0 "a0") 1 "a1") 2
                "windowbase") 3 "windowstart") 4 "ps") Area.algo
                env.esp32_stub_wrapper.length with
            | mk res8 t8 =>
              rw [hal] at h
              cases res8 with
              | none =>
                simp only [Option.some.injEq, Prod.mk.injEq] at h
                exact absurd h.1 (by decide)
              | some al =>
                dsimp only at h
                split_ifs at h with hwr
                · simp only [Option.some.injEq, Prod.mk.injEq] at h
                  exact absurd h.1 hwr
                · simp only [Option.some.injEq, Prod.mk.injEq] at h
                  obtain ⟨-, rfl, rfl⟩ := h
                  exact ⟨t1, stub1, st, t2, al, t8, rfl, hst, rfl, rfl⟩

/-- Trace of the stub cleanup: releases of areas, then the five bootstrap
slots from 4 down to 0. -/
theorem cleanup_trace (t : Target) (stub : esp32_flash_stub) :
    ∃ evs : List Event, (esp32_stub_cleanup t stub).trace = t.trace ++ evs ++ bootstrap_destroys ∧
      ∀ e ∈ evs, plain e = true := by
  obtain ⟨evs, h1, q1⟩ := (((emits_free t Area.algo stub.algo).etrans
    (emits_free _ Area.code stub.code)).etrans (emits_free_alt _ Area.stack stub.stack)).etrans
    (emits_free_alt _ Area.data stub.data)
  refine ⟨evs, ?_, q1⟩
  unfold esp32_stub_cleanup
  simp only [destroy_reg_param, bootstrap_destroys]
  rw [h1]
  simp

/-- Trace of one stub invocation: the invocation mark, the canary writes, the
run (when the fill succeeded) and the canary reads. -/
theorem run_algo_trace (env : Env) (t : Target) (stub : esp32_flash_stub) :
    ∃ (evs1 r evs2 : List Event),
      (esp32_run_algo env t stub).2.1.trace
        = t.trace ++ [Event.invoke (bound_slots stub)] ++ evs1 ++ r ++ evs2 ∧
      (∀ e ∈ evs1, plain e = true) ∧ (∀ e ∈ evs2, plain e = true) ∧
      (r = [] ∨ ∃ rv st, r = [Event.run_algorithm (bound_slots stub) (area_address stub.algo)
        rv st]) ∧
      ((esp32_run_algo env t stub).1 = ERROR_OK → ∃ a2,
        r = [Event.run_algorithm (bound_slots stub) (area_address stub.algo) ERROR_OK (u32 a2)] ∧
        (esp32_run_algo env t stub).2.2 = buf_set_u32 stub STUB_ARGS_FUNC_START a2) := by
  unfold esp32_run_algo esp32_stub_fill_stack esp32_stub_check_stack
  dsimp only
  obtain ⟨e1, h1, q1⟩ := emits_fill_loop env (area_address stub.stack) ESP32_STUB_STACK_SZ
    { t with trace := t.trace ++ [Event.invoke (bound_slots stub)] } 0
  split_ifs with hfl hrn
  · exact ⟨e1, [], [], by rw [h1]; simp, q1, by simp, Or.inl rfl, fun h0 => absurd h0 hfl⟩
  · refine ⟨e1, [Event.run_algorithm (bound_slots stub) (area_address stub.algo)
        (env.run_algorithm (fill_stack_loop env (area_address stub.stack) ESP32_STUB_STACK_SZ
          { t with trace := t.trace ++ [Event.invoke (bound_slots stub)] } 0).2
          (bound_slots stub) (area_address stub.algo)).retval
        (u32 (env.run_algorithm (fill_stack_loop env (area_address stub.stack)
          ESP32_STUB_STACK_SZ
          { t with trace := t.trace ++ [Event.invoke (bound_slots stub)] } 0).2
          (bound_slots stub) (area_address stub.algo)).a2)], [], ?_, q1, by simp,
        Or.inr ⟨_, _, rfl⟩, fun h0 => absurd h0 hrn⟩
    unfold target_run_algorithm
    dsimp only
    split_ifs <;> simp [h1]
  · obtain ⟨e2, h2, q2⟩ := emits_check_loop env (area_address stub.stack) ESP32_STUB_STACK_SZ
      (target_run_algorithm env (fill_stack_loop env (area_address stub.stack)
        ESP32_STUB_STACK_SZ
        { t with trace := t.trace ++ [Event.invoke (bound_slots stub)] } 0).2 stub).2.1 0
      ERROR_OK
    have hrn' : (target_run_algorithm env (fill_stack_loop env (area_address stub.stack)
        ESP32_STUB_STACK_SZ
        { t with trace := t.trace ++ [Event.invoke (bound_slots stub)] } 0).2 stub).1
          = ERROR_OK := not_not.mp hrn
    have hform : (env.run_algorithm (fill_stack_loop env (area_address stub.stack)
          ESP32_STUB_STACK_SZ
          { t with trace := t.trace ++ [Event.invoke (bound_slots stub)] } 0).2
          (bound_slots stub) (area_address stub.algo)).retval = ERROR_OK := by
      unfold target_run_algorithm at hrn'
      dsimp only at hrn'
      split_ifs at hrn' with hc
      · exact hc
      · exact absurd hrn' hc
    refine ⟨e1, [Event.run_algorithm (bound_slots stub) (area_address stub.algo) ERROR_OK
        (u32 (env.run_algorithm (fill_stack_loop env (area_address stub.stack)
          ESP32_STUB_STACK_SZ
          { t with trace := t.trace ++ [Event.invoke (bound_slots stub)] } 0).2
          (bound_slots stub) (area_address stub.algo)).a2)], e2, ?_, q1, q2,
        Or.inr ⟨_, _, rfl⟩, fun _ => ⟨_, rfl, ?_⟩⟩
    · rw [h2]
      unfold target_run_algorithm
      dsimp only
      rw [if_pos hform, hform]
      simp [h1]
    · unfold target_run_algorithm
      dsimp only
      rw [if_pos hform]

/-! ### Binding and release of the parameter slots -/

theorem regfree_write (env : Env) (t : Target) (x : Xfer) (a : Nat) (b : List Nat) :
    Emits regfree t (target_write_buffer env t x a b).2 := by
  unfold target_write_buffer
  dsimp only
  split_ifs <;> exact Emits.eone _ rfl rfl

theorem regfree_read (env : Env) (t : Target) (x : Xfer) (a n : Nat) :
    Emits regfree t (target_read_buffer env t x a n).2.2 := by
  unfold target_read_buffer
  dsimp only
  split_ifs <;> exact Emits.eone _ rfl rfl

theorem regfree_run_algo (env : Env) (t : Target) (stub : esp32_flash_stub) :
    Emits regfree t (esp32_run_algo env t stub).2.1 := by
  obtain ⟨e1, r, e2, htr, q1, q2, hr, -⟩ := run_algo_trace env t stub
  refine ⟨[Event.invoke (bound_slots stub)] ++ e1 ++ r ++ e2, by rw [htr]; simp, ?_⟩
  intro e he
  simp only [List.mem_append, List.mem_singleton] at he
  rcases he with ((rfl | h) | h) | h
  · rfl
  · exact regfree_plain e (q1 e h)
  · rcases hr with rfl | ⟨rv, st, rfl⟩
    · simp at h
    · simp only [List.mem_singleton] at h; subst h; rfl
  · exact regfree_plain e (q2 e h)

theorem regfree_scratch_alloc (env : Env) (fuel : Nat) (t : Target) (n : Nat) :
    Emits regfree t (scratch_alloc_loop env fuel t n).2 := by
  induction fuel generalizing t n with
  | zero => exact Emits.erefl _ t
  | succ fuel ih =>
    rw [scratch_alloc_loop]
    have h1 : Emits regfree t (target_alloc_alt_working_area env t Area.scratch n).2 := by
      unfold target_alloc_alt_working_area
      cases env.alloc_alt_working_area t n <;> exact Emits.eone _ rfl rfl
    revert h1
    cases target_alloc_alt_working_area env t Area.scratch n with
    | mk res t1 =>
      cases res with
      | some wa => intro h1; exact h1
      | none =>
        intro h1
        dsimp only
        split_ifs
        · exact h1
        · exact h1.etrans (ih _ _)

theorem regfree_write_loop (env : Env) (tb : working_area) (buffer : List Nat) (count fuel : Nat)
    (t : Target) (stub : esp32_flash_stub) (total : Nat) (rv : Int)
    (r : Int × Target × esp32_flash_stub)
    (h : write_loop env tb buffer count fuel t stub total rv = some r) :
    Emits regfree t r.2.1 := by
  induction fuel generalizing t stub total rv with
  | zero => simp [write_loop] at h
  | succ fuel ih =>
    rw [write_loop] at h
    dsimp only at h
    split_ifs at h
    · simp only [Option.some.injEq] at h; subst h
      exact regfree_write _ _ _ _ _
    · simp only [Option.some.injEq] at h; subst h
      exact (regfree_write _ _ _ _ _).etrans (regfree_run_algo _ _ _)
    · simp only [Option.some.injEq] at h; subst h
      exact (regfree_write _ _ _ _ _).etrans (regfree_run_algo _ _ _)
    · exact ((regfree_write _ _ _ _ _).etrans (regfree_run_algo _ _ _)).etrans (ih _ _ _ _ h)
    · simp only [Option.some.injEq] at h; subst h; exact Emits.erefl _ _

theorem regfree_read_loop (env : Env) (tb : working_area) (count fuel : Nat)
    (t : Target) (stub : esp32_flash_stub) (buffer : List Nat) (total : Nat) (rv : Int)
    (r : Int × Target × esp32_flash_stub × List Nat)
    (h : read_loop env tb count fuel t stub buffer total rv = some r) :
    Emits regfree t r.2.1 := by
  induction fuel generalizing t stub buffer total rv with
  | zero => simp [read_loop] at h
  | succ fuel ih =>
    rw [read_loop] at h
    dsimp only at h
    split_ifs at h
    · simp only [Option.some.injEq] at h; subst h
      exact regfree_run_algo _ _ _
    · simp only [Option.some.injEq] at h; subst h
      exact regfree_run_algo _ _ _
    · simp only [Option.some.injEq] at h; subst h
      exact (regfree_run_algo _ _ _).etrans (regfree_read _ _ _ _ _)
    · exact ((regfree_run_algo _ _ _).etrans (regfree_read _ _ _ _ _)).etrans (ih _ _ _ _ _ h)
    · simp only [Option.some.injEq] at h; subst h; exact Emits.erefl _ _

theorem Emits.bindings {t1 t2 : Target} (h : Emits regfree t1 t2) :
    bindings t2.trace = bindings t1.trace :=
  h.filterMap_none binding binding_regfree

theorem Emits.releases {t1 t2 : Target} (h : Emits regfree t1 t2) :
    releases t2.trace = releases t1.trace :=
  h.filterMap_none release release_regfree

theorem stub_load_slots (env : Env) (fuel : Nat) (t : Target) (stub : esp32_flash_stub)
    (t' : Target) (stub' : esp32_flash_stub)
    (h : esp32_stub_load env fuel t stub = some (ERROR_OK, t', stub')) :
    bindings t'.trace = bindings t.trace ++ [0, 1, 2, 3, 4] ∧
      releases t'.trace = releases t.trace := by
  obtain ⟨e1, b, e2, htr, q1, q2, -, hb⟩ := stub_load_trace env fuel t stub _ _ _ h
  rw [hb rfl] at htr
  unfold bindings releases
  rw [htr]
  simp only [List.filterMap_append, filterMap_none_of plain binding binding_plain e1 q1,
    filterMap_none_of plain binding binding_plain e2 q2,
    filterMap_none_of plain release release_plain e1 q1,
    filterMap_none_of plain release release_plain e2 q2, List.append_nil]
  exact ⟨rfl, by simp [bootstrap_inits, release]⟩

theorem cleanup_slots (t : Target) (stub : esp32_flash_stub) :
    bindings (esp32_stub_cleanup t stub).trace = bindings t.trace ∧
      releases (esp32_stub_cleanup t stub).trace = releases t.trace ++ [4, 3, 2, 1, 0] := by
  obtain ⟨e1, htr, q1⟩ := cleanup_trace t stub
  unfold bindings releases
  rw [htr]
  simp only [List.filterMap_append, filterMap_none_of plain binding binding_plain e1 q1,
    filterMap_none_of plain release release_plain e1 q1, List.append_nil]
  exact ⟨by simp [bootstrap_destroys, binding], rfl⟩

theorem bindings_init (t : Target) (i : Nat) (n : String) :
    bindings (init_reg_param t i n).trace = bindings t.trace ++ [i] ∧
      releases (init_reg_param t i n).trace = releases t.trace := by
  simp [bindings, releases, init_reg_param, binding, release]

theorem releases_destroy (t : Target) (i : Nat) :
    bindings (destroy_reg_param t i).trace = bindings t.trace ∧
      releases (destroy_reg_param t i).trace = releases t.trace ++ [i] := by
  simp [bindings, releases, destroy_reg_param, binding, release]

theorem transfer_setup_slots_bound (t : Target) (stub : esp32_flash_stub) (cmd offset : Nat)
    (tb : working_area) :
    bindings (transfer_setup t stub cmd offset tb).1.trace = bindings t.trace ++ [5, 6, 7, 8] ∧
      releases (transfer_setup t stub cmd offset tb).1.trace = releases t.trace := by
  simp [transfer_setup, bindings, releases, init_reg_param, binding, release,
    STUB_ARGS_FUNC_START]

theorem transfer_cleanup_slots (t : Target) (stub : esp32_flash_stub) (tb : working_area) :
    bindings (transfer_cleanup t stub tb).trace = bindings t.trace ∧
      releases (transfer_cleanup t stub tb).trace
        = releases t.trace ++ [5, 6, 7, 8, 4, 3, 2, 1, 0] := by
  unfold transfer_cleanup
  dsimp only
  have hf := (emits_free_alt (esp32_stub_cleanup (destroy_reg_param (destroy_reg_param
    (destroy_reg_param (destroy_reg_param t (STUB_ARGS_FUNC_START + 0))
    (STUB_ARGS_FUNC_START + 1)) (STUB_ARGS_FUNC_START + 2)) (STUB_ARGS_FUNC_START + 3)) stub)
    Area.scratch (some tb)).emono regfree_plain
  rw [hf.bindings, hf.releases, (cleanup_slots _ _).1, (cleanup_slots _ _).2]
  simp [bindings, releases, destroy_reg_param, binding, release, STUB_ARGS_FUNC_START]

theorem erase_slots (env : Env) (fuel : Nat) (bank : flash_bank) (first last : Int)
    (rv : Int) (t' : Target)
    (h : esp32_erase env fuel bank first last = some (rv, t'))
    (hh : bank.target.state = target_state.TARGET_HALTED)
    (hload : (esp32_stub_load env fuel bank.target (stub_init (STUB_ARGS_FUNC_START + 3))).map
      Prod.fst = some ERROR_OK) :
    bindings t'.trace = bindings bank.target.trace ++ [0, 1, 2, 3, 4, 5, 6, 7] ∧
      releases t'.trace = releases bank.target.trace ++ [5, 6, 7, 4, 3, 2, 1, 0] := by
  obtain ⟨t1, stub1, hl, -⟩ := stub_load_ok env fuel bank.target _ hload
  obtain ⟨hb1, hr1⟩ := stub_load_slots env fuel _ _ _ _ hl
  unfold esp32_erase at h
  rw [if_neg (by simp [hh])] at h
  split_ifs at h with hr
  rw [hl] at h
  simp only [ne_eq, not_true_eq_false, if_false, Option.some.injEq, Prod.mk.injEq] at h
  obtain ⟨-, rfl⟩ := h
  have hrun := regfree_run_algo env (init_reg_param (init_reg_param (init_reg_param t1
      (STUB_ARGS_FUNC_START + 0) "a2") (STUB_ARGS_FUNC_START + 1) "a3")
      (STUB_ARGS_FUNC_START + 2) "a4")
    (buf_set_u32 (buf_set_u32 (buf_set_u32 stub1 (STUB_ARGS_FUNC_START + 0)
      STUB_CMD_FLASH_ERASE) (STUB_ARGS_FUNC_START + 1)
      ((first * SPI_FLASH_SEC_SIZE) % 2 ^ 32).toNat) (STUB_ARGS_FUNC_START + 2)
      (((last - first + 1) * SPI_FLASH_SEC_SIZE) % 2 ^ 32).toNat)
  rw [(cleanup_slots _ _).1, (cleanup_slots _ _).2]
  simp only [(releases_destroy _ _).1, (releases_destroy _ _).2, hrun.bindings, hrun.releases,
    (bindings_init _ _ _).1, (bindings_init _ _ _).2, hb1, hr1]
  simp [STUB_ARGS_FUNC_START]

theorem read_slots (env : Env) (fuel : Nat) (bank : flash_bank) (buffer : List Nat)
    (offset count : Nat) (rv : Int) (t' : Target) (out : List Nat)
    (h : esp32_read env fuel bank buffer offset count = some (rv, t', out))
    (hh : bank.target.state = target_state.TARGET_HALTED)
    (hload : (esp32_stub_load env fuel bank.target (stub_init (STUB_ARGS_FUNC_START + 4))).map
      Prod.fst = some ERROR_OK) :
    ∃ cmd : List Nat, (cmd = [] ∨ cmd = [5, 6, 7, 8]) ∧
      bindings t'.trace = bindings bank.target.trace ++ [0, 1, 2, 3, 4] ++ cmd ∧
      releases t'.trace = releases bank.target.trace ++ cmd ++ [4, 3, 2, 1, 0] := by
  obtain ⟨t1, stub1, hl, -⟩ := stub_load_ok env fuel bank.target _ hload
  obtain ⟨hb1, hr1⟩ := stub_load_slots env fuel _ _ _ _ hl
  rw [esp32_read_eq env fuel bank buffer offset count t1 stub1 hh hl] at h
  have hsc := regfree_scratch_alloc env (count + 1) t1 count
  revert hsc h
  cases scratch_alloc_loop env (count + 1) t1 count with
  | mk res t2 =>
    cases res with
    | none =>
      intro h hsc
      simp only [Option.some.injEq, Prod.mk.injEq] at h
      obtain ⟨-, rfl, -⟩ := h
      refine ⟨[], Or.inl rfl, ?_, ?_⟩
      · rw [(cleanup_slots _ _).1, hsc.bindings, hb1]; simp
      · rw [(cleanup_slots _ _).2, hsc.releases, hr1]; simp
    | some tb =>
      intro h hsc
      dsimp only at h
      cases hlp : read_loop env tb count fuel
          (transfer_setup t2 stub1 STUB_CMD_FLASH_READ offset tb).1
          (transfer_setup t2 stub1 STUB_CMD_FLASH_READ offset tb).2 buffer 0 ERROR_OK with
      | none => rw [hlp] at h; simp at h
      | some r =>
        obtain ⟨rv3, t3, stub3, b3⟩ := r
        rw [hlp] at h
        simp only [Option.some.injEq, Prod.mk.injEq] at h
        obtain ⟨-, rfl, -⟩ := h
        have hloop := regfree_read_loop env tb count fuel _ _ _ _ _ _ hlp
        refine ⟨[5, 6, 7, 8], Or.inr rfl, ?_, ?_⟩
        · rw [(transfer_cleanup_slots _ _ _).1, hloop.bindings,
            (transfer_setup_slots_bound _ _ _ _ _).1, hsc.bindings, hb1]
        · rw [(transfer_cleanup_slots _ _ _).2, hloop.releases,
            (transfer_setup_slots_bound _ _ _ _ _).2, hsc.releases, hr1]
          simp

theorem write_slots (env : Env) (fuel : Nat) (bank : flash_bank) (buffer : List Nat)
    (offset count : Nat) (rv : Int) (t' : Target)
    (h : esp32_write env fuel bank buffer offset count = some (rv, t'))
    (hh : bank.target.state = target_state.TARGET_HALTED)
    (hload : (esp32_stub_load env fuel bank.target (stub_init (STUB_ARGS_FUNC_START + 4))).map
      Prod.fst = some ERROR_OK) :
    ∃ cmd : List Nat, (cmd = [] ∨ cmd = [5, 6, 7, 8]) ∧
      bindings t'.trace = bindings bank.target.trace ++ [0, 1, 2, 3, 4] ++ cmd ∧
      releases t'.trace = releases bank.target.trace ++ cmd ++ [4, 3, 2, 1, 0] := by
  obtain ⟨t1, stub1, hl, -⟩ := stub_load_ok env fuel bank.target _ hload
  obtain ⟨hb1, hr1⟩ := stub_load_slots env fuel _ _ _ _ hl
  rw [esp32_write_eq env fuel bank buffer offset count t1 stub1 hh hl] at h
  have hsc := regfree_scratch_alloc env (count + 1) t1 count
  revert hsc h
  cases scratch_alloc_loop env (count + 1) t1 count with
  | mk res t2 =>
    cases res with
    | none =>
      intro h hsc
      simp only [Option.some.injEq, Prod.mk.injEq] at h
      obtain ⟨-, rfl⟩ := h
      refine ⟨[], Or.inl rfl, ?_, ?_⟩
      · rw [(cleanup_slots _ _).1, hsc.bindings, hb1]; simp
      · rw [(cleanup_slots _ _).2, hsc.releases, hr1]; simp
    | some tb =>
      intro h hsc
      dsimp only at h
      cases hlp : write_loop env tb buffer count fuel
          (transfer_setup t2 stub1 STUB_CMD_FLASH_WRITE offset tb).1
          (transfer_setup t2 stub1 STUB_CMD_FLASH_WRITE offset tb).2 0 ERROR_OK with
      | none => rw [hlp] at h; simp at h
      | some r =>
        obtain ⟨rv3, t3, stub3⟩ := r
        rw [hlp] at h
        simp only [Option.some.injEq, Prod.mk.injEq] at h
        obtain ⟨-, rfl⟩ := h
        have hloop := regfree_write_loop env tb buffer count fuel _ _ _ _ _ hlp
        refine ⟨[5, 6, 7, 8], Or.inr rfl, ?_, ?_⟩
        · rw [(transfer_cleanup_slots _ _ _).1, hloop.bindings,
            (transfer_setup_slots_bound _ _ _ _ _).1, hsc.bindings, hb1]
        · rw [(transfer_cleanup_slots _ _ _).2, hloop.releases,
            (transfer_setup_slots_bound _ _ _ _ _).2, hsc.releases, hr1]
          simp

/-! ### Abort of an operation on a stub failure -/

theorem idle_plain (e : Event) (h : plain e = true) : idle e = true := by
  cases e with
  | alloc a s r => rfl
  | free a w => rfl
  | write_buffer x a b r => cases x <;> simp_all [plain, idle]
  | read_buffer x a b r => cases x <;> simp_all [plain, idle]
  | init_reg_param i n => rfl
  | destroy_reg_param i => rfl
  | invoke s => simp [plain] at h
  | run_algorithm s en r st => simp [plain] at h

theorem run_outcome_idle (e : Event) (h : idle e = true) : run_outcome e = none := by
  cases e with
  | run_algorithm s en r st => simp [idle] at h
  | _ => rfl

theorem invocation_idle (e : Event) (h : idle e = true) : invocation e = none := by
  cases e with
  | invoke s => simp [idle] at h
  | _ => rfl

theorem scratch_copy_idle (e : Event) (h : idle e = true) : scratch_copy e = none := by
  cases e with
  | write_buffer x a b r => cases x <;> simp_all [idle, scratch_copy]
  | _ => rfl

theorem host_read_idle (e : Event) (h : idle e = true) : host_read e = none := by
  cases e with
  | read_buffer x a b r => cases x <;> simp_all [idle, host_read]
  | _ => rfl

/-- What an idle extension of the trace leaves alone. -/
theorem Emits.idle_obs {t1 t2 : Target} (h : Emits idle t1 t2) :
    run_outcomes t2.trace = run_outcomes t1.trace ∧
    invocations t2.trace = invocations t1.trace ∧
    scratch_copies t2.trace = scratch_copies t1.trace ∧
    host_reads t2.trace = host_reads t1.trace :=
  ⟨h.filterMap_none run_outcome run_outcome_idle, h.filterMap_none invocation invocation_idle,
   h.filterMap_none scratch_copy scratch_copy_idle, h.filterMap_none host_read host_read_idle⟩

theorem idle_init (t : Target) (i : Nat) (n : String) : Emits idle t (init_reg_param t i n) :=
  Emits.eone _ rfl rfl

theorem idle_destroy (t : Target) (i : Nat) : Emits idle t (destroy_reg_param t i) :=
  Emits.eone _ rfl rfl

theorem idle_stub_load (env : Env) (fuel : Nat) (t : Target) (stub : esp32_flash_stub)
    (rv : Int) (t' : Target) (stub' : esp32_flash_stub)
    (h : esp32_stub_load env fuel t stub = some (rv, t', stub')) : Emits idle t t' := by
  obtain ⟨e1, b, e2, htr, q1, q2, hb, -⟩ := stub_load_trace env fuel t stub _ _ _ h
  refine ⟨e1 ++ b ++ e2, by rw [htr]; simp, ?_⟩
  intro e he
  simp only [List.mem_append] at he
  rcases he with (h1 | h1) | h1
  · exact idle_plain e (q1 e h1)
  · rcases hb with rfl | rfl
    · simp at h1
    · simp only [bootstrap_inits, List.mem_cons, List.mem_singleton, List.not_mem_nil,
        or_false] at h1
      rcases h1 with rfl | rfl | rfl | rfl | rfl <;> rfl
  · exact idle_plain e (q2 e h1)

theorem idle_cleanup (t : Target) (stub : esp32_flash_stub) :
    Emits idle t (esp32_stub_cleanup t stub) := by
  obtain ⟨e1, htr, q1⟩ := cleanup_trace t stub
  refine ⟨e1 ++ bootstrap_destroys, by rw [htr]; simp, ?_⟩
  intro e he
  simp only [List.mem_append] at he
  rcases he with h1 | h1
  · exact idle_plain e (q1 e h1)
  · simp only [bootstrap_destroys, List.mem_cons, List.mem_singleton, List.not_mem_nil,
      or_false] at h1
    rcases h1 with rfl | rfl | rfl | rfl | rfl <;> rfl

theorem idle_transfer_cleanup (t : Target) (stub : esp32_flash_stub) (tb : working_area) :
    Emits idle t (transfer_cleanup t stub tb) := by
  unfold transfer_cleanup
  exact (((((idle_destroy t _).etrans (idle_destroy _ _)).etrans (idle_destroy _ _)).etrans
    (idle_destroy _ _)).etrans (idle_cleanup _ _)).etrans
    ((emits_free_alt _ _ _).emono idle_plain)

theorem idle_transfer_setup (t : Target) (stub : esp32_flash_stub) (cmd offset : Nat)
    (tb : working_area) : Emits idle t (transfer_setup t stub cmd offset tb).1 := by
  unfold transfer_setup
  exact (((idle_init t _ _).etrans (idle_init _ _ _)).etrans (idle_init _ _ _)).etrans
    (idle_init _ _ _)

theorem idle_scratch_alloc (env : Env) (fuel : Nat) (t : Target) (n : Nat) :
    Emits idle t (scratch_alloc_loop env fuel t n).2 := by
  induction fuel generalizing t n with
  | zero => exact Emits.erefl _ t
  | succ fuel ih =>
    rw [scratch_alloc_loop]
    have h1 : Emits idle t (target_alloc_alt_working_area env t Area.scratch n).2 := by
      unfold target_alloc_alt_working_area
      cases env.alloc_alt_working_area t n <;> exact Emits.eone _ rfl rfl
    revert h1
    cases target_alloc_alt_working_area env t Area.scratch n with
    | mk res t1 =>
      cases res with
      | some wa => intro h1; exact h1
      | none =>
        intro h1
        dsimp only
        split_ifs
        · exact h1
        · exact h1.etrans (ih _ _)

/-- Outcome of one stub invocation as seen in the trace: one more invocation,
at most one more run, no flash data transfer; when the invocation succeeds the
run is there, it succeeded, and the result slot holds what it left. -/
theorem run_algo_outcome (env : Env) (t : Target) (stub : esp32_flash_stub) (n : Nat)
    (hs : stub_shape stub n) :
    ∃ X : List (Int × Nat),
      run_outcomes (esp32_run_algo env t stub).2.1.trace = run_outcomes t.trace ++ X ∧
      X.length ≤ 1 ∧
      (invocations (esp32_run_algo env t stub).2.1.trace).length
        = (invocations t.trace).length + 1 ∧
      scratch_copies (esp32_run_algo env t stub).2.1.trace = scratch_copies t.trace ∧
      host_reads (esp32_run_algo env t stub).2.1.trace = host_reads t.trace ∧
      ((esp32_run_algo env t stub).1 = ERROR_OK →
        X = [(ERROR_OK, buf_get_u32 (esp32_run_algo env t stub).2.2 STUB_ARGS_FUNC_START)]) := by
  obtain ⟨e1, r, e2, htr, q1, q2, hr, hok⟩ := run_algo_trace env t stub
  refine ⟨r.filterMap run_outcome, ?_, ?_, ?_, ?_, ?_, ?_⟩
  · unfold run_outcomes
    rw [htr]
    simp [List.filterMap_append, filterMap_none_of plain run_outcome run_outcome_plain e1 q1,
      filterMap_none_of plain run_outcome run_outcome_plain e2 q2, run_outcome]
  · rcases hr with rfl | ⟨rv, st, rfl⟩ <;> simp [run_outcome]
  · rw [run_algo_invocations]; simp
  · unfold scratch_copies
    rw [htr]
    rcases hr with rfl | ⟨rv, st, rfl⟩ <;>
      simp [List.filterMap_append, filterMap_none_of plain scratch_copy scratch_copy_plain e1 q1,
        filterMap_none_of plain scratch_copy scratch_copy_plain e2 q2, scratch_copy]
  · unfold host_reads
    rw [htr]
    rcases hr with rfl | ⟨rv, st, rfl⟩ <;>
      simp [List.filterMap_append, filterMap_none_of plain host_read host_read_plain e1 q1,
        filterMap_none_of plain host_read host_read_plain e2 q2, host_read]
  · intro h0
    obtain ⟨a2, hr2, hst⟩ := hok h0
    rw [hr2, hst]
    have hlen : STUB_ARGS_FUNC_START < stub.reg_params.length := by
      rw [hs.1]; decide
    simp [run_outcome, buf_get_u32, buf_set_u32, List.getD_eq_getElem?_getD, hlen]

theorem write_data_obs (env : Env) (t : Target) (k a : Nat) (b : List Nat) :
    run_outcomes (target_write_buffer env t (Xfer.flash_data k) a b).2.trace
      = run_outcomes t.trace ∧
    invocations (target_write_buffer env t (Xfer.flash_data k) a b).2.trace
      = invocations t.trace ∧
    host_reads (target_write_buffer env t (Xfer.flash_data k) a b).2.trace = host_reads t.trace ∧
    scratch_copies (target_write_buffer env t (Xfer.flash_data k) a b).2.trace
      = scratch_copies t.trace ++ [k] := by
  unfold target_write_buffer
  dsimp only
  split_ifs <;>
    simp [run_outcomes, invocations, host_reads, scratch_copies, run_outcome, invocation,
      host_read, scratch_copy]

theorem read_data_obs (env : Env) (t : Target) (k a n : Nat) :
    run_outcomes (target_read_buffer env t (Xfer.flash_data k) a n).2.2.trace
      = run_outcomes t.trace ∧
    invocations (target_read_buffer env t (Xfer.flash_data k) a n).2.2.trace
      = invocations t.trace ∧
    scratch_copies (target_read_buffer env t (Xfer.flash_data k) a n).2.2.trace
      = scratch_copies t.trace ∧
    host_reads (target_read_buffer env t (Xfer.flash_data k) a n).2.2.trace
      = host_reads t.trace ++ [(k, n)] := by
  unfold target_read_buffer
  dsimp only
  split_ifs <;>
    simp [run_outcomes, invocations, host_reads, scratch_copies, run_outcome, invocation,
      host_read, scratch_copy]

theorem short_last {α : Type} (X pre : List α) (y : α) (h : X.length ≤ 1)
    (he : X = pre ++ [y]) : pre = [] := by
  subst he
  cases pre with
  | nil => rfl
  | cons a l => simp at h

theorem write_loop_abort (env : Env) (tb : working_area) (buffer : List Nat) (count fuel : Nat)
    (t : Target) (stub : esp32_flash_stub) (total : Nat) (rv : Int)
    (r : Int × Target × esp32_flash_stub) (n : Nat) (hs : stub_shape stub n)
    (h : write_loop env tb buffer count fuel t stub total rv = some r) :
    ∃ N : List (Int × Nat),
      run_outcomes r.2.1.trace = run_outcomes t.trace ++ N ∧
      (∀ i, i + 1 < N.length → N[i]? = some (ERROR_OK, 0)) ∧
      host_reads r.2.1.trace = host_reads t.trace ∧
      (∀ pre s, N = pre ++ [(ERROR_OK, s)] → s ≠ 0 →
        r.1 ≠ ERROR_OK ∧
        (invocations r.2.1.trace).length = (invocations t.trace).length + (pre.length + 1) ∧
        (scratch_copies r.2.1.trace).length
          = (scratch_copies t.trace).length + (pre.length + 1)) := by
  induction fuel generalizing t stub total rv with
  | zero => simp [write_loop] at h
  | succ fuel ih =>
    rw [write_loop] at h
    dsimp only at h
    have hs1 := buf_set_u32_shape stub (STUB_ARGS_FUNC_START + 2) (chunk_size tb count total) n hs
    obtain ⟨w1, w2, w3, w4⟩ := write_data_obs env t total tb.address
      ((buffer.drop total).take (chunk_size tb count total))
    obtain ⟨X, x1, x2, x3, x4, x5, x6⟩ := run_algo_outcome env
      (target_write_buffer env t (Xfer.flash_data total) tb.address
        ((buffer.drop total).take (chunk_size tb count total))).2
      (buf_set_u32 stub (STUB_ARGS_FUNC_START + 2) (chunk_size tb count total)) n hs1
    split_ifs at h with hlt hwr hrn hst
    · simp only [Option.some.injEq] at h; subst h
      exact ⟨[], by rw [w1]; simp, by simp, w3, by intro pre s hN; simp at hN⟩
    · simp only [Option.some.injEq] at h; subst h
      refine ⟨X, by rw [x1, w1], ?_, by rw [x5, w3], ?_⟩
      · intro i hi; omega
      · intro pre s hN hne
        have hp := short_last X pre _ x2 hN
        subst hp
        exact ⟨hrn, by rw [x3, w2]; simp, by rw [x4, w4]; simp⟩
    · simp only [Option.some.injEq] at h; subst h
      refine ⟨X, by rw [x1, w1], ?_, by rw [x5, w3], ?_⟩
      · intro i hi; omega
      · intro pre s hN hne
        have hp := short_last X pre _ x2 hN
        subst hp
        exact ⟨show ERROR_FAIL ≠ ERROR_OK by decide, by rw [x3, w2]; simp, by rw [x4, w4]; simp⟩
    · have hrn' := not_not.mp hrn
      have hst' := not_not.mp hst
      have hX := x6 hrn'
      rw [hst'] at hX
      obtain ⟨N, n1, n2, n3, n4⟩ := ih _ _ _ _ (run_algo_shape env _ _ n hs1) h
      refine ⟨(ERROR_OK, 0) :: N, ?_, ?_, by rw [n3, x5, w3], ?_⟩
      · rw [n1, x1, w1, hX]; simp [STUB_ERR_OK]
      · intro i hi
        cases i with
        | zero => simp
        | succ j =>
          simp only [List.length_cons] at hi
          simpa using n2 j (by omega)
      · intro pre s hN hne
        cases pre with
        | nil =>
          simp only [List.nil_append, List.cons.injEq, Prod.mk.injEq] at hN
          exact absurd hN.1.2.symm hne
        | cons p pre' =>
          simp only [List.cons_append, List.cons.injEq] at hN
          obtain ⟨m1, m2, m3⟩ := n4 pre' s hN.2 hne
          refine ⟨m1, ?_, ?_⟩
          · rw [m2, x3, w2]; simp only [List.length_cons]; omega
          · rw [m3, x4, w4]; simp only [List.length_cons, List.length_append,
              List.length_singleton, List.length_nil]; omega
    · simp only [Option.some.injEq] at h; subst h
      exact ⟨[], by simp, by simp, rfl, by intro pre s hN; simp at hN⟩

theorem read_loop_abort (env : Env) (tb : working_area) (count fuel : Nat)
    (t : Target) (stub : esp32_flash_stub) (buffer : List Nat) (total : Nat) (rv : Int)
    (r : Int × Target × esp32_flash_stub × List Nat) (n : Nat) (hs : stub_shape stub n)
    (h : read_loop env tb count fuel t stub buffer total rv = some r) :
    ∃ N : List (Int × Nat),
      run_outcomes r.2.1.trace = run_outcomes t.trace ++ N ∧
      (∀ i, i + 1 < N.length → N[i]? = some (ERROR_OK, 0)) ∧
      scratch_copies r.2.1.trace = scratch_copies t.trace ∧
      (∀ pre s, N = pre ++ [(ERROR_OK, s)] → s ≠ 0 →
        r.1 ≠ ERROR_OK ∧
        (invocations r.2.1.trace).length = (invocations t.trace).length + (pre.length + 1) ∧
        (host_reads r.2.1.trace).length = (host_reads t.trace).length + pre.length) := by
  induction fuel generalizing t stub buffer total rv with
  | zero => simp [read_loop] at h
  | succ fuel ih =>
    rw [read_loop] at h
    dsimp only at h
    have hs1 := buf_set_u32_shape stub (STUB_ARGS_FUNC_START + 2) (chunk_size tb count total) n hs
    obtain ⟨X, x1, x2, x3, x4, x5, x6⟩ := run_algo_outcome env t
      (buf_set_u32 stub (STUB_ARGS_FUNC_START + 2) (chunk_size tb count total)) n hs1
    obtain ⟨w1, w2, w3, w4⟩ := read_data_obs env (esp32_run_algo env t
      (buf_set_u32 stub (STUB_ARGS_FUNC_START + 2) (chunk_size tb count total))).2.1 total
      tb.address (chunk_size tb count total)
    split_ifs at h with hlt hrn hst hrd
    · simp only [Option.some.injEq] at h; subst h
      refine ⟨X, x1, ?_, x4, ?_⟩
      · intro i hi; omega
      · intro pre s hN hne
        have hp := short_last X pre _ x2 hN
        subst hp
        exact ⟨hrn, by rw [x3]; simp, by rw [x5]; simp⟩
    · simp only [Option.some.injEq] at h; subst h
      refine ⟨X, x1, ?_, x4, ?_⟩
      · intro i hi; omega
      · intro pre s hN hne
        have hp := short_last X pre _ x2 hN
        subst hp
        exact ⟨show ERROR_FAIL ≠ ERROR_OK by decide, by rw [x3]; simp, by rw [x5]; simp⟩
    · have hrn' := not_not.mp hrn
      have hst' := not_not.mp hst
      have hX := x6 hrn'
      rw [hst'] at hX
      simp only [Option.some.injEq] at h; subst h
      refine ⟨X, by rw [w1, x1], ?_, by rw [w3, x4], ?_⟩
      · intro i hi; omega
      · intro pre s hN hne
        have hp := short_last X pre _ x2 hN
        subst hp
        rw [hX] at hN
        simp only [List.nil_append, List.cons.injEq, Prod.mk.injEq] at hN
        exact absurd hN.1.2.symm hne
    · have hrn' := not_not.mp hrn
      have hst' := not_not.mp hst
      have hX := x6 hrn'
      rw [hst'] at hX
      obtain ⟨N, n1, n2, n3, n4⟩ := ih _ _ _ _ _ (run_algo_shape env _ _ n hs1) h
      refine ⟨(ERROR_OK, 0) :: N, ?_, ?_, by rw [n3, w3, x4], ?_⟩
      · rw [n1, w1, x1, hX]; simp [STUB_ERR_OK]
      · intro i hi
        cases i with
        | zero => simp
        | succ j =>
          simp only [List.length_cons] at hi
          simpa using n2 j (by omega)
      · intro pre s hN hne
        cases pre with
        | nil =>
          simp only [List.nil_append, List.cons.injEq, Prod.mk.injEq] at hN
          exact absurd hN.1.2.symm hne
        | cons p pre' =>
          simp only [List.cons_append, List.cons.injEq] at hN
          obtain ⟨m1, m2, m3⟩ := n4 pre' s hN.2 hne
          refine ⟨m1, ?_, ?_⟩
          · rw [m2, w2, x3]; simp only [List.length_cons]; omega
          · rw [m3, w4]; simp only [List.length_cons, List.length_append,
              List.length_singleton, List.length_nil]; rw [x5]; omega
    · simp only [Option.some.injEq] at h; subst h
      exact ⟨[], by simp, by simp, rfl, by intro pre s hN; simp at hN⟩

theorem erase_abort (env : Env) (fuel : Nat) (bank : flash_bank) (first last : Int)
    (rv : Int) (t' : Target)
    (h : esp32_erase env fuel bank first last = some (rv, t')) :
    ∃ N : List (Int × Nat),
      run_outcomes t'.trace = run_outcomes bank.target.trace ++ N ∧ N.length ≤ 1 ∧
      (∀ s, N = [(ERROR_OK, s)] → s ≠ 0 →
        rv ≠ ERROR_OK ∧
        (invocations t'.trace).length = (invocations bank.target.trace).length + 1 ∧
        releases t'.trace = releases bank.target.trace ++ [5, 6, 7, 4, 3, 2, 1, 0]) := by
  unfold esp32_erase at h
  split_ifs at h with hh hr
  · simp only [Option.some.injEq, Prod.mk.injEq] at h
    obtain ⟨-, rfl⟩ := h
    exact ⟨[], by simp, by simp, by intro s hN; simp at hN⟩
  · cases hl : esp32_stub_load env fuel bank.target (stub_init (STUB_ARGS_FUNC_START + 3)) with
    | none => rw [hl] at h; simp at h
    | some r =>
      obtain ⟨rv1, t1, stub1⟩ := r
      rw [hl] at h
      dsimp only at h
      have hi1 := (idle_stub_load env fuel _ _ _ _ _ hl).idle_obs
      have hsh1 := (stub_load_spec env fuel _ _ _ _ _ hl).2.1 _ (stub_init_shape _)
      split_ifs at h with hrv1
      · simp only [Option.some.injEq, Prod.mk.injEq] at h
        obtain ⟨-, rfl⟩ := h
        exact ⟨[], by rw [hi1.1]; simp, by simp, by intro s hN; simp at hN⟩
      · have hrv : rv1 = ERROR_OK := not_not.mp hrv1
        subst hrv
        obtain ⟨hb1, hr1⟩ := stub_load_slots env fuel _ _ _ _ hl
        simp only [Option.some.injEq, Prod.mk.injEq] at h
        obtain ⟨rfl, rfl⟩ := h
        have hs4 : stub_shape (buf_set_u32 (buf_set_u32 (buf_set_u32 stub1
            (STUB_ARGS_FUNC_START + 0) STUB_CMD_FLASH_ERASE) (STUB_ARGS_FUNC_START + 1)
            ((first * SPI_FLASH_SEC_SIZE) % 2 ^ 32).toNat) (STUB_ARGS_FUNC_START + 2)
            (((last - first + 1) * SPI_FLASH_SEC_SIZE) % 2 ^ 32).toNat)
            (STUB_ARGS_FUNC_START + 3) :=
          buf_set_u32_shape _ _ _ _ (buf_set_u32_shape _ _ _ _ (buf_set_u32_shape _ _ _ _ hsh1))
        obtain ⟨X, x1, x2, x3, x4, x5, x6⟩ := run_algo_outcome env
          (init_reg_param (init_reg_param (init_reg_param t1
            (STUB_ARGS_FUNC_START + 0) "a2") (STUB_ARGS_FUNC_START + 1) "a3")
            (STUB_ARGS_FUNC_START + 2) "a4") _ _ hs4
        have hrun := regfree_run_algo env (init_reg_param (init_reg_param (init_reg_param t1
            (STUB_ARGS_FUNC_START + 0) "a2") (STUB_ARGS_FUNC_START + 1) "a3")
            (STUB_ARGS_FUNC_START + 2) "a4")
          (buf_set_u32 (buf_set_u32 (buf_set_u32 stub1 (STUB_ARGS_FUNC_START + 0)
            STUB_CMD_FLASH_ERASE) (STUB_ARGS_FUNC_START + 1)
            ((first * SPI_FLASH_SEC_SIZE) % 2 ^ 32).toNat) (STUB_ARGS_FUNC_START + 2)
            (((last - first + 1) * SPI_FLASH_SEC_SIZE) % 2 ^ 32).toNat)
        have hpre := (((idle_init t1 (STUB_ARGS_FUNC_START + 0) "a2").etrans
          (idle_init _ (STUB_ARGS_FUNC_START + 1) "a3")).etrans
          (idle_init _ (STUB_ARGS_FUNC_START + 2) "a4")).idle_obs
        have hpost := ((((idle_destroy (esp32_run_algo env (init_reg_param (init_reg_param
            (init_reg_param t1 (STUB_ARGS_FUNC_START + 0) "a2") (STUB_ARGS_FUNC_START + 1) "a3")
            (STUB_ARGS_FUNC_START + 2) "a4")
          (buf_set_u32 (buf_set_u32 (buf_set_u32 stub1 (STUB_ARGS_FUNC_START + 0)
            STUB_CMD_FLASH_ERASE) (STUB_ARGS_FUNC_START + 1)
            ((first * SPI_FLASH_SEC_SIZE) % 2 ^ 32).toNat) (STUB_ARGS_FUNC_START + 2)
            (((last - first + 1) * SPI_FLASH_SEC_SIZE) % 2 ^ 32).toNat)).2.1
          (STUB_ARGS_FUNC_START + 0)).etrans
          (idle_destroy _ (STUB_ARGS_FUNC_START + 1))).etrans
          (idle_destroy _ (STUB_ARGS_FUNC_START + 2))).etrans
          (idle_cleanup _ (esp32_run_algo env (init_reg_param (init_reg_param
            (init_reg_param t1 (STUB_ARGS_FUNC_START + 0) "a2") (STUB_ARGS_FUNC_START + 1) "a3")
            (STUB_ARGS_FUNC_START + 2) "a4")
          (buf_set_u32 (buf_set_u32 (buf_set_u32 stub1 (STUB_ARGS_FUNC_START + 0)
            STUB_CMD_FLASH_ERASE) (STUB_ARGS_FUNC_START + 1)
            ((first * SPI_FLASH_SEC_SIZE) % 2 ^ 32).toNat) (STUB_ARGS_FUNC_START + 2)
            (((last - first + 1) * SPI_FLASH_SEC_SIZE) % 2 ^ 32).toNat)).2.2)).idle_obs
        refine ⟨X, by rw [hpost.1, x1, hpre.1, hi1.1], x2, ?_⟩
        intro s hN hne
        refine ⟨?_, by rw [hpost.2.1, x3, hpre.2.1, hi1.2.1], ?_⟩
        · unfold run_status
          split_ifs with hc1 hc2
          · exact hc1
          · decide
          · have hX := x6 (not_not.mp hc1)
            rw [hN] at hX
            simp only [List.cons.injEq, Prod.mk.injEq, true_and, and_true] at hX
            rw [← hX] at hc2
            exact absurd (not_not.mp hc2) hne
        · rw [(cleanup_slots _ _).2]
          simp only [(releases_destroy _ _).2, hrun.releases, (bindings_init _ _ _).2, hr1]
          simp [STUB_ARGS_FUNC_START]

theorem read_abort (env : Env) (fuel : Nat) (bank : flash_bank) (buffer : List Nat)
    (offset count : Nat) (rv : Int) (t' : Target) (out : List Nat)
    (h : esp32_read env fuel bank buffer offset count = some (rv, t', out)) :
    ∃ N : List (Int × Nat),
      run_outcomes t'.trace = run_outcomes bank.target.trace ++ N ∧
      (∀ i, i + 1 < N.length → N[i]? = some (ERROR_OK, 0)) ∧
      (∀ pre s, N = pre ++ [(ERROR_OK, s)] → s ≠ 0 →
        rv ≠ ERROR_OK ∧
        (invocations t'.trace).length
          = (invocations bank.target.trace).length + (pre.length + 1) ∧
        (host_reads t'.trace).length = (host_reads bank.target.trace).length + pre.length ∧
        releases t'.trace = releases bank.target.trace ++ [5, 6, 7, 8, 4, 3, 2, 1, 0]) := by
  unfold esp32_read at h
  split_ifs at h with hh
  · simp only [Option.some.injEq, Prod.mk.injEq] at h
    obtain ⟨-, rfl, -⟩ := h
    exact ⟨[], by simp, by simp, by intro pre s hN; simp at hN⟩
  · cases hl : esp32_stub_load env fuel bank.target (stub_init (STUB_ARGS_FUNC_START + 4)) with
    | none => rw [hl] at h; simp at h
    | some r =>
      obtain ⟨rv1, t1, stub1⟩ := r
      rw [hl] at h
      dsimp only at h
      have hi1 := (idle_stub_load env fuel _ _ _ _ _ hl).idle_obs
      have hsh1 := (stub_load_spec env fuel _ _ _ _ _ hl).2.1 _ (stub_init_shape _)
      split_ifs at h with hrv1
      · simp only [Option.some.injEq, Prod.mk.injEq] at h
        obtain ⟨-, rfl, -⟩ := h
        exact ⟨[], by rw [hi1.1]; simp, by simp, by intro pre s hN; simp at hN⟩
      · have hrv : rv1 = ERROR_OK := not_not.mp hrv1
        subst hrv
        obtain ⟨hb1, hr1⟩ := stub_load_slots env fuel _ _ _ _ hl
        have hsc := (idle_scratch_alloc env (count + 1) t1 count).idle_obs
        have hsr := regfree_scratch_alloc env (count + 1) t1 count
        revert hsc hsr h
        cases scratch_alloc_loop env (count + 1) t1 count with
        | mk res t2 =>
          cases res with
          | none =>
            intro h hsc hsr
            simp only [Option.some.injEq, Prod.mk.injEq] at h
            obtain ⟨-, rfl, -⟩ := h
            refine ⟨[], ?_, by simp, by intro pre s hN; simp at hN⟩
            rw [(idle_cleanup _ _).idle_obs.1, hsc.1, hi1.1]; simp
          | some tb =>
            intro h hsc hsr
            dsimp only at h
            cases hlp : read_loop env tb count fuel
                (transfer_setup t2 stub1 STUB_CMD_FLASH_READ offset tb).1
                (transfer_setup t2 stub1 STUB_CMD_FLASH_READ offset tb).2 buffer 0 ERROR_OK with
            | none => rw [hlp] at h; simp at h
            | some r =>
              obtain ⟨rv3, t3, stub3, b3⟩ := r
              rw [hlp] at h
              simp only [Option.some.injEq, Prod.mk.injEq] at h
              obtain ⟨rfl, rfl, -⟩ := h
              have hsu := (idle_transfer_setup t2 stub1 STUB_CMD_FLASH_READ offset tb).idle_obs
              have hcl := (idle_transfer_cleanup t3 stub3 tb).idle_obs
              have hloop := regfree_read_loop env tb count fuel _ _ _ _ _ _ hlp
              obtain ⟨N, n1, n2, n3, n4⟩ := read_loop_abort env tb count fuel _ _ _ _ _ _ _
                (transfer_setup_shape t2 stub1 STUB_CMD_FLASH_READ offset _ tb hsh1) hlp
              refine ⟨N, by rw [hcl.1, n1, hsu.1, hsc.1, hi1.1], n2, ?_⟩
              intro pre s hN hne
              obtain ⟨m1, m2, m3⟩ := n4 pre s hN hne
              refine ⟨m1, by rw [hcl.2.1, m2, hsu.2.1, hsc.2.1, hi1.2.1],
                by rw [hcl.2.2.2, m3, hsu.2.2.2, hsc.2.2.2, hi1.2.2.2], ?_⟩
              rw [(transfer_cleanup_slots _ _ _).2, hloop.releases,
                (transfer_setup_slots_bound _ _ _ _ _).2, hsr.releases, hr1]

theorem write_abort (env : Env) (fuel : Nat) (bank : flash_bank) (buffer : List Nat)
    (offset count : Nat) (rv : Int) (t' : Target)
    (h : esp32_write env fuel bank buffer offset count = some (rv, t')) :
    ∃ N : List (Int × Nat),
      run_outcomes t'.trace = run_outcomes bank.target.trace ++ N ∧
      (∀ i, i + 1 < N.length → N[i]? = some (ERROR_OK, 0)) ∧
      (∀ pre s, N = pre ++ [(ERROR_OK, s)] → s ≠ 0 →
        rv ≠ ERROR_OK ∧
        (invocations t'.trace).length
          = (invocations bank.target.trace).length + (pre.length + 1) ∧
        (scratch_copies t'.trace).length
          = (scratch_copies bank.target.trace).length + (pre.length + 1) ∧
        releases t'.trace = releases bank.target.trace ++ [5, 6, 7, 8, 4, 3, 2, 1, 0]) := by
  unfold esp32_write at h
  split_ifs at h with hh
  · simp only [Option.some.injEq, Prod.mk.injEq] at h
    obtain ⟨-, rfl⟩ := h
    exact ⟨[], by simp, by simp, by intro pre s hN; simp at hN⟩
  · cases hl : esp32_stub_load env fuel bank.target (stub_init (STUB_ARGS_FUNC_START + 4)) with
    | none => rw [hl] at h; simp at h
    | some r =>
      obtain ⟨rv1, t1, stub1⟩ := r
      rw [hl] at h
      dsimp only at h
      have hi1 := (idle_stub_load env fuel _ _ _ _ _ hl).idle_obs
      have hsh1 := (stub_load_spec env fuel _ _ _ _ _ hl).2.1 _ (stub_init_shape _)
      split_ifs at h with hrv1
      · simp only [Option.some.injEq, Prod.mk.injEq] at h
        obtain ⟨-, rfl⟩ := h
        exact ⟨[], by rw [hi1.1]; simp, by simp, by intro pre s hN; simp at hN⟩
      · have hrv : rv1 = ERROR_OK := not_not.mp hrv1
        subst hrv
        obtain ⟨hb1, hr1⟩ := stub_load_slots env fuel _ _ _ _ hl
        have hsc := (idle_scratch_alloc env (count + 1) t1 count).idle_obs
        have hsr := regfree_scratch_alloc env (count + 1) t1 count
        revert hsc hsr h
        cases scratch_alloc_loop env (count + 1) t1 count with
        | mk res t2 =>
          cases res with
          | none =>
            intro h hsc hsr
            simp only [Option.some.injEq, Prod.mk.injEq] at h
            obtain ⟨-, rfl⟩ := h
            refine ⟨[], ?_, by simp, by intro pre s hN; simp at hN⟩
            rw [(idle_cleanup _ _).idle_obs.1, hsc.1, hi1.1]; simp
          | some tb =>
            intro h hsc hsr
            dsimp only at h
            cases hlp : write_loop env tb buffer count fuel
                (transfer_setup t2 stub1 STUB_CMD_FLASH_WRITE offset tb).1
                (transfer_setup t2 stub1 STUB_CMD_FLASH_WRITE offset tb).2 0 ERROR_OK with
            | none => rw [hlp] at h; simp at h
            | some r =>
              obtain ⟨rv3, t3, stub3⟩ := r
              rw [hlp] at h
              simp only [Option.some.injEq, Prod.mk.injEq] at h
              obtain ⟨rfl, rfl⟩ := h
              have hsu := (idle_transfer_setup t2 stub1 STUB_CMD_FLASH_WRITE offset tb).idle_obs
              have hcl := (idle_transfer_cleanup t3 stub3 tb).idle_obs
              have hloop := regfree_write_loop env tb buffer count fuel _ _ _ _ _ hlp
              obtain ⟨N, n1, n2, n3, n4⟩ := write_loop_abort env tb buffer count fuel _ _ _ _ _ _
                (transfer_setup_shape t2 stub1 STUB_CMD_FLASH_WRITE offset _ tb hsh1) hlp
              refine ⟨N, by rw [hcl.1, n1, hsu.1, hsc.1, hi1.1], n2, ?_⟩
              intro pre s hN hne
              obtain ⟨m1, m2, m3⟩ := n4 pre s hN hne
              refine ⟨m1, by rw [hcl.2.1, m2, hsu.2.1, hsc.2.1, hi1.2.1],
                by rw [hcl.2.2.1, m3, hsu.2.2.1, hsc.2.2.1, hi1.2.2.1], ?_⟩
              rw [(transfer_cleanup_slots _ _ _).2, hloop.releases,
                (transfer_setup_slots_bound _ _ _ _ _).2, hsr.releases, hr1]

theorem abort_shape (N pre post : List (Int × Nat)) (s : Nat)
    (hN : N = pre ++ [(ERROR_OK, s)] ++ post)
    (h1 : ∀ i, i + 1 < N.length → N[i]? = some (ERROR_OK, 0)) (hs : s ≠ 0) :
    post = [] ∧ ∀ x ∈ pre, x = (ERROR_OK, 0) := by
  subst hN
  constructor
  · by_contra hp
    have hlen : 0 < post.length := List.length_pos.mpr hp
    have := h1 pre.length (by simp; omega)
    rw [List.append_assoc, List.getElem?_append_right (le_refl _)] at this
    simp at this
    exact hs this
  · intro x hx
    obtain ⟨i, hi, rfl⟩ := List.mem_iff_getElem.mp hx
    have := h1 i (by simp; omega)
    rw [List.append_assoc, List.getElem?_append_left hi] at this
    simpa [List.getElem?_eq_getElem hi] using this

/-- C11: for every erase, read or write, if some run of the stub succeeds as a
run and leaves a non-zero value in the result slot, then it is the last run of
the operation and every run before it left zero, the operation returns a
failure, the number of stub invocations is the index of that run plus one, no
data is copied after it (a write has made one copy per invocation, a read one
copy per earlier run, so not the failing chunk), and the cleanup releases the
command slots and the bootstrap slots. -/
theorem stub_failure_aborts (env : Env) (fuel : Nat) (bank : flash_bank) (buffer : List Nat)
    (offset count : Nat) (first last : Int) (rv : Int) (t' : Target) (out : List Nat)
    (pre post : List (Int × Nat)) (s : Nat) (hs : s ≠ 0)
    (hrun : run_outcomes t'.trace
      = run_outcomes bank.target.trace ++ pre ++ [(ERROR_OK, s)] ++ post) :
    (esp32_erase env fuel bank first last = some (rv, t') →
      pre = [] ∧ post = [] ∧ rv ≠ ERROR_OK ∧
      (invocations t'.trace).length = (invocations bank.target.trace).length + 1 ∧
      releases t'.trace = releases bank.target.trace ++ [5, 6, 7, 4, 3, 2, 1, 0]) ∧
    (esp32_read env fuel bank buffer offset count = some (rv, t', out) →
      post = [] ∧ (∀ x ∈ pre, x = (ERROR_OK, 0)) ∧ rv ≠ ERROR_OK ∧
      (invocations t'.trace).length
        = (invocations bank.target.trace).length + (pre.length + 1) ∧
      (host_reads t'.trace).length = (host_reads bank.target.trace).length + pre.length ∧
      releases t'.trace = releases bank.target.trace ++ [5, 6, 7, 8, 4, 3, 2, 1, 0]) ∧
    (esp32_write env fuel bank buffer offset count = some (rv, t') →
      post = [] ∧ (∀ x ∈ pre, x = (ERROR_OK, 0)) ∧ rv ≠ ERROR_OK ∧
      (invocations t'.trace).length
        = (invocations bank.target.trace).length + (pre.length + 1) ∧
      (scratch_copies t'.trace).length
        = (scratch_copies bank.target.trace).length + (pre.length + 1) ∧
      releases t'.trace = releases bank.target.trace ++ [5, 6, 7, 8, 4, 3, 2, 1, 0]) := by
  refine ⟨fun h => ?_, fun h => ?_, fun h => ?_⟩
  · obtain ⟨N, n1, n2, n3⟩ := erase_abort env fuel bank first last rv t' h
    rw [n1, List.append_assoc, List.append_assoc] at hrun
    have hN := List.append_cancel_left hrun
    have hpre : pre = [] := by
      cases pre with
      | nil => rfl
      | cons a l => rw [hN] at n2; simp at n2
    subst hpre
    have hpost : post = [] := by
      cases post with
      | nil => rfl
      | cons a l => rw [hN] at n2; simp at n2
    subst hpost
    exact ⟨rfl, rfl, n3 s (by simpa using hN) hs⟩
  · obtain ⟨N, n1, n2, n3⟩ := read_abort env fuel bank buffer offset count rv t' out h
    rw [n1, List.append_assoc, List.append_assoc] at hrun
    have hN : N = pre ++ [(ERROR_OK, s)] ++ post := by
      rw [List.append_assoc]; exact List.append_cancel_left hrun
    obtain ⟨hpost, hpre⟩ := abort_shape N pre post s hN n2 hs
    subst hpost
    exact ⟨rfl, hpre, n3 pre s (by simpa using hN) hs⟩
  · obtain ⟨N, n1, n2, n3⟩ := write_abort env fuel bank buffer offset count rv t' h
    rw [n1, List.append_assoc, List.append_assoc] at hrun
    have hN : N = pre ++ [(ERROR_OK, s)] ++ post := by
      rw [List.append_assoc]; exact List.append_cancel_left hrun
    obtain ⟨hpost, hpre⟩ := abort_shape N pre post s hN n2 hs
    subst hpost
    exact ⟨rfl, hpre, n3 pre s (by simpa using hN) hs⟩

set_option maxRecDepth 100000 in
/-- Witness of C11: a read of eight bytes through a scratch area of four bytes
whose second run reports status 5. -/
theorem stub_failure_aborts_witness :
    demo_faulty_read.1 ≠ ERROR_OK ∧
    (invocations demo_faulty_read.2.1.trace).length = 0 + (1 + 1) ∧
    (host_reads demo_faulty_read.2.1.trace).length = 0 + 1 :=
  have h := (stub_failure_aborts (faulty_env 1032) 9 demo_halted_bank (List.replicate 8 0)
    4096 8 0 0 demo_faulty_read.1 demo_faulty_read.2.1 demo_faulty_read.2.2
    [(ERROR_OK, 0)] [] 5 (by decide) (by decide)).2.1 rfl
  ⟨h.2.2.1, h.2.2.2.1, h.2.2.2.2.1⟩

set_option maxRecDepth 100000 in
/-- C12, the code at a failing input: a write of eight bytes through a scratch
area of four bytes invokes the stub twice; the first invocation carries the
write opcode 2 in the result slot, the second carries 0, the status the first
run left there, while the address slot holds 4096, the size slot 4 and the
buffer slot the scratch address both times. -/
theorem chunked_write_loses_opcode :
    invocations demo_chunked.trace
      = [[0x40090000, 0x3FFE0400, 0, 1, 0x60021, 2, 4096, 4, 0x3FFE0404],
         [0x40090000, 0x3FFE0400, 0, 1, 0x60021, 0, 4096, 4, 0x3FFE0404]] := by
  decide

/-- C13: for every erase, read or write on a halted target whose stub loads
(so that the operation ends in its cleanup), every slot that was bound is
released exactly once: the command slots first, in the order of their binding
(5, 6, 7 and, for read and write with a granted scratch area, 8), then the
bootstrap slots in reverse order of their binding (4 down to 0). -/
theorem slots_released_once (env : Env) (fuel : Nat) (bank : flash_bank) (buffer : List Nat)
    (offset count : Nat) (first last : Int) (rv : Int) (t' : Target) (out : List Nat)
    (hh : bank.target.state = target_state.TARGET_HALTED) :
    (esp32_erase env fuel bank first last = some (rv, t') →
      (esp32_stub_load env fuel bank.target (stub_init (STUB_ARGS_FUNC_START + 3))).map
        Prod.fst = some ERROR_OK →
      bindings t'.trace = bindings bank.target.trace ++ [0, 1, 2, 3, 4, 5, 6, 7] ∧
      releases t'.trace = releases bank.target.trace ++ [5, 6, 7, 4, 3, 2, 1, 0]) ∧
    (esp32_read env fuel bank buffer offset count = some (rv, t', out) →
      (esp32_stub_load env fuel bank.target (stub_init (STUB_ARGS_FUNC_START + 4))).map
        Prod.fst = some ERROR_OK →
      ∃ cmd : List Nat, (cmd = [] ∨ cmd = [5, 6, 7, 8]) ∧
        bindings t'.trace = bindings bank.target.trace ++ [0, 1, 2, 3, 4] ++ cmd ∧
        releases t'.trace = releases bank.target.trace ++ cmd ++ [4, 3, 2, 1, 0]) ∧
    (esp32_write env fuel bank buffer offset count = some (rv, t') →
      (esp32_stub_load env fuel bank.target (stub_init (STUB_ARGS_FUNC_START + 4))).map
        Prod.fst = some ERROR_OK →
      ∃ cmd : List Nat, (cmd = [] ∨ cmd = [5, 6, 7, 8]) ∧
        bindings t'.trace = bindings bank.target.trace ++ [0, 1, 2, 3, 4] ++ cmd ∧
        releases t'.trace = releases bank.target.trace ++ cmd ++ [4, 3, 2, 1, 0]) :=
  ⟨fun h hload => erase_slots env fuel bank first last rv t' h hh hload,
   fun h hload => read_slots env fuel bank buffer offset count rv t' out h hh hload,
   fun h hload => write_slots env fuel bank buffer offset count rv t' h hh hload⟩

set_option maxRecDepth 100000 in
/-- Witness of C13: erase of sector 0 of the probed demo bank. -/
theorem slots_released_once_witness :
    bindings demo_erased.2.trace
      = bindings demo_probed_bank.target.trace ++ [0, 1, 2, 3, 4, 5, 6, 7] ∧
    releases demo_erased.2.trace
      = releases demo_probed_bank.target.trace ++ [5, 6, 7, 4, 3, 2, 1, 0] :=
  (slots_released_once (demo_env 4096) 9 demo_probed_bank [] 0 0 0 0 demo_erased.1
    demo_erased.2 [] rfl).1 rfl (by decide)

set_option maxRecDepth 100000 in
/-- Counterexample to C13 as stated: the erase of sector 0 of the probed demo
bank binds the slots 0 to 7 in this order and releases them in the order 5, 6,
7, 4, 3, 2, 1, 0, which is not the reverse of the binding order. -/
theorem release_order_not_reversed :
    bindings demo_erased.2.trace = [0, 1, 2, 3, 4, 5, 6, 7] ∧
    releases demo_erased.2.trace = [5, 6, 7, 4, 3, 2, 1, 0] ∧
    releases demo_erased.2.trace ≠ (bindings demo_erased.2.trace).reverse := by
  decide

/-! ### Address mismatch in the stub load -/

theorem write_buffer_pools (env : Env) (t : Target) (x : Xfer) (a : Nat) (b : List Nat) :
    (target_write_buffer env t x a b).2.areas = t.areas ∧
      (target_write_buffer env t x a b).2.alt_areas = t.alt_areas := by
  unfold target_write_buffer
  dsimp only
  split_ifs <;> exact ⟨rfl, rfl⟩

theorem section_copy_loop_pools (env : Env) (i : Nat) (sec : imagesection) (fuel : Nat)
    (t : Target) (w : Nat) (rv : Int) (t' : Target)
    (h : section_copy_loop env i sec fuel t w = some (rv, t')) :
    t'.areas = t.areas ∧ t'.alt_areas = t.alt_areas := by
  induction fuel generalizing t w with
  | zero => simp [section_copy_loop] at h
  | succ fuel ih =>
    rw [section_copy_loop] at h
    dsimp only at h
    have hw := fun b => write_buffer_pools env t (Xfer.sec i) (u32 (sec.base_address + w)) b
    split_ifs at h
    all_goals first
      | (simp only [Option.some.injEq, Prod.mk.injEq] at h
         obtain ⟨_, rfl⟩ := h
         first | exact ⟨rfl, rfl⟩ | exact hw _)
      | (obtain ⟨a, b⟩ := ih _ _ h
         exact ⟨a.trans (hw _).1, b.trans (hw _).2⟩)

theorem section_copy_loop_other (env : Env) (i k : Nat) (hik : i ≠ k) (sec : imagesection)
    (fuel : Nat) (t : Target) (w : Nat) (rv : Int) (t' : Target)
    (h : section_copy_loop env i sec fuel t w = some (rv, t')) :
    section_writes k t'.trace = section_writes k t.trace := by
  induction fuel generalizing t w with
  | zero => simp [section_copy_loop] at h
  | succ fuel ih =>
    rw [section_copy_loop] at h
    dsimp only at h
    have hw : ∀ b, section_writes k (target_write_buffer env t (Xfer.sec i)
        (u32 (sec.base_address + w)) b).2.trace = section_writes k t.trace := by
      intro b
      unfold target_write_buffer
      dsimp only
      split_ifs <;> simp [section_writes, section_write, hik]
    split_ifs at h
    all_goals first
      | (simp only [Option.some.injEq, Prod.mk.injEq] at h
         obtain ⟨_, rfl⟩ := h
         first | rfl | exact hw _)
      | exact (ih _ _ h).trans (hw _)

theorem section_writes_plain_other (k : Nat) {t1 t2 : Target} (e : Event)
    (h : t2.trace = t1.trace ++ [e]) (he : ∀ j a b r, e ≠ Event.write_buffer (Xfer.sec j) a b r) :
    section_writes k t2.trace = section_writes k t1.trace := by
  unfold section_writes
  rw [h, List.filterMap_append]
  cases e with
  | write_buffer x a b r =>
    cases x with
    | sec j => exact absurd rfl (he j a b r)
    | _ => simp [section_write]
  | _ => simp [section_write]

theorem alloc_section_writes (env : Env) (t : Target) (a : Area) (size k : Nat) :
    section_writes k (target_alloc_working_area env t a size).2.trace
      = section_writes k t.trace := by
  unfold target_alloc_working_area
  cases env.alloc_working_area t size <;>
    exact section_writes_plain_other k _ rfl (by intro j a b r; simp)

theorem alloc_alt_section_writes (env : Env) (t : Target) (a : Area) (size k : Nat) :
    section_writes k (target_alloc_alt_working_area env t a size).2.trace
      = section_writes k t.trace := by
  unfold target_alloc_alt_working_area
  cases env.alloc_alt_working_area t size <;>
    exact section_writes_plain_other k _ rfl (by intro j a b r; simp)

theorem free_section_writes (t : Target) (a : Area) (wa : Option working_area) (k : Nat) :
    section_writes k (target_free_working_area t a wa).trace = section_writes k t.trace := by
  cases wa with
  | none => rfl
  | some w => exact section_writes_plain_other k _ rfl (by intro j a b r; simp)

theorem free_alt_section_writes (t : Target) (a : Area) (wa : Option working_area) (k : Nat) :
    section_writes k (target_free_alt_working_area t a wa).trace = section_writes k t.trace := by
  cases wa with
  | none => rfl
  | some w => exact section_writes_plain_other k _ rfl (by intro j a b r; simp)

theorem on_error_section_writes (t : Target) (stub : esp32_flash_stub) (k : Nat) :
    section_writes k (stub_load_on_error t stub).trace = section_writes k t.trace := by
  unfold stub_load_on_error
  dsimp only
  rw [free_alt_section_writes, free_alt_section_writes, free_section_writes,
    free_section_writes]

/-- What the placement of a list of sections does when it succeeds: writes of
these sections only, and the pools grown by the areas the stub points to (as
long as there is at most one section of a kind). -/
theorem sections_loop_ok (env : Env) (fuel : Nat) (secs : List imagesection) (i : Nat)
    (t : Target) (stub : esp32_flash_stub) (t' : Target) (stub' : esp32_flash_stub)
    (h : sections_loop env fuel secs i t stub = some (ERROR_OK, t', stub')) :
    (∀ k, i + secs.length ≤ k → section_writes k t'.trace = section_writes k t.trace) ∧
    ((secs.filter is_exec).length = 0 → stub'.code = stub.code ∧ t'.areas = t.areas) ∧
    ((secs.filter (fun s => !is_exec s)).length = 0 →
      stub'.data = stub.data ∧ t'.alt_areas = t.alt_areas) ∧
    ((secs.filter is_exec).length ≤ 1 → stub.code = none →
      t'.areas = stub'.code.toList ++ t.areas) ∧
    ((secs.filter (fun s => !is_exec s)).length ≤ 1 → stub.data = none →
      t'.alt_areas = stub'.data.toList ++ t.alt_areas) := by
  induction secs generalizing i t stub with
  | nil =>
    simp only [sections_loop, Option.some.injEq, Prod.mk.injEq] at h
    obtain ⟨_, rfl, rfl⟩ := h
    exact ⟨fun _ _ => rfl, fun _ => ⟨rfl, rfl⟩, fun _ => ⟨rfl, rfl⟩,
      fun _ hc => by rw [hc]; rfl, fun _ hd => by rw [hd]; rfl⟩
  | cons sec rest ih =>
    rw [sections_loop] at h
    split_ifs at h with hx
    · have hex : is_exec sec = true := by simp [is_exec, hx]
      have hsw := alloc_section_writes env t Area.code sec.size
      have hpool : ∀ wa, (target_alloc_working_area env t Area.code sec.size).1 = some wa →
          (target_alloc_working_area env t Area.code sec.size).2.areas = wa :: t.areas ∧
          (target_alloc_working_area env t Area.code sec.size).2.alt_areas = t.alt_areas := by
        intro wa
        unfold target_alloc_working_area
        cases env.alloc_working_area t sec.size with
        | none => simp
        | some w => intro hw; simp only [Option.some.injEq] at hw; subst hw; exact ⟨rfl, rfl⟩
      revert hsw hpool h
      cases target_alloc_working_area env t Area.code sec.size with
      | mk res t1 =>
        cases res with
        | none =>
          intro h
          simp only [Option.some.injEq, Prod.mk.injEq] at h
          exact absurd h.1 (by decide)
        | some wa =>
          intro h hsw hpool
          dsimp only at h
          split_ifs at h with hadr
          · simp only [Option.some.injEq, Prod.mk.injEq] at h
            exact absurd h.1 (by decide)
          · cases hc : section_copy_loop env i sec fuel t1 0 with
            | none => rw [hc] at h; simp at h
            | some r =>
              obtain ⟨rv2, t2⟩ := r
              rw [hc] at h
              dsimp only at h
              split_ifs at h with hrv2
              · simp only [Option.some.injEq, Prod.mk.injEq] at h
                exact absurd h.1 hrv2
              · obtain ⟨i1, i2, i3, i4, i5⟩ := ih _ _ _ h
                obtain ⟨p1, p2⟩ := section_copy_loop_pools env i sec fuel t1 0 rv2 t2 hc
                obtain ⟨q1, q2⟩ := hpool wa rfl
                dsimp only at q1 q2
                refine ⟨?_, ?_, ?_, ?_, ?_⟩
                · intro k hk
                  simp only [List.length_cons] at hk
                  rw [i1 k (by omega),
                    section_copy_loop_other env i k (by omega) sec fuel t1 0 rv2 t2 hc]
                  exact hsw k
                · intro h0
                  simp [List.filter_cons, hex] at h0
                · intro h0
                  have hr : (rest.filter (fun s => !is_exec s)).length = 0 := by
                    simpa [List.filter_cons, hex] using h0
                  obtain ⟨a, b⟩ := i3 hr
                  exact ⟨a, by rw [b, p2, q2]⟩
                · intro h1 hcn
                  have hr : (rest.filter is_exec).length = 0 := by
                    simp only [List.filter_cons, hex, if_true, List.length_cons] at h1
                    omega
                  obtain ⟨a, b⟩ := i2 hr
                  rw [a, b, p1, q1]
                  rfl
                · intro h1 hdn
                  have hr : (rest.filter (fun s => !is_exec s)).length ≤ 1 := by
                    simpa [List.filter_cons, hex] using h1
                  rw [i5 hr hdn, p2, q2]
    · have hex : is_exec sec = false := by simp [is_exec, hx]
      have hsw := alloc_alt_section_writes env t Area.data sec.size
      have hpool : ∀ wa, (target_alloc_alt_working_area env t Area.data sec.size).1 = some wa →
          (target_alloc_alt_working_area env t Area.data sec.size).2.alt_areas
            = wa :: t.alt_areas ∧
          (target_alloc_alt_working_area env t Area.data sec.size).2.areas = t.areas := by
        intro wa
        unfold target_alloc_alt_working_area
        cases env.alloc_alt_working_area t sec.size with
        | none => simp
        | some w => intro hw; simp only [Option.some.injEq] at hw; subst hw; exact ⟨rfl, rfl⟩
      revert hsw hpool h
      cases target_alloc_alt_working_area env t Area.data sec.size with
      | mk res t1 =>
        cases res with
        | none =>
          intro h
          simp only [Option.some.injEq, Prod.mk.injEq] at h
          exact absurd h.1 (by decide)
        | some wa =>
          intro h hsw hpool
          dsimp only at h
          split_ifs at h with hadr
          · simp only [Option.some.injEq, Prod.mk.injEq] at h
            exact absurd h.1 (by decide)
          · cases hc : section_copy_loop env i sec fuel t1 0 with
            | none => rw [hc] at h; simp at h
            | some r =>
              obtain ⟨rv2, t2⟩ := r
              rw [hc] at h
              dsimp only at h
              split_ifs at h with hrv2
              · simp only [Option.some.injEq, Prod.mk.injEq] at h
                exact absurd h.1 hrv2
              · obtain ⟨i1, i2, i3, i4, i5⟩ := ih _ _ _ h
                obtain ⟨p1, p2⟩ := section_copy_loop_pools env i sec fuel t1 0 rv2 t2 hc
                obtain ⟨q1, q2⟩ := hpool wa rfl
                dsimp only at q1 q2
                refine ⟨?_, ?_, ?_, ?_, ?_⟩
                · intro k hk
                  simp only [List.length_cons] at hk
                  rw [i1 k (by omega),
                    section_copy_loop_other env i k (by omega) sec fuel t1 0 rv2 t2 hc]
                  exact hsw k
                · intro h0
                  have hr : (rest.filter is_exec).length = 0 := by
                    simpa [List.filter_cons, hex] using h0
                  obtain ⟨a, b⟩ := i2 hr
                  exact ⟨a, by rw [b, p1, q2]⟩
                · intro h0
                  simp [List.filter_cons, hex] at h0
                · intro h1 hcn
                  have hr : (rest.filter is_exec).length ≤ 1 := by
                    simpa [List.filter_cons, hex] using h1
                  rw [i4 hr hcn, p1, q2]
                · intro h1 hdn
                  have hr : (rest.filter (fun s => !is_exec s)).length = 0 := by
                    simp only [List.filter_cons, hex, Bool.not_false, if_true,
                      List.length_cons] at h1
                    omega
                  obtain ⟨a, b⟩ := i3 hr
                  rw [a, b, p2, q1]
                  rfl

theorem sections_loop_append (env : Env) (fuel : Nat) (pre rest : List imagesection) (i : Nat)
    (t : Target) (stub : esp32_flash_stub) (t1 : Target) (stub1 : esp32_flash_stub)
    (h : sections_loop env fuel pre i t stub = some (ERROR_OK, t1, stub1)) :
    sections_loop env fuel (pre ++ rest) i t stub
      = sections_loop env fuel rest (i + pre.length) t1 stub1 := by
  induction pre generalizing i t stub with
  | nil =>
    simp only [sections_loop, Option.some.injEq, Prod.mk.injEq] at h
    obtain ⟨_, rfl, rfl⟩ := h
    rfl
  | cons sec pre' ih =>
    rw [sections_loop] at h
    rw [List.cons_append, sections_loop]
    have hlen : i + (sec :: pre').length = i + 1 + pre'.length := by
      simp only [List.length_cons]; omega
    rw [hlen]
    split_ifs at h ⊢ with hx
    · revert h
      cases target_alloc_working_area env t Area.code sec.size with
      | mk res t1' =>
        cases res with
        | none =>
          intro h
          simp only [Option.some.injEq, Prod.mk.injEq] at h
          exact absurd h.1 (by decide)
        | some wa =>
          intro h
          dsimp only at h ⊢
          split_ifs at h ⊢ with hadr
          · simp only [Option.some.injEq, Prod.mk.injEq] at h
            exact absurd h.1 (by decide)
          · cases hc : section_copy_loop env i sec fuel t1' 0 with
            | none => rw [hc] at h; simp at h
            | some r =>
              obtain ⟨rv2, t2⟩ := r
              rw [hc] at h
              dsimp only at h ⊢
              split_ifs at h ⊢ with hrv2
              · simp only [Option.some.injEq, Prod.mk.injEq] at h
                exact absurd h.1 hrv2
              · exact ih _ _ _ h
    · revert h
      cases target_alloc_alt_working_area env t Area.data sec.size with
      | mk res t1' =>
        cases res with
        | none =>
          intro h
          simp only [Option.some.injEq, Prod.mk.injEq] at h
          exact absurd h.1 (by decide)
        | some wa =>
          intro h
          dsimp only at h ⊢
          split_ifs at h ⊢ with hadr
          · simp only [Option.some.injEq, Prod.mk.injEq] at h
            exact absurd h.1 (by decide)
          · cases hc : section_copy_loop env i sec fuel t1' 0 with
            | none => rw [hc] at h; simp at h
            | some r =>
              obtain ⟨rv2, t2⟩ := r
              rw [hc] at h
              dsimp only at h ⊢
              split_ifs at h ⊢ with hrv2
              · simp only [Option.some.injEq, Prod.mk.injEq] at h
                exact absurd h.1 hrv2
              · exact ih _ _ _ h

theorem stub_load_of_sections_fail (env : Env) (fuel : Nat) (t : Target)
    (stub : esp32_flash_stub) (rv : Int) (t1 : Target) (stub1 : esp32_flash_stub)
    (hop : (env.image_open t).1 = ERROR_OK)
    (hs : sections_loop env fuel (env.image_open t).2.sections 0 t
      { stub with code := none, data := none, stack := none, algo := none }
        = some (rv, t1, stub1))
    (hrv : rv ≠ ERROR_OK) :
    esp32_stub_load env fuel t stub = some (rv, stub_load_on_error t1 stub1, stub1) := by
  unfold esp32_stub_load
  dsimp only
  rw [if_neg (by simp [hop]), hs]
  dsimp only
  rw [if_pos hrv]

theorem filter_length_mid {α : Type} (p : α → Bool) (pre post : List α) (x : α) :
    ((pre ++ x :: post).filter p).length
      = (pre.filter p).length + (if p x then 1 else 0) + (post.filter p).length := by
  rw [List.filter_append, List.length_append, List.filter_cons]
  split_ifs <;> simp
  omega

/-- For a stub image of at most one executable and at most one data
section, if the sections before some section were placed and copied and the
working area allocated for that section lies at an address other than the
section's base address, the stub load returns `ERROR_FAIL`, writes no byte of
that section, and leaves both pools of working areas as they were before the
load. -/
theorem mismatch_rolls_back (env : Env) (fuel : Nat) (t : Target) (stub : esp32_flash_stub)
    (pre post : List imagesection) (sec : imagesection) (t1 : Target)
    (stub1 : esp32_flash_stub) (wa : working_area)
    (hop : (env.image_open t).1 = ERROR_OK)
    (hsecs : (env.image_open t).2.sections = pre ++ sec :: post)
    (hex : ((env.image_open t).2.sections.filter is_exec).length ≤ 1)
    (hda : ((env.image_open t).2.sections.filter (fun s => !is_exec s)).length ≤ 1)
    (hpre : sections_loop env fuel pre 0 t
      { stub with code := none, data := none, stack := none, algo := none }
        = some (ERROR_OK, t1, stub1))
    (hal : (if is_exec sec then env.alloc_working_area t1 sec.size
      else env.alloc_alt_working_area t1 sec.size) = some wa)
    (hmis : wa.address ≠ sec.base_address) :
    ∃ t' stub', esp32_stub_load env fuel t stub = some (ERROR_FAIL, t', stub') ∧
      section_writes pre.length t'.trace = section_writes pre.length t.trace ∧
      t'.areas = t.areas ∧ t'.alt_areas = t.alt_areas := by
  obtain ⟨k1, k2, k3, k4, k5⟩ := sections_loop_ok env fuel pre 0 t _ t1 stub1 hpre
  obtain ⟨-, -, -, hstack, halgo⟩ := sections_loop_spec env fuel pre 0 t _ _ t1 stub1 hpre
  dsimp only at hstack halgo
  rw [hsecs, filter_length_mid] at hex hda
  have hsw := k1 pre.length (by omega)
  have hsl := sections_loop_append env fuel pre (sec :: post) 0 t _ t1 stub1 hpre
  rw [← hsecs, sections_loop] at hsl
  by_cases hx : sec.flags &&& ELF_PHF_EXEC ≠ 0
  · have hxe : is_exec sec = true := by simp [is_exec, hx]
    rw [hxe, if_pos rfl] at hal
    simp only [hxe, if_true] at hex
    rw [if_pos hx] at hsl
    have h0 : (pre.filter is_exec).length = 0 := by omega
    have h1 : (pre.filter (fun s => !is_exec s)).length ≤ 1 := by omega
    obtain ⟨hc, ha⟩ := k2 h0
    have hd := k5 h1 rfl
    dsimp only at hc
    have hall : target_alloc_working_area env t1 Area.code sec.size
        = (some wa,
            { t1 with
              areas := wa :: t1.areas
              trace := t1.trace ++ [Event.alloc Area.code sec.size (some wa)] }) := by
      unfold target_alloc_working_area
      rw [hal]
    rw [hall] at hsl
    dsimp only at hsl
    rw [if_pos hmis] at hsl
    refine ⟨_, _, stub_load_of_sections_fail env fuel t stub _ _ _ hop hsl (by decide),
      ?_, ?_, ?_⟩
    · rw [on_error_section_writes]
      exact (section_writes_plain_other _ _ rfl (by intro j a b r; simp)).trans hsw
    · simp only [stub_load_on_error, target_free_working_area, halgo, hstack,
        target_free_alt_working_area]
      cases hdd : stub1.data with
      | none => simp [ha]
      | some d => simp [ha]
    · simp only [stub_load_on_error, target_free_working_area, halgo, hstack,
        target_free_alt_working_area]
      cases hdd : stub1.data with
      | none => rw [hdd] at hd; simpa using hd
      | some d => rw [hdd] at hd; simp [hd]
  · have hxe : is_exec sec = false := by simp [is_exec, hx]
    rw [hxe] at hal
    simp only [Bool.false_eq_true, if_false] at hal
    simp only [hxe, Bool.not_false, if_true] at hda
    rw [if_neg hx] at hsl
    have h0 : (pre.filter (fun s => !is_exec s)).length = 0 := by omega
    have h1 : (pre.filter is_exec).length ≤ 1 := by
      simp only [hxe, Bool.false_eq_true, if_false] at hex; omega
    obtain ⟨hc, ha⟩ := k3 h0
    have hd := k4 h1 rfl
    dsimp only at hc
    have hall : target_alloc_alt_working_area env t1 Area.data sec.size
        = (some wa,
            { t1 with
              alt_areas := wa :: t1.alt_areas
              trace := t1.trace ++ [Event.alloc Area.data sec.size (some wa)] }) := by
      unfold target_alloc_alt_working_area
      rw [hal]
    rw [hall] at hsl
    dsimp only at hsl
    rw [if_pos hmis] at hsl
    refine ⟨_, _, stub_load_of_sections_fail env fuel t stub _ _ _ hop hsl (by decide),
      ?_, ?_, ?_⟩
    · rw [on_error_section_writes]
      exact (section_writes_plain_other _ _ rfl (by intro j a b r; simp)).trans hsw
    · simp only [stub_load_on_error, target_free_working_area, halgo, hstack,
        target_free_alt_working_area]
      cases hdd : stub1.code with
      | none => rw [hdd] at hd; simpa using hd
      | some d => rw [hdd] at hd; simp [hd]
    · simp only [stub_load_on_error, target_free_working_area, halgo, hstack,
        target_free_alt_working_area]
      cases hdd : stub1.code with
      | none => simp [ha]
      | some d => simp [ha]

set_option maxRecDepth 100000 in
/-- The data section of the misfit image is given an area 16 bytes below its
base address: the load fails and both pools are as before. -/
theorem mismatch_rolls_back_witness :
    ∃ t' stub', esp32_stub_load (demo_env_image misfit_image) 9
        (demo_target target_state.TARGET_HALTED) (stub_init 8) = some (ERROR_FAIL, t', stub') ∧
      section_writes 1 t'.trace = section_writes 1 (demo_target target_state.TARGET_HALTED).trace ∧
      t'.areas = (demo_target target_state.TARGET_HALTED).areas ∧
      t'.alt_areas = (demo_target target_state.TARGET_HALTED).alt_areas :=
  mismatch_rolls_back (demo_env_image misfit_image) 9 (demo_target target_state.TARGET_HALTED)
    (stub_init 8) [{ base_address := 0x40090000, size := 8, flags := 5 }] []
    { base_address := 0x3FFE0010, size := 4, flags := 6 } misfit_placed.2.1 misfit_placed.2.2
    { address := 0x3FFE0000, size := 4 } rfl rfl (by decide) (by decide) rfl (by decide)
    (by decide)

set_option maxRecDepth 100000 in
/-- C14, the code at a failing input: the stub image has two executable
sections; the first is placed at its base address, the second is given an area
8 bytes below its base address.  No working area is allocated before the load;
the load returns `ERROR_FAIL` and writes nothing of the second section, but the
area of the first section is still allocated when it returns, and so it is
when the erase that asked for the load returns. -/
theorem stub_load_leaks_earlier_area :
    (demo_target target_state.TARGET_HALTED).areas = [] ∧
    (esp32_stub_load (demo_env_image twin_image) 9 (demo_target target_state.TARGET_HALTED)
        (stub_init 8)).map (fun r => (r.1, r.2.1.areas))
      = some (ERROR_FAIL, [{ address := 0x40090000, size := 8 }]) ∧
    (esp32_stub_load (demo_env_image twin_image) 9 (demo_target target_state.TARGET_HALTED)
        (stub_init 8)).map (fun r => section_writes 1 r.2.1.trace) = some [] ∧
    demo_probed_bank.target.areas = [] ∧
    (esp32_erase (demo_env_image twin_image) 9 demo_probed_bank 0 0).map
        (fun r => (r.1, r.2.areas))
      = some (ERROR_FAIL, [{ address := 0x40090000, size := 8 }]) := by
  decide

set_option maxRecDepth 100000 in
/-- The same loss without any failure: with two executable sections both placed
at their base addresses the erase succeeds, and the area of the first section
is still allocated when it returns. -/
theorem stub_cleanup_keeps_earlier_area :
    demo_probed_bank.target.areas = [] ∧
    (esp32_erase (demo_env_image paired_image) 9 demo_probed_bank 0 0).map
        (fun r => (r.1, r.2.areas))
      = some (ERROR_OK, [{ address := 0x40090000, size := 8 }]) := by
  decide

/-! ### The stack pointer handed to the stub -/

theorem and_clear_low4 (x : Nat) (hx : x < 2 ^ 32) :
    x &&& 0xFFFFFFFFFFFFFFF0 = x / 16 * 16 := by
  apply Nat.eq_of_testBit_eq
  intro i
  have hm : (0xFFFFFFFFFFFFFFF0 : Nat) = (2 ^ 60 - 1) <<< 4 := by decide
  have hd : x / 16 * 16 = (x >>> 4) <<< 4 := by
    rw [Nat.shiftLeft_eq, Nat.shiftRight_eq_div_pow]
  rw [Nat.testBit_and, hm, hd, Nat.testBit_shiftLeft, Nat.testBit_shiftLeft,
    Nat.testBit_shiftRight, Nat.testBit_two_pow_sub_one]
  by_cases h4 : 4 ≤ i
  · have e : 4 + (i - 4) = i := by omega
    rw [e]
    by_cases h60 : i - 4 < 60
    · simp [h4, h60]
    · have hf : x.testBit i = false := by
        apply Nat.testBit_lt_two_pow
        calc x < 2 ^ 32 := hx
          _ ≤ 2 ^ i := Nat.pow_le_pow_right (by decide) (by omega)
      simp [hf]
  · simp [h4]

theorem stack_top_lt (a : Nat) : stack_top a < 2 ^ 32 := by
  unfold stack_top u32
  dsimp only
  split_ifs <;> exact Nat.mod_lt _ (by decide)

theorem stack_top_spec (a : Nat) (h : a + 1024 < 2 ^ 32) :
    stack_top a = (a + 1024) / 16 * 16 := by
  unfold stack_top
  have hu : u32 (a + ESP32_STUB_STACK_SZ) = a + 1024 := Nat.mod_eq_of_lt h
  dsimp only
  rw [hu]
  split_ifs with hm
  · rw [and_clear_low4 _ h]
    unfold u32
    apply Nat.mod_eq_of_lt
    have : (a + 1024) / 16 * 16 ≤ a + 1024 := Nat.div_mul_le_self _ _
    omega
  · omega

/-- C15: after a successful stub load the stack-pointer slot (slot 1) holds the
value `T` computed from the address `A` of the stack area; when the end of the
area `A + 1024` is below `2^32`, `T` is `A + 1024` with its low four bits
cleared: a multiple of 16, at most `A + 1024`, less than 16 below it, and
equal to it when `A + 1024` is already aligned. -/
theorem stack_pointer_aligned (env : Env) (fuel : Nat) (t : Target) (stub : esp32_flash_stub)
    (t' : Target) (stub' : esp32_flash_stub) (st : working_area)
    (h : esp32_stub_load env fuel t stub = some (ERROR_OK, t', stub'))
    (hlen : 1 < stub.reg_params.length) (hst : stub'.stack = some st) :
    buf_get_u32 stub' 1 = stack_top st.address ∧
    (st.address + 1024 < 2 ^ 32 →
      stack_top st.address = (st.address + 1024) / 16 * 16 ∧
      stack_top st.address % 16 = 0 ∧
      stack_top st.address ≤ st.address + 1024 ∧
      st.address + 1024 - stack_top st.address < 16 ∧
      ((st.address + 1024) % 16 = 0 → stack_top st.address = st.address + 1024)) := by
  obtain ⟨t1, stub1, st0, t2, al, t8, hsl, -, hstub, -⟩ := stub_load_ok_form env fuel t stub _ _ h
  obtain ⟨-, hrp, -⟩ := sections_loop_spec env fuel _ _ _ _ _ _ _ hsl
  have hst0 : st0 = st := by
    rw [hstub] at hst
    simpa [buf_set_u32] using hst
  subst hst0
  refine ⟨?_, ?_⟩
  · have hl1 : 1 < stub1.reg_params.length := by rw [hrp]; exact hlen
    rw [hstub]
    simp only [buf_get_u32, buf_set_u32, List.getD_eq_getElem?_getD]
    rw [List.getElem?_set_ne (by decide), List.getElem?_set_ne (by decide),
      List.getElem?_set_ne (by decide), List.getElem?_set_self (by simpa using hl1)]
    exact Nat.mod_eq_of_lt (stack_top_lt _)
  · intro h32
    have hs := stack_top_spec st0.address h32
    refine ⟨hs, ?_, ?_, ?_, ?_⟩ <;> omega

set_option maxRecDepth 100000 in
/-- Witness of C15: the stack area of the demo target lies at `0x3FFE0004`, the
stack pointer is `0x3FFE0400`. -/
theorem stack_pointer_aligned_witness :
    buf_get_u32 demo_loaded.2.2 1 = stack_top 0x3FFE0004 ∧
    stack_top 0x3FFE0004 = (0x3FFE0004 + 1024) / 16 * 16 :=
  have h := stack_pointer_aligned (demo_env 4096) 9 (demo_target target_state.TARGET_HALTED)
    (stub_init 8) demo_loaded.2.1 demo_loaded.2.2 { address := 0x3FFE0004, size := 1024 }
    rfl (by decide) (by decide)
  ⟨h.1, (h.2 (by decide)).1⟩

set_option maxRecDepth 100000 in
/-- Counterexample to C15 as stated: when the stack area is placed at
`0xFFFFFC00`, the last 1024 bytes of the 32-bit address space, the stub load
succeeds and the sum `A + 1024` wraps to 0, so the stack-pointer slot holds 0,
which lies `2^32` below the end of the area. -/
theorem stack_top_wraps :
    (esp32_stub_load top_stack_env 9 (demo_target target_state.TARGET_HALTED)
        (stub_init 8)).map (fun r => (r.1, r.2.2.stack, buf_get_u32 r.2.2 1))
      = some (ERROR_OK, some { address := 0xFFFFFC00, size := 1024 }, 0) ∧
    stack_top 0xFFFFFC00 = 0 ∧ ¬ (0xFFFFFC00 + 1024 - stack_top 0xFFFFFC00 < 16) := by
  decide

/-! ### Fill of the stack, then check -/

theorem store_replicate_inside (mem : Nat → Nat) (a n v x : Nat) (h1 : a ≤ x) (h2 : x < a + n) :
    store mem a (List.replicate n v) x = v := by
  unfold store
  rw [if_pos ⟨h1, by simpa using h2⟩]
  have hlt : x - a < n := by omega
  simp [List.getD_eq_getElem?_getD, List.getElem?_replicate, hlt]

theorem fill_stack_loop_stamps (env : Env) (sa : Nat) (hsa : sa + ESP32_STUB_STACK_SZ ≤ 2 ^ 32)
    (fuel : Nat) (t : Target) (i : Nat) (hfuel : ESP32_STUB_STACK_SZ - i ≤ fuel)
    (hok : (fill_stack_loop env sa fuel t i).1 = ERROR_OK) :
    (∀ k, i ≤ k → k < ESP32_STUB_STACK_SZ →
      (fill_stack_loop env sa fuel t i).2.mem (sa + k) = ESP32_STUB_STACK_STAMP) ∧
    (∀ k, k < i → (fill_stack_loop env sa fuel t i).2.mem (sa + k) = t.mem (sa + k)) := by
  induction fuel generalizing t i with
  | zero =>
    refine ⟨fun k h1 h2 => ?_, fun k _ => rfl⟩
    omega
  | succ fuel ih =>
    rw [fill_stack_loop] at hok ⊢
    by_cases hlt : i < ESP32_STUB_STACK_SZ
    · rw [if_pos hlt] at hok ⊢
      dsimp only at hok ⊢
      have hu : u32 (sa + i) = sa + i := by
        apply Nat.mod_eq_of_lt
        unfold ESP32_STUB_STACK_SZ at hsa hlt
        omega
      rw [hu] at hok ⊢
      by_cases hwr : (target_write_buffer env t Xfer.canary (sa + i)
          (List.replicate (if ESP32_STUB_STACK_SZ - i ≥ 256 then 256 else ESP32_STUB_STACK_SZ - i)
            ESP32_STUB_STACK_STAMP)).1 ≠ ERROR_OK
      · rw [if_pos hwr] at hok
        exact absurd hok hwr
      · rw [if_neg hwr] at hok ⊢
        have hmem := write_buffer_mem_ok env t Xfer.canary (sa + i)
          (List.replicate (if ESP32_STUB_STACK_SZ - i ≥ 256 then 256 else ESP32_STUB_STACK_SZ - i)
            ESP32_STUB_STACK_STAMP) (not_not.mp hwr)
        have hsz : 1 ≤ (if ESP32_STUB_STACK_SZ - i ≥ 256 then 256 else ESP32_STUB_STACK_SZ - i) ∧
            i + (if ESP32_STUB_STACK_SZ - i ≥ 256 then 256 else ESP32_STUB_STACK_SZ - i)
              ≤ ESP32_STUB_STACK_SZ := by
          split_ifs <;> omega
        obtain ⟨a1, a2⟩ := ih _ _ (by omega) hok
        refine ⟨fun k h1 h2 => ?_, fun k h1 => ?_⟩
        · by_cases hk : i + (if ESP32_STUB_STACK_SZ - i ≥ 256 then 256
              else ESP32_STUB_STACK_SZ - i) ≤ k
          · exact a1 k hk h2
          · rw [a2 k (by omega), hmem]
            exact store_replicate_inside _ _ _ _ _ (by omega) (by omega)
        · rw [a2 k (by omega), hmem]
          exact store_outside _ _ _ _ (Or.inl (by omega))
    · refine ⟨fun k h1 h2 => ?_, fun k _ => ?_⟩
      · omega
      · rw [if_neg hlt]

theorem check_stack_first_byte_ok (env : Env) (t : Target) (stack_addr : Nat)
    (hrd : ∀ t a n, env.read_buffer t a n = ERROR_OK) (h32 : stack_addr < 2 ^ 32)
    (hb : t.mem stack_addr = ESP32_STUB_STACK_STAMP) :
    (esp32_stub_check_stack env t stack_addr).1 = ERROR_OK := by
  have hu : u32 (stack_addr + 0) = stack_addr := by
    unfold u32; rw [Nat.add_zero]; exact Nat.mod_eq_of_lt h32
  have hstep : esp32_stub_check_stack env t stack_addr =
      match scan_chunk 0 ERROR_OK (load t.mem stack_addr 256) 0 with
      | some r => (r, { t with trace := t.trace ++
          [Event.read_buffer Xfer.canary stack_addr 256 ERROR_OK] })
      | none => check_stack_loop env stack_addr 1023
          { t with trace := t.trace ++ [Event.read_buffer Xfer.canary stack_addr 256 ERROR_OK] }
          256 ERROR_OK := by
    show check_stack_loop env stack_addr (1023 + 1) t 0 ERROR_OK = _
    rw [check_stack_loop]
    simp only [target_read_buffer_ok env hrd, hu, ESP32_STUB_STACK_SZ]
    rfl
  rw [hstep, load_succ]
  unfold scan_chunk
  rw [if_neg (by simp [hb])]
  rcases scan_chunk_later 0 ERROR_OK (load t.mem (stack_addr + 1) 255) (0 + 1) (by omega)
    with h | h
  · rw [h]; exact check_stack_loop_later env hrd _ _ _ _ (by omega)
  · rw [h]

/-- C16: for every target and every stack address whose 1024-byte region lies
in the 32-bit address space, when the stack fill succeeds every byte of the
region equals the stamp `0xCE` and memory outside the region is unchanged; a
stack check of a target whose region still holds these bytes, read back
without transport error, returns `ERROR_OK`. -/
theorem fill_then_check (env : Env) (t : Target) (stack_addr : Nat)
    (hsa : stack_addr + 1024 ≤ 2 ^ 32)
    (hfill : (esp32_stub_fill_stack env t stack_addr).1 = ERROR_OK) :
    (∀ k, k < 1024 →
      (esp32_stub_fill_stack env t stack_addr).2.mem (stack_addr + k) = 0xCE) ∧
    (∀ a, a < stack_addr ∨ stack_addr + 1024 ≤ a →
      (esp32_stub_fill_stack env t stack_addr).2.mem a = t.mem a) ∧
    (∀ (env2 : Env) (t2 : Target),
      (∀ k, k < 1024 → t2.mem (stack_addr + k)
        = (esp32_stub_fill_stack env t stack_addr).2.mem (stack_addr + k)) →
      (∀ t a n, env2.read_buffer t a n = ERROR_OK) →
      (esp32_stub_check_stack env2 t2 stack_addr).1 = ERROR_OK) := by
  have hst := (fill_stack_loop_stamps env stack_addr hsa ESP32_STUB_STACK_SZ t 0 (by simp)
    hfill).1
  refine ⟨fun k hk => hst k (by omega) hk, fun a ha => ?_, fun env2 t2 hsame hrd => ?_⟩
  · exact fill_stack_mem_outside env stack_addr hsa _ t 0 a ha
  · apply check_stack_first_byte_ok env2 t2 stack_addr hrd (by omega)
    have h0 := hsame 0 (by decide)
    rw [Nat.add_zero] at h0
    rw [h0]
    have := hst 0 (by omega) (by decide)
    rwa [Nat.add_zero] at this

set_option maxRecDepth 100000 in
/-- Witness of C16: fill and check of the stack region at `0x3FFE0004` of the
demo target. -/
theorem fill_then_check_witness :
    (esp32_stub_fill_stack (demo_env 4096) (demo_target target_state.TARGET_HALTED)
      0x3FFE0004).2.mem (0x3FFE0004 + 1023) = 0xCE ∧
    (esp32_stub_check_stack (demo_env 4096)
      (esp32_stub_fill_stack (demo_env 4096) (demo_target target_state.TARGET_HALTED)
        0x3FFE0004).2 0x3FFE0004).1 = ERROR_OK :=
  have h := fill_then_check (demo_env 4096) (demo_target target_state.TARGET_HALTED) 0x3FFE0004
    (by decide) (by decide)
  ⟨h.1 1023 (by decide), h.2.2 (demo_env 4096) _ (fun _ _ => rfl) (fun _ _ _ => rfl)⟩

/-! ### The copy loop of a section -/

theorem chunks_flatten (l : List Nat) (c : Nat) :
    ((List.range c).map (fun k => (l.drop (k * 512)).take 512)).flatten = l.take (c * 512) := by
  induction c with
  | zero => simp
  | succ c ih =>
    rw [List.range_succ, List.map_append, List.flatten_append, ih, Nat.add_mul, Nat.one_mul,
      List.take_add]
    simp

theorem copy_plan_flatten (base : Nat) (content : List Nat) :
    ((copy_plan base content).map Prod.snd).flatten = content := by
  unfold copy_plan
  rw [List.map_map]
  have : (Prod.snd ∘ fun k => (base + k * 512, (content.drop (k * 512)).take 512))
      = fun k => (content.drop (k * 512)).take 512 := rfl
  rw [this, chunks_flatten]
  apply List.take_of_length_le
  omega

theorem section_write_same (env : Env) (t : Target) (i a : Nat) (b : List Nat) :
    section_writes i (target_write_buffer env t (Xfer.sec i) a b).2.trace
      = section_writes i t.trace ++ [(a, b)] := by
  unfold target_write_buffer
  dsimp only
  split_ifs <;> simp [section_writes, section_write]

theorem section_copy_steps (env : Env) (i : Nat) (sec : imagesection) (content : List Nat)
    (hlen : content.length = sec.size) (hsz : sec.size < 2 ^ 32)
    (hbase : sec.base_address + sec.size ≤ 2 ^ 32)
    (hrd : ∀ t off nb, off + nb ≤ sec.size →
      env.image_read_section t i off nb = (ERROR_OK, (content.drop off).take nb))
    (fuel j : Nat) (t : Target) (hfuel : (sec.size + 511) / 512 - j < fuel) :
    ∃ rv t' m, section_copy_loop env i sec fuel t (min (j * 512) sec.size) = some (rv, t') ∧
      m ≤ (sec.size + 511) / 512 - j ∧
      section_writes i t'.trace = section_writes i t.trace ++
        (List.range' j m).map (fun k =>
          (sec.base_address + k * 512, (content.drop (k * 512)).take 512)) ∧
      (rv = ERROR_OK → m = (sec.size + 511) / 512 - j) ∧
      ((∀ t a b, env.write_buffer t a b = ERROR_OK) → rv = ERROR_OK) := by
  induction fuel generalizing j t with
  | zero => omega
  | succ fuel ih =>
    rw [section_copy_loop]
    by_cases hlt : min (j * 512) sec.size < sec.size
    · have hj : j * 512 < sec.size := by omega
      have hjn : j < (sec.size + 511) / 512 := by
        have := (chunks_lt_iff 512 sec.size j (by decide)).mp hj
        simpa using this
      have hg : min (j * 512) sec.size = j * 512 := by omega
      rw [if_pos hlt, hg]
      dsimp only
      have hnb : (if sec.size - j * 512 > 512 then 512 else sec.size - j * 512)
          = min 512 (sec.size - j * 512) := by
        split_ifs <;> omega
      rw [hnb, hrd t (j * 512) (min 512 (sec.size - j * 512)) (by omega)]
      dsimp only
      rw [if_neg (by simp)]
      have hbytes : (content.drop (j * 512)).take (min 512 (sec.size - j * 512))
          = (content.drop (j * 512)).take 512 := by
        rw [List.take_eq_take]
        simp only [List.length_drop, hlen]
        omega
      have hblen : ((content.drop (j * 512)).take 512).length = min 512 (sec.size - j * 512) := by
        simp only [List.length_take, List.length_drop, hlen]
      rw [hbytes]
      have hu : u32 (sec.base_address + j * 512) = sec.base_address + j * 512 :=
        Nat.mod_eq_of_lt (by omega)
      rw [hu]
      have hw := section_write_same env t i (sec.base_address + j * 512)
        ((content.drop (j * 512)).take 512)
      by_cases hwr : (target_write_buffer env t (Xfer.sec i) (sec.base_address + j * 512)
          ((content.drop (j * 512)).take 512)).1 ≠ ERROR_OK
      · rw [if_pos hwr]
        refine ⟨_, _, 1, rfl, by omega, ?_, fun h0 => absurd h0 hwr, fun hall => ?_⟩
        · rw [hw]; simp [List.range']
        · exfalso
          apply hwr
          unfold target_write_buffer
          dsimp only
          rw [if_pos (hall _ _ _)]
          exact hall _ _ _
      · rw [if_neg hwr, hblen]
        have hnext : u32 (j * 512 + min 512 (sec.size - j * 512))
            = min ((j + 1) * 512) sec.size := by
          unfold u32
          rw [Nat.mod_eq_of_lt (by omega), Nat.add_mul]
          omega
        rw [hnext]
        obtain ⟨rv, t', m, e1, e2, e3, e4, e5⟩ := ih (j + 1)
          (target_write_buffer env t (Xfer.sec i) (sec.base_address + j * 512)
            ((content.drop (j * 512)).take 512)).2 (by omega)
        refine ⟨rv, t', m + 1, e1, by omega, ?_, fun h0 => ?_, e5⟩
        · rw [e3, hw, List.append_assoc]
          congr 1
        · have := e4 h0
          omega
    · rw [if_neg hlt]
      have hj : ¬ j * 512 < sec.size := by omega
      have hjn : ¬ j < (sec.size + 511) / 512 := by
        intro hc
        have := (chunks_lt_iff 512 sec.size j (by decide)).mpr (by simpa using hc)
        exact hj this
      exact ⟨_, _, 0, rfl, by omega, by simp, fun _ => by omega, fun _ => rfl⟩

/-- C17: for every stub section of size `n` (a 32-bit value) placed at its
base address, with the area inside the 32-bit address space, when each image
read returns exactly the bytes requested, the copy loop returns (given fuel
for `ceil(n / 512) + 1` rounds) after at most `ceil(n / 512)` target writes,
which are the first writes of the copy plan: write `k` goes to `base + 512 k`
and carries the at most 512 bytes of the content from `512 k` on; when it
returns `ERROR_OK`, which it does when every target write succeeds, it has made
all `ceil(n / 512)` writes of the plan, whose bytes concatenated are the
content of the section. -/
theorem section_copy_plan (env : Env) (i : Nat) (sec : imagesection) (content : List Nat)
    (fuel : Nat) (t : Target)
    (hlen : content.length = sec.size) (hsz : sec.size < 2 ^ 32)
    (hbase : sec.base_address + sec.size ≤ 2 ^ 32)
    (hrd : ∀ t off nb, off + nb ≤ sec.size →
      env.image_read_section t i off nb = (ERROR_OK, (content.drop off).take nb))
    (hfuel : (sec.size + 511) / 512 < fuel) :
    ∃ rv t' m, section_copy_loop env i sec fuel t 0 = some (rv, t') ∧
      m ≤ (sec.size + 511) / 512 ∧
      section_writes i t'.trace
        = section_writes i t.trace ++ (copy_plan sec.base_address content).take m ∧
      (rv = ERROR_OK → m = (sec.size + 511) / 512) ∧
      ((∀ t a b, env.write_buffer t a b = ERROR_OK) → rv = ERROR_OK) ∧
      (copy_plan sec.base_address content).length = (sec.size + 511) / 512 ∧
      (∀ k, k < (sec.size + 511) / 512 →
        (copy_plan sec.base_address content)[k]?
          = some (sec.base_address + k * 512, (content.drop (k * 512)).take 512) ∧
        ((content.drop (k * 512)).take 512).length ≤ 512) ∧
      ((copy_plan sec.base_address content).map Prod.snd).flatten = content := by
  obtain ⟨rv, t', m, e1, e2, e3, e4, e5⟩ :=
    section_copy_steps env i sec content hlen hsz hbase hrd fuel 0 t (by omega)
  simp only [Nat.zero_mul, Nat.zero_min, Nat.sub_zero] at e1 e2
  refine ⟨rv, t', m, e1, e2, ?_, fun h0 => by have := e4 h0; omega, e5, ?_, ?_, ?_⟩
  · rw [e3]
    congr 1
    unfold copy_plan
    rw [← List.map_take, List.take_range, hlen, Nat.min_eq_left e2, List.range_eq_range']
  · simp [copy_plan, hlen]
  · intro k hk
    refine ⟨?_, ?_⟩
    · simp [copy_plan, hlen, hk]
    · simp only [List.length_take]; omega
  · exact copy_plan_flatten _ _

/-- Witness of C17: a section of 600 bytes is copied by two writes, of 512
and of 88 bytes. -/
theorem section_copy_plan_witness :
    ∃ rv t' m, section_copy_loop (demo_env_content demo_content) 0
        { base_address := 0x40090000, size := 600, flags := 5 } 9
        (demo_target target_state.TARGET_HALTED) 0 = some (rv, t') ∧
      m ≤ (600 + 511) / 512 ∧
      section_writes 0 t'.trace
        = section_writes 0 (demo_target target_state.TARGET_HALTED).trace ++
          (copy_plan 0x40090000 demo_content).take m ∧
      (rv = ERROR_OK → m = (600 + 511) / 512) ∧ rv = ERROR_OK :=
  have ⟨rv, t', m, h1, h2, h3, h4, h5, _⟩ := section_copy_plan (demo_env_content demo_content) 0
    { base_address := 0x40090000, size := 600, flags := 5 } demo_content 9
    (demo_target target_state.TARGET_HALTED) (by simp [demo_content]) (by decide) (by decide)
    (fun _ _ _ _ => rfl) (by decide)
  ⟨rv, t', m, h1, h2, h3, h4, h5 (fun _ _ _ => rfl)⟩

/-! ### The chunks of a read -/

theorem host_copy_frame (buf : List Nat) (idx count : Nat) (bytes : List Nat)
    (h1 : idx + bytes.length ≤ count) (h2 : count ≤ buf.length) :
    (host_copy buf idx bytes).length = buf.length ∧
      (host_copy buf idx bytes).drop count = buf.drop count := by
  unfold host_copy
  constructor
  · simp only [List.length_append, List.length_take, List.length_drop]
    omega
  · have hl : (buf.take idx ++ bytes).length = idx + bytes.length := by
      simp only [List.length_append, List.length_take]
      omega
    rw [List.drop_append_eq_append_drop, hl, List.drop_of_length_le (by omega), List.nil_append,
      List.drop_drop]
    congr 1
    omega

theorem chunk_sizes_sum (S count m : Nat) :
    ((List.range m).map (fun k => min S (count - k * S))).sum = min (m * S) count := by
  induction m with
  | zero => simp
  | succ m ih =>
    rw [List.range_succ, List.map_append, List.sum_append, ih, Nat.add_mul]
    simp only [List.map_cons, List.map_nil, List.sum_cons, List.sum_nil, Nat.add_zero]
    omega

theorem read_loop_steps (env : Env) (tb : working_area) (count : Nat)
    (hS : 1 ≤ tb.size) (h32 : count < 2 ^ 32) (fuel j : Nat) (t : Target)
    (stub : esp32_flash_stub) (buf : List Nat) (rv0 : Int)
    (r : Int × Target × esp32_flash_stub × List Nat) (n : Nat)
    (hsh : stub_shape stub n) (hbuf : count ≤ buf.length)
    (h : read_loop env tb count fuel t stub buf (min (j * tb.size) count) rv0 = some r)
    (hok : r.1 = ERROR_OK) :
    host_reads r.2.1.trace = host_reads t.trace ++
      (List.range' j ((count + tb.size - 1) / tb.size - j)).map (fun k =>
        (k * tb.size, min tb.size (count - k * tb.size))) ∧
    (invocations r.2.1.trace).length
      = (invocations t.trace).length + ((count + tb.size - 1) / tb.size - j) ∧
    r.2.2.2.length = buf.length ∧ r.2.2.2.drop count = buf.drop count := by
  induction fuel generalizing j t stub buf rv0 with
  | zero => simp [read_loop] at h
  | succ fuel ih =>
    rw [read_loop] at h
    dsimp only at h
    by_cases hlt : min (j * tb.size) count < count
    · have hj : j * tb.size < count := by omega
      have hjn := (chunks_lt_iff tb.size count j hS).mp hj
      have hg : min (j * tb.size) count = j * tb.size := by omega
      have hnext := chunk_total_next tb.size count j
      have hd : chunk_size tb count (j * tb.size) = min tb.size (count - j * tb.size) :=
        chunk_size_eq_min tb count (j * tb.size)
      have hu : u32 (j * tb.size + min tb.size (count - j * tb.size))
          = min ((j + 1) * tb.size) count := by
        rw [u32_of_lt (j * tb.size + min tb.size (count - j * tb.size)) (by omega)]
        rw [hg] at hnext
        exact hnext
      rw [if_pos hlt, hg, hd] at h
      have hsh1 := buf_set_u32_shape stub (STUB_ARGS_FUNC_START + 2)
        (min tb.size (count - j * tb.size)) _ hsh
      obtain ⟨X, x1, x2, x3, x4, x5, x6⟩ := run_algo_outcome env t
        (buf_set_u32 stub (STUB_ARGS_FUNC_START + 2) (min tb.size (count - j * tb.size))) n hsh1
      obtain ⟨w1, w2, w3, w4⟩ := read_data_obs env (esp32_run_algo env t
        (buf_set_u32 stub (STUB_ARGS_FUNC_START + 2)
          (min tb.size (count - j * tb.size)))).2.1 (j * tb.size) tb.address
        (min tb.size (count - j * tb.size))
      split_ifs at h with h1 h2 h3
      · simp only [Option.some.injEq] at h; subst h
        exact absurd hok h1
      · simp only [Option.some.injEq] at h; subst h
        exact absurd hok (show ERROR_FAIL ≠ ERROR_OK by decide)
      · simp only [Option.some.injEq] at h; subst h
        exact absurd hok h3
      · rw [hu] at h
        have hrd := (read_buffer_ok env _ (Xfer.flash_data (j * tb.size)) tb.address
          (min tb.size (count - j * tb.size)) (not_not.mp h3)).1
        have hblen : (target_read_buffer env (esp32_run_algo env t
            (buf_set_u32 stub (STUB_ARGS_FUNC_START + 2)
              (min tb.size (count - j * tb.size)))).2.1 (Xfer.flash_data (j * tb.size))
            tb.address (min tb.size (count - j * tb.size))).2.1.length
              = min tb.size (count - j * tb.size) := by
          rw [hrd, load_length]
        obtain ⟨f1, f2⟩ := host_copy_frame buf (j * tb.size) count _
          (by rw [hblen]; omega) hbuf
        obtain ⟨r1, r2, r3, r4⟩ := ih (j + 1) _ _ _ _ (run_algo_shape env _ _ _ hsh1)
          (by rw [f1]; exact hbuf) h
        have hr : (count + tb.size - 1) / tb.size - j
            = ((count + tb.size - 1) / tb.size - (j + 1)) + 1 := by omega
        refine ⟨?_, ?_, by rw [r3, f1], by rw [r4, f2]⟩
        · rw [r1, w4, x5, hr, List.range'_succ, List.map_cons, List.append_assoc]
          rfl
        · rw [r2, w2, x3]
          omega
    · rw [if_neg hlt] at h
      simp only [Option.some.injEq] at h; subst h
      have hjn : ¬ j < (count + tb.size - 1) / tb.size := by
        intro hc
        have := (chunks_lt_iff tb.size count j hS).mpr hc
        omega
      have hz : (count + tb.size - 1) / tb.size - j = 0 := by omega
      rw [hz]
      simp

/-- C18: a read of `count` bytes that returns success with a granted scratch
area of size `S >= 1` makes exactly `ceil(count / S)` stub invocations and as
many copies into the host buffer, copy `k` starting at index `k * S` with size
`min(S, count - k * S)`; each size is between 1 and `S`, each range ends where
the next begins (the last at `count`), so the ranges are disjoint, lie in and
cover `[0, count)`, the sizes sum to `count`, and the host buffer keeps its
length and its content from index `count` on.  With enough fuel the read
returns whenever the stub loads and granted areas are as large as requested. -/
theorem read_chunk_ranges (env : Env) (fuel : Nat) (bank : flash_bank) (buffer : List Nat)
    (offset count : Nat)
    (hh : bank.target.state = target_state.TARGET_HALTED) (h32 : count < 2 ^ 32) :
    ((esp32_stub_load env fuel bank.target (stub_init (STUB_ARGS_FUNC_START + 4))).map
        Prod.fst = some ERROR_OK → count < fuel →
      (∀ t n wa, env.alloc_alt_working_area t n = some wa → n ≤ wa.size) →
      (esp32_read env fuel bank buffer offset count).isSome = true) ∧
    (∀ t' out size tb, esp32_read env fuel bank buffer offset count = some (ERROR_OK, t', out) →
      (scratch_requests t'.trace).getLast? = some (size, some tb) → 1 ≤ tb.size →
      count ≤ buffer.length →
      host_reads t'.trace = host_reads bank.target.trace ++
        (List.range ((count + tb.size - 1) / tb.size)).map (fun k =>
          (k * tb.size, min tb.size (count - k * tb.size))) ∧
      (invocations t'.trace).length
        = (invocations bank.target.trace).length + (count + tb.size - 1) / tb.size ∧
      (∀ k, k < (count + tb.size - 1) / tb.size →
        1 ≤ min tb.size (count - k * tb.size) ∧
        min tb.size (count - k * tb.size) ≤ tb.size ∧
        k * tb.size + min tb.size (count - k * tb.size) ≤ count ∧
        k * tb.size + min tb.size (count - k * tb.size)
          = if k + 1 < (count + tb.size - 1) / tb.size then (k + 1) * tb.size else count) ∧
      ((List.range ((count + tb.size - 1) / tb.size)).map (fun k =>
        min tb.size (count - k * tb.size))).sum = count ∧
      out.length = buffer.length ∧ out.drop count = buffer.drop count) := by
  constructor
  · intro hload hf hcontract
    obtain ⟨t1, stub1, hl, hc1, -, -⟩ := stub_load_ok env fuel bank.target _ hload
    obtain ⟨m, -, -, h3, -, -, h6, -, -⟩ :=
      scratch_alloc_loop_spec env (count + 1) t1 count (by omega)
    rw [esp32_read_eq env fuel bank buffer offset count t1 stub1 hh hl]
    generalize scratch_alloc_loop env (count + 1) t1 count = r at h6
    obtain ⟨res, t2⟩ := r
    cases res with
    | none => rfl
    | some wa =>
      dsimp only
      obtain ⟨t0, ht0, -⟩ := h6 wa rfl
      have hsz := hcontract t0 _ wa ht0
      have hS : count = 0 ∨ 1 ≤ wa.size := by
        by_cases hc0 : count = 0
        · exact Or.inl hc0
        · right
          have : count / 2 ^ m ≠ 0 := by
            by_cases hm : 0 < m
            · exact h3 hm
            · have hm0 : m = 0 := by omega
              subst hm0
              simpa using hc0
          have hpos : 1 ≤ count / 2 ^ m := Nat.one_le_iff_ne_zero.mpr this
          exact le_trans hpos hsz
      have ht := read_loop_terminates env wa count fuel
        (transfer_setup t2 stub1 STUB_CMD_FLASH_READ offset wa).1
        (transfer_setup t2 stub1 STUB_CMD_FLASH_READ offset wa).2 buffer 0 ERROR_OK hS h32
        (Nat.zero_le _) (by omega)
      cases hlp : read_loop env wa count fuel
          (transfer_setup t2 stub1 STUB_CMD_FLASH_READ offset wa).1
          (transfer_setup t2 stub1 STUB_CMD_FLASH_READ offset wa).2 buffer 0 ERROR_OK with
      | none => rw [hlp] at ht; simp at ht
      | some q => rfl
  · intro t' out size tb hres hlast hS hbuf
    obtain ⟨t1, stub1, tb0, t2, t3, stub3, hl, hsc, hlp, rfl⟩ :=
      read_ok_inv env fuel bank buffer offset count t' out hres
    obtain ⟨hc1, hsh, -⟩ := stub_load_spec env fuel _ _ _ _ _ hl
    have hsh1 := hsh _ (stub_init_shape (STUB_ARGS_FUNC_START + 4))
    obtain ⟨m, h1, -, -, -, -, -, -, -⟩ :=
      scratch_alloc_loop_spec env (count + 1) t1 count (by omega)
    rw [hsc] at h1
    dsimp only at h1
    have hi1 := (idle_stub_load env fuel _ _ _ _ _ hl).idle_obs
    have hsa := idle_scratch_alloc env (count + 1) t1 count
    rw [hsc] at hsa
    have hi2 := hsa.idle_obs
    have hsu := calm_transfer_setup t2 stub1 STUB_CMD_FLASH_READ offset tb0
    have hi3 := (idle_transfer_setup t2 stub1 STUB_CMD_FLASH_READ offset tb0).idle_obs
    have hcl := calm_transfer_cleanup t3 stub3 tb0
    have hi4 := (idle_transfer_cleanup t3 stub3 tb0).idle_obs
    have htb : tb0 = tb := by
      rw [hcl.1.scratch_requests, read_loop_scratch _ _ _ _ _ _ _ _ _ _ hlp,
        hsu.1.scratch_requests, h1, List.getLast?_append] at hlast
      simp only [List.getLast?_singleton, Option.or_some, Option.some.injEq,
        Prod.mk.injEq] at hlast
      exact hlast.2
    subst htb
    have hz : min (0 * tb0.size) count = 0 := by simp
    have hlp0 := hlp
    rw [← hz] at hlp0
    obtain ⟨s1, s2, s3, s4⟩ := read_loop_steps env tb0 count hS h32 fuel 0 _ _ _ _ _ _
      (transfer_setup_shape _ _ _ _ _ _ hsh1) hbuf hlp0 rfl
    have hN : ¬ ((count + tb0.size - 1) / tb0.size) * tb0.size < count := by
      intro hc
      have := (chunks_lt_iff tb0.size count _ hS).mp hc
      omega
    refine ⟨?_, ?_, ?_, ?_, s3, s4⟩
    · rw [hi4.2.2.2, s1, hi3.2.2.2, hi2.2.2.2, hi1.2.2.2, List.range_eq_range', Nat.sub_zero]
    · rw [hi4.2.1, s2, hi3.2.1, hi2.2.1, hi1.2.1, Nat.sub_zero]
    · intro k hk
      have hk1 := (chunks_lt_iff tb0.size count k hS).mpr hk
      have hk2 := chunks_lt_iff tb0.size count (k + 1) hS
      rw [Nat.add_mul, Nat.one_mul] at hk2 ⊢
      refine ⟨by omega, by omega, by omega, ?_⟩
      split_ifs with hc
      · have := hk2.mpr hc
        omega
      · have : ¬ (k * tb0.size + tb0.size < count) := fun h => hc (hk2.mp h)
        omega
    · rw [chunk_sizes_sum]
      omega

set_option maxRecDepth 100000 in
/-- Witness of C18: eight bytes read through a scratch area of four bytes come
in two copies of four bytes, at the host indices 0 and 4. -/
theorem read_chunk_ranges_witness :
    host_reads demo_chunked_read.2.1.trace
      = host_reads demo_halted_bank.target.trace ++
        (List.range ((8 + 4 - 1) / 4)).map (fun k => (k * 4, min 4 (8 - k * 4))) ∧
    (invocations demo_chunked_read.2.1.trace).length
      = (invocations demo_halted_bank.target.trace).length + (8 + 4 - 1) / 4 ∧
    demo_chunked_read.2.2.length = (List.replicate 8 0).length :=
  have h := (read_chunk_ranges (demo_env 1032) 9 demo_halted_bank (List.replicate 8 0) 4096 8
    rfl (by decide)).2 demo_chunked_read.2.1 demo_chunked_read.2.2 4
    { address := 0x3FFE0404, size := 4 } rfl (by decide) (by decide) (by decide)
  ⟨h.1, h.2.1, h.2.2.2.2.1⟩

/-! ### The byte range of an erase -/

theorem erase_invocation_slots (env : Env) (fuel : Nat) (bank : flash_bank) (first last : Int)
    (hh : bank.target.state = target_state.TARGET_HALTED)
    (hrange : 0 ≤ first ∧ first ≤ last ∧ last < bank.num_sectors)
    (hload : (esp32_stub_load env fuel bank.target (stub_init (STUB_ARGS_FUNC_START + 3))).map
      Prod.fst = some ERROR_OK) :
    ∃ rv t' slots, esp32_erase env fuel bank first last = some (rv, t') ∧
      invocations t'.trace = invocations bank.target.trace ++ [slots] ∧
      slots.getD (STUB_ARGS_FUNC_START + 1) 0
        = u32 ((first * SPI_FLASH_SEC_SIZE) % 2 ^ 32).toNat ∧
      slots.getD (STUB_ARGS_FUNC_START + 2) 0
        = u32 (((last - first + 1) * SPI_FLASH_SEC_SIZE) % 2 ^ 32).toNat := by
  obtain ⟨t1, stub1, hl, hc1, hs1, -⟩ := stub_load_ok env fuel bank.target _ hload
  obtain ⟨h0, h1, h2⟩ := hrange
  have hi1 := (idle_stub_load env fuel _ _ _ _ _ hl).idle_obs
  have hs2 := buf_set_u32_shape stub1 (STUB_ARGS_FUNC_START + 0) STUB_CMD_FLASH_ERASE _ hs1
  have hs3 := buf_set_u32_shape _ (STUB_ARGS_FUNC_START + 1)
    ((first * SPI_FLASH_SEC_SIZE) % 2 ^ 32).toNat _ hs2
  have hpre := (((idle_init t1 (STUB_ARGS_FUNC_START + 0) "a2").etrans
    (idle_init _ (STUB_ARGS_FUNC_START + 1) "a3")).etrans
    (idle_init _ (STUB_ARGS_FUNC_START + 2) "a4")).idle_obs
  have hpost := fun (t : Target) (s : esp32_flash_stub) =>
    ((((idle_destroy t (STUB_ARGS_FUNC_START + 0)).etrans
      (idle_destroy _ (STUB_ARGS_FUNC_START + 1))).etrans
      (idle_destroy _ (STUB_ARGS_FUNC_START + 2))).etrans (idle_cleanup _ s)).idle_obs
  let stub4 := buf_set_u32 (buf_set_u32 (buf_set_u32 stub1 (STUB_ARGS_FUNC_START + 0)
      STUB_CMD_FLASH_ERASE) (STUB_ARGS_FUNC_START + 1)
      ((first * SPI_FLASH_SEC_SIZE) % 2 ^ 32).toNat) (STUB_ARGS_FUNC_START + 2)
      (((last - first + 1) * SPI_FLASH_SEC_SIZE) % 2 ^ 32).toNat
  let t4 := init_reg_param (init_reg_param (init_reg_param t1 (STUB_ARGS_FUNC_START + 0) "a2")
      (STUB_ARGS_FUNC_START + 1) "a3") (STUB_ARGS_FUNC_START + 2) "a4"
  have heq : esp32_erase env fuel bank first last =
      some (run_status (esp32_run_algo env t4 stub4).1 (esp32_run_algo env t4 stub4).2.2,
        esp32_stub_cleanup (destroy_reg_param (destroy_reg_param (destroy_reg_param
          (esp32_run_algo env t4 stub4).2.1 (STUB_ARGS_FUNC_START + 0))
          (STUB_ARGS_FUNC_START + 1)) (STUB_ARGS_FUNC_START + 2))
          (esp32_run_algo env t4 stub4).2.2) := by
    unfold esp32_erase
    rw [if_neg (by simp [hh]), if_neg (by simp [h0, h1, h2]), hl]
    simp only [ne_eq, not_true_eq_false, if_false]
  refine ⟨_, _, bound_slots stub4, heq, ?_, ?_, ?_⟩
  · rw [(hpost _ _).2.1, run_algo_invocations, hpre.2.1, hi1.2.1]
  · show (bound_slots (buf_set_u32 _ _ _)).getD _ 0 = _
    rw [bound_slots_set_other _ _ _ _ (by decide)]
    exact bound_slots_set_same _ _ _ _ hs2 (by decide) (by decide)
  · exact bound_slots_set_same _ _ _ _ hs3 (by decide) (by decide)

/-- C19: for every bank of 32-bit size that has been probed, on a halted
target whose stub loads, and every sector range `0 <= first <= last < sector
count`, the erase invokes the stub with address `first * 4096` and size
`(last - first + 1) * 4096` in the slots, neither of them wrapped around 32
bits, and the byte range lies inside the bank: address + size
`= (last + 1) * 4096 <= sector count * 4096 <= bank size`. -/
theorem erase_range_in_bank (env : Env) (fuel : Nat) (b : flash_bank) (first last : Int)
    (hsize : b.size < 2 ^ 32)
    (hh : (esp32_probe b).2.target.state = target_state.TARGET_HALTED)
    (hrange : 0 ≤ first ∧ first ≤ last ∧ last < (esp32_probe b).2.num_sectors)
    (hload : (esp32_stub_load env fuel (esp32_probe b).2.target
      (stub_init (STUB_ARGS_FUNC_START + 3))).map Prod.fst = some ERROR_OK) :
    ∃ rv t' slots, esp32_erase env fuel (esp32_probe b).2 first last = some (rv, t') ∧
      invocations t'.trace = invocations (esp32_probe b).2.target.trace ++ [slots] ∧
      ((slots.getD (STUB_ARGS_FUNC_START + 1) 0 : Nat) : Int) = first * 4096 ∧
      ((slots.getD (STUB_ARGS_FUNC_START + 2) 0 : Nat) : Int) = (last - first + 1) * 4096 ∧
      ((slots.getD (STUB_ARGS_FUNC_START + 1) 0 + slots.getD (STUB_ARGS_FUNC_START + 2) 0 : Nat)
        : Int) = (last + 1) * 4096 ∧
      (last + 1) * 4096 ≤ (esp32_probe b).2.num_sectors * 4096 ∧
      (esp32_probe b).2.num_sectors * 4096 ≤ ((esp32_probe b).2.size : Int) ∧
      first * 4096 < 2 ^ 32 ∧ (last - first + 1) * 4096 < 2 ^ 32 := by
  obtain ⟨rv, t', slots, e1, e2, e3, e4⟩ :=
    erase_invocation_slots env fuel (esp32_probe b).2 first last hh hrange hload
  obtain ⟨h0, h1, h2⟩ := hrange
  have hns : (esp32_probe b).2.num_sectors = ((b.size / 4096 : Nat) : Int) := rfl
  have hsz : (esp32_probe b).2.size = b.size := rfl
  have hq : b.size / 4096 < 2 ^ 20 := by omega
  have hq2 : b.size / 4096 * 4096 ≤ b.size := Nat.div_mul_le_self _ _
  rw [hns] at h2 ⊢
  rw [hsz]
  have hA := erase_slot_value first h0 (by omega)
  have hB := erase_slot_value (last - first + 1) (by omega) (by omega)
  rw [← e3] at hA
  rw [← e4] at hB
  refine ⟨rv, t', slots, e1, e2, hA, hB, ?_, ?_, ?_, ?_, ?_⟩
  · push_cast
    rw [hA, hB]
    ring
  · omega
  · exact_mod_cast hq2
  · omega
  · omega

/-- Witness of C19: erase of sector 0 of the probed demo bank. -/
theorem erase_range_in_bank_witness :
    ∃ rv t' slots, esp32_erase (demo_env 4096) 9 (esp32_probe demo_halted_bank).2 0 0
        = some (rv, t') ∧
      invocations t'.trace = invocations (esp32_probe demo_halted_bank).2.target.trace ++ [slots] ∧
      ((slots.getD (STUB_ARGS_FUNC_START + 1) 0 : Nat) : Int) = 0 * 4096 ∧
      ((slots.getD (STUB_ARGS_FUNC_START + 2) 0 : Nat) : Int) = (0 - 0 + 1) * 4096 ∧
      ((slots.getD (STUB_ARGS_FUNC_START + 1) 0 + slots.getD (STUB_ARGS_FUNC_START + 2) 0 : Nat)
        : Int) = (0 + 1) * 4096 ∧
      (0 + 1) * 4096 ≤ (esp32_probe demo_halted_bank).2.num_sectors * 4096 ∧
      (esp32_probe demo_halted_bank).2.num_sectors * 4096
        ≤ ((esp32_probe demo_halted_bank).2.size : Int) ∧
      (0 : Int) * 4096 < 2 ^ 32 ∧ ((0 : Int) - 0 + 1) * 4096 < 2 ^ 32 :=
  erase_range_in_bank (demo_env 4096) 9 demo_halted_bank 0 0 (by decide) rfl (by decide)
    (by decide)

/-! ### The scratch retry of read and of write -/

theorem scratch_alloc_loop_answers (env : Env) (fuel : Nat) (t : Target) (n : Nat) :
    ∃ R : List (Nat × Option working_area),
      scratch_requests (scratch_alloc_loop env fuel t n).2.trace = scratch_requests t.trace ++ R ∧
      ∀ q ∈ R, ∃ t0, env.alloc_alt_working_area t0 q.1 = q.2 := by
  induction fuel generalizing t n with
  | zero => exact ⟨[], by simp [scratch_alloc_loop], by simp⟩
  | succ fuel ih =>
    rw [scratch_alloc_loop]
    unfold target_alloc_alt_working_area
    cases hal : env.alloc_alt_working_area t n with
    | some wa =>
      refine ⟨[(n, some wa)], by simp [scratch_requests, scratch_request], ?_⟩
      intro q hq
      simp only [List.mem_singleton] at hq
      subst hq
      exact ⟨t, hal⟩
    | none =>
      dsimp only
      have hq0 : ∀ q ∈ [((n, none) : Nat × Option working_area)],
          ∃ t0, env.alloc_alt_working_area t0 q.1 = q.2 := by
        intro q hq
        simp only [List.mem_singleton] at hq
        subst hq
        exact ⟨t, hal⟩
      split_ifs with hz
      · exact ⟨[(n, none)], by simp [scratch_requests, scratch_request], hq0⟩
      · obtain ⟨R, h1, h2⟩ := ih
          { t with trace := t.trace ++ [Event.alloc Area.scratch n none] } (n / 2)
        refine ⟨(n, none) :: R, ?_, ?_⟩
        · rw [h1]; simp [scratch_requests, scratch_request]
        · intro q hq
          rcases List.mem_cons.mp hq with rfl | hq
          · exact ⟨t, hal⟩
          · exact h2 q hq

theorem retry_last_size (n m : Nat) (h2 : n / 2 ^ (m + 1) = 0) (h3 : 0 < m → n / 2 ^ m ≠ 0)
    (hn : 1 ≤ n) : n / 2 ^ m = 1 := by
  have hpos : n / 2 ^ m ≠ 0 := by
    by_cases hm : 0 < m
    · exact h3 hm
    · have hm0 : m = 0 := by omega
      subst hm0
      simpa using (by omega : n ≠ 0)
  rw [← halving_step] at h2
  have : n / 2 / 2 ^ m = n / 2 ^ m / 2 := by
    rw [Nat.div_div_eq_div_mul, Nat.div_div_eq_div_mul, Nat.mul_comm]
  rw [this] at h2
  omega

theorem write_loop_first_copy (env : Env) (tb : working_area) (buffer : List Nat)
    (count fuel : Nat) (t : Target) (stub : esp32_flash_stub) (rv : Int)
    (r : Int × Target × esp32_flash_stub) (hc : 0 < count)
    (h : write_loop env tb buffer count fuel t stub 0 rv = some r) :
    ∃ rest, transfer_steps r.2.1.trace = transfer_steps t.trace ++
      Step.copy 0 tb.address (buffer.take (min tb.size count)) :: rest := by
  cases fuel with
  | zero => simp [write_loop] at h
  | succ fuel =>
    rw [write_loop, if_pos hc] at h
    dsimp only at h
    have hd : chunk_size tb count 0 = min tb.size count := by
      rw [chunk_size_eq_min]; simp
    rw [hd] at h
    simp only [List.drop_zero] at h
    have hw := transfer_steps_write_data env t 0 tb.address (buffer.take (min tb.size count))
    have key : ∀ t2 : Target, Emits regfree (target_write_buffer env t (Xfer.flash_data 0)
        tb.address (buffer.take (min tb.size count))).2 t2 →
        ∃ rest, transfer_steps t2.trace = transfer_steps t.trace ++
          Step.copy 0 tb.address (buffer.take (min tb.size count)) :: rest := by
      intro t2 ⟨evs, he, _⟩
      refine ⟨evs.filterMap transfer_step, ?_⟩
      unfold transfer_steps at hw ⊢
      rw [he, List.filterMap_append, hw]
      simp
    split_ifs at h
    · simp only [Option.some.injEq] at h; subst h
      exact key _ (Emits.erefl _ _)
    · simp only [Option.some.injEq] at h; subst h
      exact key _ (regfree_run_algo _ _ _)
    · simp only [Option.some.injEq] at h; subst h
      exact key _ (regfree_run_algo _ _ _)
    · exact key _ ((regfree_run_algo _ _ _).etrans (regfree_write_loop _ _ _ _ _ _ _ _ _ _ h))

theorem retry_answers (env : Env) (t1 : Target) (count m : Nat)
    (old : List (Nat × Option working_area)) (hold : scratch_requests t1.trace = old)
    (h1 : scratch_requests (scratch_alloc_loop env (count + 1) t1 count).2.trace
      = old ++ (List.range m).map (fun k => (count / 2 ^ k, none))
        ++ [(count / 2 ^ m, (scratch_alloc_loop env (count + 1) t1 count).1)]) :
    (∀ k, k < m → ∃ t0, env.alloc_alt_working_area t0 (count / 2 ^ k) = none) ∧
    (∃ t0, env.alloc_alt_working_area t0 (count / 2 ^ m)
      = (scratch_alloc_loop env (count + 1) t1 count).1) := by
  obtain ⟨R, r1, r2⟩ := scratch_alloc_loop_answers env (count + 1) t1 count
  rw [h1, hold, List.append_assoc] at r1
  have hR := List.append_cancel_left r1
  constructor
  · intro k hk
    exact r2 (count / 2 ^ k, none) (by
      rw [← hR]
      apply List.mem_append_left
      exact List.mem_map.mpr ⟨k, List.mem_range.mpr hk, rfl⟩)
  · exact r2 (count / 2 ^ m, (scratch_alloc_loop env (count + 1) t1 count).1) (by
      rw [← hR]
      exact List.mem_append_right _ (List.mem_singleton.mpr rfl))

/-- C7: on a halted target whose stub loads (leaving the target `t1`), the
retry loop of read requests the scratch sizes `count`, `count / 2`,
`count / 4`, ... from the allocator in that order (request `k` is
`count / 2 ^ k`, none after the first is zero), every request but the last
being refused by the allocator and the last being answered with what the loop
returns, so the loop stops at the first size granted; these are all the scratch
requests of a read that returns.  If the last request is refused too, the next
halved size is zero (the last size is 1 for a non-empty read) and read returns
the resource-not-available error, the buffer untouched, without any stub
invocation; if an area is granted (of at least one byte, or any area when
`count` is zero), read returns. -/
theorem read_scratch_retry (env : Env) (fuel : Nat) (bank : flash_bank) (buffer : List Nat)
    (offset count : Nat) (t1 : Target) (stub1 : esp32_flash_stub)
    (hh : bank.target.state = target_state.TARGET_HALTED)
    (hl : esp32_stub_load env fuel bank.target (stub_init (STUB_ARGS_FUNC_START + 4))
      = some (ERROR_OK, t1, stub1)) :
    ∃ m : Nat,
      (0 < m → count / 2 ^ m ≠ 0) ∧
      scratch_requests (scratch_alloc_loop env (count + 1) t1 count).2.trace
        = scratch_requests bank.target.trace
          ++ (List.range m).map (fun k => (count / 2 ^ k, none))
          ++ [(count / 2 ^ m, (scratch_alloc_loop env (count + 1) t1 count).1)] ∧
      (∀ k, k < m → ∃ t0, env.alloc_alt_working_area t0 (count / 2 ^ k) = none) ∧
      (∃ t0, env.alloc_alt_working_area t0 (count / 2 ^ m)
        = (scratch_alloc_loop env (count + 1) t1 count).1) ∧
      (∀ rv t' b', esp32_read env fuel bank buffer offset count = some (rv, t', b') →
        scratch_requests t'.trace
          = scratch_requests (scratch_alloc_loop env (count + 1) t1 count).2.trace) ∧
      ((scratch_alloc_loop env (count + 1) t1 count).1 = none →
        count / 2 ^ (m + 1) = 0 ∧ (1 ≤ count → count / 2 ^ m = 1) ∧
        esp32_read env fuel bank buffer offset count
          = some (ERROR_TARGET_RESOURCE_NOT_AVAILABLE,
              esp32_stub_cleanup (scratch_alloc_loop env (count + 1) t1 count).2 stub1, buffer) ∧
        invocations (esp32_stub_cleanup (scratch_alloc_loop env (count + 1) t1 count).2
          stub1).trace = invocations bank.target.trace) ∧
      (∀ wa, (scratch_alloc_loop env (count + 1) t1 count).1 = some wa →
        (count = 0 ∨ 1 ≤ wa.size) → count < 2 ^ 32 → count < fuel →
        (esp32_read env fuel bank buffer offset count).isSome = true) := by
  obtain ⟨hc1, -, -⟩ := stub_load_spec env fuel _ _ _ _ _ hl
  obtain ⟨m, h1, h2, h3, h4, -, -, -, -⟩ :=
    scratch_alloc_loop_spec env (count + 1) t1 count (by omega)
  obtain ⟨a1, a2⟩ := retry_answers env t1 count m _ rfl h1
  rw [hc1.1.scratch_requests] at h1
  have heq := esp32_read_eq env fuel bank buffer offset count t1 stub1 hh hl
  refine ⟨m, h3, h1, a1, a2, ?_, ?_, ?_⟩
  · intro rv t' b' hres
    rw [heq] at hres
    revert hres
    cases hr : scratch_alloc_loop env (count + 1) t1 count with
    | mk res t2 =>
      cases res with
      | none =>
        intro hres
        simp only [Option.some.injEq, Prod.mk.injEq] at hres
        obtain ⟨-, rfl, -⟩ := hres
        exact (calm_cleanup t2 stub1).1.scratch_requests
      | some tb =>
        intro hres
        dsimp only at hres
        cases hlp : read_loop env tb count fuel
            (transfer_setup t2 stub1 STUB_CMD_FLASH_READ offset tb).1
            (transfer_setup t2 stub1 STUB_CMD_FLASH_READ offset tb).2 buffer 0 ERROR_OK with
        | none => rw [hlp] at hres; simp at hres
        | some q =>
          obtain ⟨rv3, t3, stub3, b3⟩ := q
          rw [hlp] at hres
          simp only [Option.some.injEq, Prod.mk.injEq] at hres
          obtain ⟨-, rfl, -⟩ := hres
          rw [(calm_transfer_cleanup t3 stub3 tb).1.scratch_requests,
            read_loop_scratch _ _ _ _ _ _ _ _ _ _ hlp,
            (calm_transfer_setup t2 stub1 _ _ tb).1.scratch_requests]
  · intro hnone
    have hz := h2 hnone
    refine ⟨hz, fun hn => retry_last_size count m hz h3 hn, ?_, ?_⟩
    · rw [heq]
      revert hnone
      cases scratch_alloc_loop env (count + 1) t1 count with
      | mk res t2 =>
        intro hnone
        dsimp only at hnone
        subst hnone
        rfl
    · rw [(calm_cleanup _ stub1).1.invocations, h4, hc1.1.invocations]
  · intro wa hwa hS h32 hf
    rw [heq]
    revert hwa
    cases scratch_alloc_loop env (count + 1) t1 count with
    | mk res t2 =>
      intro hwa
      dsimp only at hwa
      subst hwa
      dsimp only
      have ht := read_loop_terminates env wa count fuel
        (transfer_setup t2 stub1 STUB_CMD_FLASH_READ offset wa).1
        (transfer_setup t2 stub1 STUB_CMD_FLASH_READ offset wa).2 buffer 0 ERROR_OK hS
        h32 (Nat.zero_le _) (by omega)
      cases hlp : read_loop env wa count fuel
          (transfer_setup t2 stub1 STUB_CMD_FLASH_READ offset wa).1
          (transfer_setup t2 stub1 STUB_CMD_FLASH_READ offset wa).2 buffer 0 ERROR_OK with
      | none => rw [hlp] at ht; simp at ht
      | some q => rfl

/-- C9, amended: in write as compiled (`ESP32_STUB_ASYNC_WRITE_ALGO` is 0) the
halving retry has no floor above zero.  On a halted target whose stub loads
(leaving the target `t1`), the retry loop of write requests `count / 2 ^ k`
for `k = 0 .. m`, every request but the last being refused by the allocator
and the last being answered with what the loop returns.  Write gives up with
the resource-not-available error, without any stub invocation and without any
data copy, only when the last request is refused and the next halved size is
zero, that is after the request of a single byte (for a non-empty write),
exactly as read does.  With any granted area of at least one byte write
returns and goes on with that area: its first transfer step is the copy of the
first `min(S, count)` host bytes to the address of the granted area, and when
it returns success its steps are the chunk plan over that area. -/
theorem write_scratch_retry (env : Env) (fuel : Nat) (bank : flash_bank) (buffer : List Nat)
    (offset count : Nat) (t1 : Target) (stub1 : esp32_flash_stub)
    (hh : bank.target.state = target_state.TARGET_HALTED)
    (hl : esp32_stub_load env fuel bank.target (stub_init (STUB_ARGS_FUNC_START + 4))
      = some (ERROR_OK, t1, stub1)) :
    ∃ m : Nat,
      (0 < m → count / 2 ^ m ≠ 0) ∧
      scratch_requests (scratch_alloc_loop env (count + 1) t1 count).2.trace
        = scratch_requests bank.target.trace
          ++ (List.range m).map (fun k => (count / 2 ^ k, none))
          ++ [(count / 2 ^ m, (scratch_alloc_loop env (count + 1) t1 count).1)] ∧
      (∀ k, k < m → ∃ t0, env.alloc_alt_working_area t0 (count / 2 ^ k) = none) ∧
      (∃ t0, env.alloc_alt_working_area t0 (count / 2 ^ m)
        = (scratch_alloc_loop env (count + 1) t1 count).1) ∧
      (∀ rv t', esp32_write env fuel bank buffer offset count = some (rv, t') →
        scratch_requests t'.trace
          = scratch_requests (scratch_alloc_loop env (count + 1) t1 count).2.trace) ∧
      ((scratch_alloc_loop env (count + 1) t1 count).1 = none →
        count / 2 ^ (m + 1) = 0 ∧ (1 ≤ count → count / 2 ^ m = 1) ∧
        esp32_write env fuel bank buffer offset count
          = some (ERROR_TARGET_RESOURCE_NOT_AVAILABLE,
              esp32_stub_cleanup (scratch_alloc_loop env (count + 1) t1 count).2 stub1) ∧
        invocations (esp32_stub_cleanup (scratch_alloc_loop env (count + 1) t1 count).2
          stub1).trace = invocations bank.target.trace ∧
        transfer_steps (esp32_stub_cleanup (scratch_alloc_loop env (count + 1) t1 count).2
          stub1).trace = transfer_steps bank.target.trace) ∧
      (∀ wa, (scratch_alloc_loop env (count + 1) t1 count).1 = some wa → 1 ≤ wa.size →
        1 ≤ count → count < 2 ^ 32 → count < fuel →
        ∃ rv t' rest, esp32_write env fuel bank buffer offset count = some (rv, t') ∧
          transfer_steps t'.trace = transfer_steps bank.target.trace ++
            Step.copy 0 wa.address (buffer.take (min wa.size count)) :: rest ∧
          (rv = ERROR_OK →
            transfer_steps t'.trace
              = transfer_steps bank.target.trace ++ chunk_plan wa buffer count)) := by
  obtain ⟨hc1, hsh, -⟩ := stub_load_spec env fuel _ _ _ _ _ hl
  have hsh1 := hsh _ (stub_init_shape (STUB_ARGS_FUNC_START + 4))
  obtain ⟨m, h1, h2, h3, h4, h5, -, -, -⟩ :=
    scratch_alloc_loop_spec env (count + 1) t1 count (by omega)
  obtain ⟨a1, a2⟩ := retry_answers env t1 count m _ rfl h1
  rw [hc1.1.scratch_requests] at h1
  have heq := esp32_write_eq env fuel bank buffer offset count t1 stub1 hh hl
  refine ⟨m, h3, h1, a1, a2, ?_, ?_, ?_⟩
  · intro rv t' hres
    rw [heq] at hres
    revert hres
    cases hr : scratch_alloc_loop env (count + 1) t1 count with
    | mk res t2 =>
      cases res with
      | none =>
        intro hres
        simp only [Option.some.injEq, Prod.mk.injEq] at hres
        obtain ⟨-, rfl⟩ := hres
        exact (calm_cleanup t2 stub1).1.scratch_requests
      | some tb =>
        intro hres
        dsimp only at hres
        cases hlp : write_loop env tb buffer count fuel
            (transfer_setup t2 stub1 STUB_CMD_FLASH_WRITE offset tb).1
            (transfer_setup t2 stub1 STUB_CMD_FLASH_WRITE offset tb).2 0 ERROR_OK with
        | none => rw [hlp] at hres; simp at hres
        | some q =>
          obtain ⟨rv3, t3, stub3⟩ := q
          rw [hlp] at hres
          simp only [Option.some.injEq, Prod.mk.injEq] at hres
          obtain ⟨-, rfl⟩ := hres
          rw [(calm_transfer_cleanup t3 stub3 tb).1.scratch_requests,
            write_loop_scratch _ _ _ _ _ _ _ _ _ _ hlp,
            (calm_transfer_setup t2 stub1 _ _ tb).1.scratch_requests]
  · intro hnone
    have hz := h2 hnone
    refine ⟨hz, fun hn => retry_last_size count m hz h3 hn, ?_, ?_, ?_⟩
    · rw [heq]
      revert hnone
      cases scratch_alloc_loop env (count + 1) t1 count with
      | mk res t2 =>
        intro hnone
        dsimp only at hnone
        subst hnone
        rfl
    · rw [(calm_cleanup _ stub1).1.invocations, h4, hc1.1.invocations]
    · rw [(calm_cleanup _ stub1).1.transfer_steps, h5, hc1.1.transfer_steps]
  · intro wa hwa hS hc h32 hf
    rw [heq]
    revert hwa h5
    cases scratch_alloc_loop env (count + 1) t1 count with
    | mk res t2 =>
      intro h5 hwa
      dsimp only at hwa h5
      subst hwa
      dsimp only
      have ht := write_loop_terminates env wa buffer count fuel
        (transfer_setup t2 stub1 STUB_CMD_FLASH_WRITE offset wa).1
        (transfer_setup t2 stub1 STUB_CMD_FLASH_WRITE offset wa).2 0 ERROR_OK (Or.inr hS)
        h32 (Nat.zero_le _) (by omega)
      cases hlp : write_loop env wa buffer count fuel
          (transfer_setup t2 stub1 STUB_CMD_FLASH_WRITE offset wa).1
          (transfer_setup t2 stub1 STUB_CMD_FLASH_WRITE offset wa).2 0 ERROR_OK with
      | none => rw [hlp] at ht; simp at ht
      | some q =>
        obtain ⟨rv3, t3, stub3⟩ := q
        have hsu := calm_transfer_setup t2 stub1 STUB_CMD_FLASH_WRITE offset wa
        have hcl := calm_transfer_cleanup t3 stub3 wa
        obtain ⟨rest, hfirst⟩ := write_loop_first_copy env wa buffer count fuel _ _ _ _
          (by omega) hlp
        refine ⟨rv3, _, rest, rfl, ?_, ?_⟩
        · rw [hcl.1.transfer_steps, hfirst, hsu.1.transfer_steps, h5, hc1.1.transfer_steps]
        · intro hok
          have hz : min (0 * wa.size) count = 0 := by simp
          have hlp0 := hlp
          rw [← hz] at hlp0
          rw [hcl.1.transfer_steps,
            write_loop_steps env wa buffer count hS h32 fuel 0 _ _ _ _
              (transfer_setup_shape _ _ _ _ _ _ hsh1) hlp0 hok,
            hsu.1.transfer_steps, h5, hc1.1.transfer_steps]
          unfold chunk_plan
          rw [List.range_eq_range', Nat.sub_zero]

set_option maxRecDepth 100000 in
/-- Witness of C7: a read of 8 bytes on the demo target with no room for any
scratch area: the requests of 8, 4, 2 and 1 bytes are refused (`m = 3`, nothing
granted) and read returns the resource-not-available error without any stub
invocation. -/
theorem read_scratch_retry_witness :
    (scratch_alloc_loop (demo_env 1028) (8 + 1) starved_loaded.2.1 8).1 = none ∧
    scratch_requests (scratch_alloc_loop (demo_env 1028) (8 + 1) starved_loaded.2.1 8).2.trace
      = scratch_requests demo_halted_bank.target.trace
        ++ (List.range 3).map (fun k => (8 / 2 ^ k, none)) ++ [(8 / 2 ^ 3, none)] ∧
    esp32_read (demo_env 1028) 9 demo_halted_bank (List.replicate 8 0) 0 8
      = some (ERROR_TARGET_RESOURCE_NOT_AVAILABLE,
          esp32_stub_cleanup (scratch_alloc_loop (demo_env 1028) (8 + 1)
            starved_loaded.2.1 8).2 starved_loaded.2.2, List.replicate 8 0) ∧
    invocations (esp32_stub_cleanup (scratch_alloc_loop (demo_env 1028) (8 + 1)
      starved_loaded.2.1 8).2 starved_loaded.2.2).trace
        = invocations demo_halted_bank.target.trace := by
  obtain ⟨m, -, h2, -, -, -, h6, -⟩ := read_scratch_retry (demo_env 1028) 9 demo_halted_bank
    (List.replicate 8 0) 0 8 starved_loaded.2.1 starved_loaded.2.2 rfl rfl
  have hn : (scratch_alloc_loop (demo_env 1028) (8 + 1) starved_loaded.2.1 8).1 = none := by
    decide
  have hlist : scratch_requests
      (scratch_alloc_loop (demo_env 1028) (8 + 1) starved_loaded.2.1 8).2.trace
        = [(8, none), (4, none), (2, none), (1, none)] := by decide
  have hm : m = 3 := by
    have := congrArg List.length h2
    rw [hlist] at this
    simp at this
    have h0 : (scratch_requests demo_halted_bank.target.trace).length = 0 := by decide
    omega
  subst hm
  rw [hn] at h2
  exact ⟨hn, h2, (h6 hn).2.2.1, (h6 hn).2.2.2⟩

set_option maxRecDepth 100000 in
/-- Witness of C9 (amended): a write of 2 bytes on the demo target with room
for one byte of scratch: the request of 2 bytes is refused, the request of 1
byte is granted (`m = 1`), and write goes on with that area, its first step
being the copy of the first host byte to the address of the area. -/
theorem write_scratch_retry_witness :
    (scratch_alloc_loop (demo_env 1029) (2 + 1) tight_loaded.2.1 2).1
      = some { address := 0x3FFE0404, size := 1 } ∧
    scratch_requests (scratch_alloc_loop (demo_env 1029) (2 + 1) tight_loaded.2.1 2).2.trace
      = scratch_requests demo_halted_bank.target.trace
        ++ (List.range 1).map (fun k => (2 / 2 ^ k, none))
        ++ [(2 / 2 ^ 1, some { address := 0x3FFE0404, size := 1 })] ∧
    ∃ rv t' rest, esp32_write (demo_env 1029) 3 demo_halted_bank [7, 9] 0 2 = some (rv, t') ∧
      transfer_steps t'.trace = transfer_steps demo_halted_bank.target.trace ++
        Step.copy 0 0x3FFE0404 ([7, 9].take (min 1 2)) :: rest := by
  obtain ⟨m, -, h2, -, -, -, -, h7⟩ := write_scratch_retry (demo_env 1029) 3 demo_halted_bank
    [7, 9] 0 2 tight_loaded.2.1 tight_loaded.2.2 rfl rfl
  have hg : (scratch_alloc_loop (demo_env 1029) (2 + 1) tight_loaded.2.1 2).1
      = some { address := 0x3FFE0404, size := 1 } := by decide
  have hlist : scratch_requests
      (scratch_alloc_loop (demo_env 1029) (2 + 1) tight_loaded.2.1 2).2.trace
        = [(2, none), (1, some { address := 0x3FFE0404, size := 1 })] := by decide
  have hm : m = 1 := by
    have := congrArg List.length h2
    rw [hlist] at this
    simp at this
    have h0 : (scratch_requests demo_halted_bank.target.trace).length = 0 := by decide
    omega
  subst hm
  rw [hg] at h2
  obtain ⟨rv, t', rest, w1, w2, -⟩ := h7 _ hg (by decide) (by decide) (by decide) (by decide)
  exact ⟨hg, h2, rv, t', rest, w1, w2⟩

end Esp32
